import Mathlib

/-!
Verification of the signal-forge business-discovery pipeline.

This file gives a shallow embedding of the scoring / rationale / query-builder
core of the repository (src/src/models, src/src/scoring, src/src/discovery,
src/src/agent/query_builder.py) and proves or refutes the frozen claims about
it.  Python strings are modelled as lists of characters, Python floats as
rationals, raised exceptions as Option/Except values, and calls to the hosted
generative model as oracle parameters.
-/

section RatKernelEval

/- Rational arithmetic must evaluate inside decide and rfl: locally lift the
irreducibility of the four core operations that block kernel reduction. -/
attribute [local semireducible] Rat.mul Rat.add Rat.inv Rat.sub

namespace SignalForge

/-! ## Python string primitives

Python str values are modelled as lists of characters.  The helpers below
mirror the exact str methods the repository uses: lower, strip, split("-")[0],
substring membership, and ", ".join. -/

abbrev PyStr := List Char

/-- Python s.lower() (ASCII case folding, which is all the source relies on). -/
def pyLower (s : PyStr) : PyStr := s.map Char.toLower

/-- Python str.strip() removes leading whitespace; this is the leading half. -/
def lstrip (s : PyStr) : PyStr := s.dropWhile Char.isWhitespace

/-- Trailing half of Python str.strip(). -/
def rstrip (s : PyStr) : PyStr := (s.reverse.dropWhile Char.isWhitespace).reverse

/-- Python s.strip(). -/
def pyStrip (s : PyStr) : PyStr := rstrip (lstrip s)

/-- Python substring test: needle in hay. -/
def isSubstr (needle hay : PyStr) : Bool :=
  (List.range (hay.length + 1)).any (fun i => needle.isPrefixOf (hay.drop i))

/-- Python sep.join(xs). -/
def pyJoin (sep : PyStr) (xs : List PyStr) : PyStr := List.intercalate sep xs

/-- Python s.split("-")[0]: the prefix of s up to the first dash. -/
def dashHead (s : PyStr) : PyStr := s.takeWhile (fun c => c ≠ '-')

/-- Clamp used by MatchScore.__post_init__: max(0.0, min(100.0, x)). -/
def clamp100 (x : ℚ) : ℚ := max 0 (min 100 x)

/-! ## Data models (src/src/models) -/

/-- src/src/models/business_context.py, dataclass BusinessContext. -/
structure BusinessContext where
  company_name : PyStr := []
  industry : PyStr := []
  products_services : List PyStr := []
  target_market : PyStr := []
  geography : List PyStr := []
  key_strengths : List PyStr := []
  additional_notes : PyStr := []
deriving DecidableEq

/-- src/src/models/rationale.py, dataclass Rationale (raw field record). -/
structure Rationale where
  summary : PyStr := []
  key_strengths : List PyStr := []
  fit_explanation : PyStr := []
  potential_concerns : List PyStr := []
  recommendation : PyStr := "Fair Match".data
deriving DecidableEq

/-- Rationale dataclass construction including __post_init__: an invalid
recommendation string is coerced to "Fair Match". -/
def Rationale.make (summary : PyStr) (key_strengths : List PyStr)
    (fit_explanation : PyStr) (potential_concerns : List PyStr)
    (recommendation : PyStr) : Rationale :=
  { summary := summary
    key_strengths := key_strengths
    fit_explanation := fit_explanation
    potential_concerns := potential_concerns
    recommendation :=
      if recommendation = "Strong Match".data ∨ recommendation = "Good Match".data ∨
          recommendation = "Fair Match".data then recommendation
      else "Fair Match".data }

/-- src/src/models/match_score.py, dataclass MatchScore (raw field record). -/
structure MatchScore where
  overall_score : ℚ := 0
  relevance_score : ℚ := 0
  geographic_fit : ℚ := 0
  size_appropriateness : ℚ := 0
  strategic_alignment : ℚ := 0
  score_breakdown : List (PyStr × ℚ) := []
  confidence : PyStr := "Low".data
deriving DecidableEq

/-- MatchScore dataclass construction including __post_init__: every numeric
field is clamped into the 0..100 range, an invalid confidence string is coerced
to "Low", and an empty score_breakdown is auto-populated from the four clamped
component fields. -/
def MatchScore.make (overall_score relevance_score geographic_fit
    size_appropriateness strategic_alignment : ℚ)
    (score_breakdown : List (PyStr × ℚ)) (confidence : PyStr) : MatchScore :=
  let o := clamp100 overall_score
  let r := clamp100 relevance_score
  let g := clamp100 geographic_fit
  let sz := clamp100 size_appropriateness
  let st := clamp100 strategic_alignment
  let conf :=
    if confidence = "High".data ∨ confidence = "Medium".data ∨
        confidence = "Low".data then confidence
    else "Low".data
  let bd :=
    if score_breakdown = [] then
      [("relevance".data, r), ("geographic".data, g), ("size".data, sz),
       ("strategic".data, st)]
    else score_breakdown
  { overall_score := o, relevance_score := r, geographic_fit := g
    size_appropriateness := sz, strategic_alignment := st
    score_breakdown := bd, confidence := conf }

/-- src/src/models/discovery_results.py, dataclass CompanyInfo. -/
structure CompanyInfo where
  name : PyStr
  website : PyStr
  locations : List PyStr := []
  size_estimate : PyStr := "Unknown".data
  description : PyStr := []
  sources : List PyStr := []
  match_score : Option MatchScore := none
  rationale : Option Rationale := none
deriving DecidableEq

/-- CompanyInfo.__eq__: case-insensitive match on name OR on website. -/
def CompanyInfo.pyEq (a b : CompanyInfo) : Bool :=
  pyLower a.name = pyLower b.name ∨ pyLower a.website = pyLower b.website

/-- CompanyInfo.__hash__ hashes hash(self.name.lower()); the lowercased name is
the full hash input, so two values collide in a set bucket exactly when these
keys agree (up to the negligible chance of a raw hash collision). -/
def CompanyInfo.hashKey (a : CompanyInfo) : PyStr := pyLower a.name

/-- One insertion into a Python set: the element is dropped only when an
existing member has the same hash key and compares __eq__-equal; an equal
element in a different bucket is never found. -/
def pySetInsert (s : List CompanyInfo) (x : CompanyInfo) : List CompanyInfo :=
  if s.any (fun y => y.hashKey = x.hashKey ∧ y.pyEq x) then s else s ++ [x]

/-- Deduplication of a list through a Python set, in iteration order. -/
def pySetOfList (l : List CompanyInfo) : List CompanyInfo :=
  l.foldl pySetInsert []

/-- src/src/models/discovery_results.py, dataclass DiscoveryResult
(timestamp omitted: wall-clock time is outside the embedding). -/
structure DiscoveryResult where
  entity_type : PyStr
  companies : List CompanyInfo := []
  query_used : PyStr := []
  scored : Bool := false
  avg_score : ℚ := 0
deriving DecidableEq

end SignalForge

namespace SignalForge

/-! ## A JSON value model and parser

The repository extracts brace-delimited spans from model responses and feeds
them to json.loads.  The parser below implements the JSON grammar that
json.loads accepts (objects, arrays, strings with escapes, numbers, booleans,
null; the NaN/Infinity extension Python additionally tolerates is not needed by
any prompt or claim and is left unmodelled).  A failed json.loads is the
Option.none result. -/

inductive JValue where
  | jnull
  | jbool (b : Bool)
  | jnum (q : ℚ)
  | jstr (s : PyStr)
  | jarr (elems : List JValue)
  | jobj (fields : List (PyStr × JValue))

/-- JSON whitespace (the four characters the grammar allows). -/
def jsonWS (c : Char) : Bool := c = ' ' ∨ c = '\t' ∨ c = '\n' ∨ c = '\r'

def skipWS (s : PyStr) : PyStr := s.dropWhile jsonWS

def digitsToNat (ds : List Char) : Nat :=
  ds.foldl (fun n d => 10 * n + (d.toNat - '0'.toNat)) 0

def hexVal (c : Char) : Option Nat :=
  if c.isDigit then some (c.toNat - '0'.toNat)
  else if 'a' ≤ c ∧ c ≤ 'f' then some (c.toNat - 'a'.toNat + 10)
  else if 'A' ≤ c ∧ c ≤ 'F' then some (c.toNat - 'A'.toNat + 10)
  else none

def escapeChar (c : Char) : Option Char :=
  if c = '"' then some '"'
  else if c = '\\' then some '\\'
  else if c = '/' then some '/'
  else if c = 'b' then some (Char.ofNat 8)
  else if c = 'f' then some (Char.ofNat 12)
  else if c = 'n' then some '\n'
  else if c = 'r' then some '\r'
  else if c = 't' then some '\t'
  else none

/-- Body of a JSON string, after the opening quote: returns the decoded
characters and the remaining input after the closing quote. -/
def parseJStringBody : PyStr → Option (PyStr × PyStr)
  | [] => none
  | '"' :: r => some ([], r)
  | '\\' :: r =>
    match r with
    | 'u' :: a :: b :: c :: d :: r2 =>
      match hexVal a, hexVal b, hexVal c, hexVal d with
      | some ha, some hb, some hc, some hd =>
        match parseJStringBody r2 with
        | some (out, rest) =>
          some (Char.ofNat (((ha * 16 + hb) * 16 + hc) * 16 + hd) :: out, rest)
        | none => none
      | _, _, _, _ => none
    | e :: r2 =>
      match escapeChar e with
      | some ch =>
        match parseJStringBody r2 with
        | some (out, rest) => some (ch :: out, rest)
        | none => none
      | none => none
    | [] => none
  | c :: r =>
    if c.toNat < 32 then none   -- strict mode rejects raw control characters
    else
      match parseJStringBody r with
      | some (out, rest) => some (c :: out, rest)
      | none => none

/-- A JSON number: -? int frac? exp?, evaluated as a rational. -/
def parseNumber (s : PyStr) : Option (ℚ × PyStr) :=
  let (neg, s1) := match s with
    | '-' :: r => (true, r)
    | _ => (false, s)
  match s1.head? with
  | none => none
  | some c =>
    if ¬ c.isDigit then none
    else
      let ip := s1.takeWhile Char.isDigit
      let r1 := s1.dropWhile Char.isDigit
      if ip.length > 1 ∧ ip.head? = some '0' then none
      else
        let withFrac : Option (PyStr × PyStr) :=
          match r1 with
          | '.' :: rest =>
            let fd := rest.takeWhile Char.isDigit
            if fd = [] then none else some (fd, rest.dropWhile Char.isDigit)
          | _ => some ([], r1)
        match withFrac with
        | none => none
        | some (fd, r2) =>
          let withExp : Option (ℤ × PyStr) :=
            match r2 with
            | 'e' :: rest | 'E' :: rest =>
              let (esign, rest2) : ℤ × PyStr := match rest with
                | '+' :: r3 => (1, r3)
                | '-' :: r3 => (-1, r3)
                | _ => (1, rest)
              let ed := rest2.takeWhile Char.isDigit
              if ed = [] then none
              else some (esign * (digitsToNat ed : ℤ), rest2.dropWhile Char.isDigit)
            | _ => some (0, r2)
          match withExp with
          | none => none
          | some (e, r3) =>
            let base : ℚ :=
              (digitsToNat ip : ℚ) + (digitsToNat fd : ℚ) / ((10 : ℚ) ^ fd.length)
            let v := (if neg then -base else base) * (10 : ℚ) ^ e
            some (v, r3)

mutual

/-- One JSON value, with fuel bounding nesting depth. -/
def parseValue : Nat → PyStr → Option (JValue × PyStr)
  | 0, _ => none
  | fuel + 1, s =>
    match skipWS s with
    | 'n' :: 'u' :: 'l' :: 'l' :: r => some (.jnull, r)
    | 't' :: 'r' :: 'u' :: 'e' :: r => some (.jbool true, r)
    | 'f' :: 'a' :: 'l' :: 's' :: 'e' :: r => some (.jbool false, r)
    | '"' :: r =>
      (match parseJStringBody r with
       | some (str, rest) => some (.jstr str, rest)
       | none => none)
    | '[' :: r =>
      (match skipWS r with
       | ']' :: r2 => some (.jarr [], r2)
       | _ =>
         match parseItems fuel r [] with
         | some (xs, rest) => some (.jarr xs, rest)
         | none => none)
    | '{' :: r =>
      (match skipWS r with
       | '}' :: r2 => some (.jobj [], r2)
       | _ =>
         match parseMembers fuel r [] with
         | some (fs, rest) => some (.jobj fs, rest)
         | none => none)
    | rest => (parseNumber rest).map (fun p => (.jnum p.1, p.2))

/-- Comma-separated array items up to the closing bracket. -/
def parseItems : Nat → PyStr → List JValue → Option (List JValue × PyStr)
  | 0, _, _ => none
  | fuel + 1, s, acc =>
    match parseValue fuel s with
    | none => none
    | some (v, rest) =>
      match skipWS rest with
      | ',' :: r2 => parseItems fuel r2 (acc ++ [v])
      | ']' :: r2 => some (acc ++ [v], r2)
      | _ => none

/-- Comma-separated key:value members up to the closing brace. -/
def parseMembers : Nat → PyStr → List (PyStr × JValue) →
    Option (List (PyStr × JValue) × PyStr)
  | 0, _, _ => none
  | fuel + 1, s, acc =>
    match skipWS s with
    | '"' :: r =>
      (match parseJStringBody r with
       | none => none
       | some (key, rest) =>
         match skipWS rest with
         | ':' :: r2 =>
           (match parseValue fuel r2 with
            | none => none
            | some (v, rest2) =>
              match skipWS rest2 with
              | ',' :: r3 => parseMembers fuel r3 (acc ++ [(key, v)])
              | '}' :: r3 => some (acc ++ [(key, v)], r3)
              | _ => none)
         | _ => none)
    | _ => none

end

/-- json.loads: a single value with only whitespace around it. -/
def jsonLoads (s : PyStr) : Option JValue :=
  match parseValue (s.length + 1) s with
  | some (v, rest) => if skipWS rest = [] then some v else none
  | none => none

/-- dict.get on the object produced by json.loads; with duplicate keys the
later member wins, as in Python dict construction. -/
def jGet (fields : List (PyStr × JValue)) (key : PyStr) : Option JValue :=
  (fields.reverse.find? (fun kv => kv.1 = key)).map (fun kv => kv.2)

end SignalForge

namespace SignalForge

/-! ## Rationale generation (src/src/scoring/rationale_generator.py)

The call to the hosted model is an oracle parameter: some response text when
the call returns, none when it raises.  Everything downstream of the response
is embedded faithfully. -/

/-- Index of the first occurrence of a character (meaningful when present). -/
def pyIndexOf (s : PyStr) (c : Char) : Nat := (s.takeWhile (fun x => x ≠ c)).length

/-- Index of the last occurrence of a character (meaningful when present). -/
def pyRIndexOf (s : PyStr) (c : Char) : Nat :=
  s.length - 1 - (s.reverse.takeWhile (fun x => x ≠ c)).length

/-- Python slice s[a:b]. -/
def pySlice (s : PyStr) (a b : Nat) : PyStr := (s.take b).drop a

/-- The span response[response.index("{") : response.rindex("}") + 1], when both
braces occur in the response. -/
def braceSpan (response : PyStr) : Option PyStr :=
  if isSubstr "\x7b".data response ∧ isSubstr "\x7d".data response then
    some (pySlice response (pyIndexOf response '{') (pyRIndexOf response '}' + 1))
  else none

/-- RationaleGenerator._determine_recommendation. -/
def determine_recommendation (overall_score : ℚ) : PyStr :=
  if overall_score ≥ 80 then "Strong Match".data
  else if overall_score ≥ 60 then "Good Match".data
  else "Fair Match".data

/-- Coercion of a looked-up JSON field to the str the dataclass stores.  A
non-string Python value would be stored as-is; a fixed marker stands in for it
here (no claim depends on the content of such a field). -/
def jStrField (v : Option JValue) (dflt : PyStr) : PyStr :=
  match v with
  | some (.jstr s) => s
  | some _ => "<non-string value>".data
  | none => dflt

/-- Coercion of a looked-up JSON field to a list of str, in the same spirit. -/
def jListField (v : Option JValue) : List PyStr :=
  match v with
  | some (.jarr xs) =>
    xs.map (fun x => match x with | .jstr s => s | _ => "<non-string value>".data)
  | some _ => ["<non-list value>".data]
  | none => []

/-- Rationale.from_dict followed by the dataclass __post_init__. -/
def Rationale.from_dict (data : List (PyStr × JValue)) : Rationale :=
  Rationale.make
    (jStrField (jGet data "summary".data) [])
    (jListField (jGet data "key_strengths".data))
    (jStrField (jGet data "fit_explanation".data) [])
    (jListField (jGet data "potential_concerns".data))
    (jStrField (jGet data "recommendation".data) "Fair Match".data)

/-- RationaleGenerator._parse_rationale_response.  none models the raised
ValueError: no brace-delimited span, or json.loads failing on the span (a span
that parses to a non-object cannot arise from a string that starts with an
opening brace, and is mapped to the same error).  On success the recommendation
is overwritten from the overall score. -/
def parse_rationale_response (response : PyStr) (overall_score : ℚ) :
    Option Rationale :=
  match braceSpan response with
  | none => none
  | some json_str =>
    match jsonLoads json_str with
    | some (.jobj data) =>
      let r := Rationale.from_dict data
      some { r with recommendation := determine_recommendation overall_score }
    | _ => none

/-- Round half to even, the rounding used by Python format specifier .0f. -/
def roundHalfEven (q : ℚ) : ℤ :=
  let f := ⌊q⌋
  let frac := q - f
  if frac < 1/2 then f
  else if 1/2 < frac then f + 1
  else if f % 2 = 0 then f else f + 1

/-- Python format(q, ".0f"). -/
def fmtQ0 (q : ℚ) : PyStr :=
  let n := roundHalfEven q
  (if n < 0 then ['-'] else []) ++ (toString n.natAbs).data

/-- Python format(q, ".1f"). -/
def fmtQ1 (q : ℚ) : PyStr :=
  let n := roundHalfEven (10 * q)
  let sign : PyStr := if n < 0 then ['-'] else []
  let m := n.natAbs
  sign ++ (toString (m / 10)).data ++ ['.'] ++ (toString (m % 10)).data

/-- RationaleGenerator._create_fallback_rationale. -/
def create_fallback_rationale (company : CompanyInfo) (score : MatchScore)
    (entity_type : PyStr) : Rationale :=
  let recommendation := determine_recommendation score.overall_score
  let summary :=
    if pyLower entity_type = "partner".data then
      "Partnership opportunity with ".data ++ company.name ++
        " based on score analysis".data
    else
      "Customer prospect ".data ++ company.name ++
        " identified through scoring".data
  let ks :=
    (if score.relevance_score ≥ 70 then
      ["High relevance score (".data ++ fmtQ0 score.relevance_score ++
        "/100) indicates strong business fit".data] else []) ++
    (if score.geographic_fit ≥ 70 then
      ["Good geographic alignment (".data ++ fmtQ0 score.geographic_fit ++
        "/100)".data] else []) ++
    (if score.size_appropriateness ≥ 70 then
      ["Appropriate company size (".data ++ fmtQ0 score.size_appropriateness ++
        "/100)".data] else []) ++
    (if score.strategic_alignment ≥ 70 then
      ["Strong strategic fit (".data ++ fmtQ0 score.strategic_alignment ++
        "/100)".data] else [])
  let key_strengths :=
    if ks = [] then
      ["Overall match score of ".data ++ fmtQ0 score.overall_score ++ "/100".data]
    else ks
  let fit_explanation :=
    "With an overall score of ".data ++ fmtQ1 score.overall_score ++
      "/100, this ".data ++ entity_type ++ " shows ".data ++
      pyLower recommendation ++ " potential. Score confidence: ".data ++
      score.confidence ++ ".".data
  let potential_concerns :=
    if score.confidence = "Low".data then
      ["Limited data available for comprehensive assessment".data]
    else []
  Rationale.make summary key_strengths fit_explanation potential_concerns
    recommendation

/-- RationaleGenerator.generate_rationale: the model call is the oracle
agent_response (none when _generate_content raises); any failure inside the
try block falls back to the template rationale. -/
def generate_rationale (agent_response : Option PyStr) (company : CompanyInfo)
    (score : MatchScore) (entity_type : PyStr) : Rationale :=
  match agent_response with
  | none => create_fallback_rationale company score entity_type
  | some response =>
    match parse_rationale_response response score.overall_score with
    | some r => r
    | none => create_fallback_rationale company score entity_type

lemma determine_recommendation_valid (s : ℚ) :
    determine_recommendation s = "Strong Match".data ∨
    determine_recommendation s = "Good Match".data ∨
    determine_recommendation s = "Fair Match".data := by
  unfold determine_recommendation
  split
  · exact Or.inl rfl
  · split
    · exact Or.inr (Or.inl rfl)
    · exact Or.inr (Or.inr rfl)

lemma rationale_make_recommendation_valid (su ks fe pc : _) (r : PyStr)
    (h : r = "Strong Match".data ∨ r = "Good Match".data ∨ r = "Fair Match".data) :
    (Rationale.make su ks fe pc r).recommendation = r := by
  unfold Rationale.make
  simp only [if_pos h]

lemma create_fallback_rationale_recommendation (company : CompanyInfo)
    (score : MatchScore) (entity_type : PyStr) :
    (create_fallback_rationale company score entity_type).recommendation =
      determine_recommendation score.overall_score := by
  unfold create_fallback_rationale
  exact rationale_make_recommendation_valid _ _ _ _ _
    (determine_recommendation_valid _)

lemma parse_rationale_response_recommendation (response : PyStr) (s : ℚ)
    (r : Rationale) (h : parse_rationale_response response s = some r) :
    r.recommendation = determine_recommendation s := by
  unfold parse_rationale_response at h
  split at h
  · exact absurd h (by simp)
  · split at h
    · simp only [Option.some.injEq] at h
      rw [← h]
    · exact absurd h (by simp)

/-- C1: the recommendation attached to a Rationale produced by
generate_rationale is a pure function of overall_score — Strong Match at or
above 80, Good Match from 60 up to 80, Fair Match below 60 — on both the
model-parsed path and the fallback path, for every model response. -/
theorem generate_rationale_recommendation_from_score
    (agent_response : Option PyStr) (company : CompanyInfo)
    (score : MatchScore) (entity_type : PyStr) :
    (generate_rationale agent_response company score entity_type).recommendation
      = determine_recommendation score.overall_score ∧
    (80 ≤ score.overall_score →
      determine_recommendation score.overall_score = "Strong Match".data) ∧
    (60 ≤ score.overall_score → score.overall_score < 80 →
      determine_recommendation score.overall_score = "Good Match".data) ∧
    (score.overall_score < 60 →
      determine_recommendation score.overall_score = "Fair Match".data) := by
  refine ⟨?_, ?_, ?_, ?_⟩
  · unfold generate_rationale
    cases agent_response with
    | none => exact create_fallback_rationale_recommendation ..
    | some response =>
      rcases hp : parse_rationale_response response score.overall_score with _ | r
      · simp only [hp]
        exact create_fallback_rationale_recommendation ..
      · simp only [hp]
        exact parse_rationale_response_recommendation _ _ _ hp
  · intro h
    unfold determine_recommendation
    rw [if_pos (by exact h)]
  · intro h1 h2
    unfold determine_recommendation
    rw [if_neg (by exact not_le.mpr h2), if_pos (by exact h1)]
  · intro h
    unfold determine_recommendation
    rw [if_neg (by exact not_le.mpr (lt_of_lt_of_le h (by norm_num))),
      if_neg (by exact not_le.mpr h)]

/-- Witness for C1 at a concrete score and a model response that tries to smuggle
in a different recommendation. -/
theorem generate_rationale_recommendation_from_score_witness :
    (generate_rationale
        (some "prefix \x7b\"summary\": \"s\", \"recommendation\": \"Fair Match\"\x7d suffix".data)
        { name := "Acme".data, website := "acme.com".data }
        (MatchScore.make 85 90 80 85 85 [] "High".data)
        "customer".data).recommendation = "Strong Match".data ∧
    (80 : ℚ) ≤ (MatchScore.make 85 90 80 85 85 [] "High".data).overall_score := by
  have h := generate_rationale_recommendation_from_score
    (some "prefix \x7b\"summary\": \"s\", \"recommendation\": \"Fair Match\"\x7d suffix".data)
    { name := "Acme".data, website := "acme.com".data }
    (MatchScore.make 85 90 80 85 85 [] "High".data)
    "customer".data
  have hsc : (80 : ℚ) ≤ (MatchScore.make 85 90 80 85 85 [] "High".data).overall_score := by
    decide
  exact ⟨h.1.trans (h.2.1 hsc), hsc⟩

end SignalForge

namespace SignalForge

lemma clamp100_nonneg (x : ℚ) : 0 ≤ clamp100 x := le_max_left 0 _

lemma clamp100_le (x : ℚ) : clamp100 x ≤ 100 :=
  max_le (by norm_num) (min_le_left 100 x)

/-- C2: MatchScore construction clamps every numeric field to the nearest bound
of the 0..100 range, coerces any confidence string outside High/Medium/Low to
Low, and auto-populates score_breakdown from the four clamped component fields
when none is supplied. -/
theorem matchScore_make_invariants
    (o r g sz st : ℚ) (bd : List (PyStr × ℚ)) (conf : PyStr) :
    (MatchScore.make o r g sz st bd conf).overall_score = max 0 (min 100 o) ∧
    (MatchScore.make o r g sz st bd conf).relevance_score = max 0 (min 100 r) ∧
    (MatchScore.make o r g sz st bd conf).geographic_fit = max 0 (min 100 g) ∧
    (MatchScore.make o r g sz st bd conf).size_appropriateness = max 0 (min 100 sz) ∧
    (MatchScore.make o r g sz st bd conf).strategic_alignment = max 0 (min 100 st) ∧
    (0 ≤ (MatchScore.make o r g sz st bd conf).overall_score ∧
      (MatchScore.make o r g sz st bd conf).overall_score ≤ 100) ∧
    (0 ≤ (MatchScore.make o r g sz st bd conf).relevance_score ∧
      (MatchScore.make o r g sz st bd conf).relevance_score ≤ 100) ∧
    (0 ≤ (MatchScore.make o r g sz st bd conf).geographic_fit ∧
      (MatchScore.make o r g sz st bd conf).geographic_fit ≤ 100) ∧
    (0 ≤ (MatchScore.make o r g sz st bd conf).size_appropriateness ∧
      (MatchScore.make o r g sz st bd conf).size_appropriateness ≤ 100) ∧
    (0 ≤ (MatchScore.make o r g sz st bd conf).strategic_alignment ∧
      (MatchScore.make o r g sz st bd conf).strategic_alignment ≤ 100) ∧
    ((MatchScore.make o r g sz st bd conf).confidence = "High".data ∨
      (MatchScore.make o r g sz st bd conf).confidence = "Medium".data ∨
      (MatchScore.make o r g sz st bd conf).confidence = "Low".data) ∧
    (conf ≠ "High".data → conf ≠ "Medium".data → conf ≠ "Low".data →
      (MatchScore.make o r g sz st bd conf).confidence = "Low".data) ∧
    (bd = [] →
      (MatchScore.make o r g sz st bd conf).score_breakdown =
        [("relevance".data, max 0 (min 100 r)),
         ("geographic".data, max 0 (min 100 g)),
         ("size".data, max 0 (min 100 sz)),
         ("strategic".data, max 0 (min 100 st))]) := by
  refine ⟨rfl, rfl, rfl, rfl, rfl,
    ⟨clamp100_nonneg _, clamp100_le _⟩, ⟨clamp100_nonneg _, clamp100_le _⟩,
    ⟨clamp100_nonneg _, clamp100_le _⟩, ⟨clamp100_nonneg _, clamp100_le _⟩,
    ⟨clamp100_nonneg _, clamp100_le _⟩, ?_, ?_, ?_⟩
  · unfold MatchScore.make
    by_cases h : conf = "High".data ∨ conf = "Medium".data ∨ conf = "Low".data
    · simpa [if_pos h] using h
    · simp [if_neg h]
  · intro h1 h2 h3
    unfold MatchScore.make
    have h : ¬ (conf = "High".data ∨ conf = "Medium".data ∨ conf = "Low".data) := by
      rintro (h | h | h) <;> [exact h1 h; exact h2 h; exact h3 h]
    simp [if_neg h]
  · intro h
    unfold MatchScore.make
    simp [if_pos h, clamp100]

/-- Witness for C2 at concrete out-of-range inputs, an invalid confidence
string, and an omitted breakdown. -/
theorem matchScore_make_invariants_witness :
    (MatchScore.make 150 (-10) 50 200 (-5) [] "Certain".data).overall_score = 100 ∧
    (MatchScore.make 150 (-10) 50 200 (-5) [] "Certain".data).relevance_score = 0 ∧
    (MatchScore.make 150 (-10) 50 200 (-5) [] "Certain".data).confidence = "Low".data ∧
    (MatchScore.make 150 (-10) 50 200 (-5) [] "Certain".data).score_breakdown =
      [("relevance".data, 0), ("geographic".data, 50), ("size".data, 100),
       ("strategic".data, 0)] := by
  have h := matchScore_make_invariants 150 (-10) 50 200 (-5) [] "Certain".data
  refine ⟨?_, ?_, ?_, ?_⟩
  · rw [h.1]; norm_num
  · rw [h.2.1]; norm_num
  · exact h.2.2.2.2.2.2.2.2.2.2.2.1 (by decide) (by decide) (by decide)
  · rw [h.2.2.2.2.2.2.2.2.2.2.2.2 rfl]; norm_num

/-- C10: CompanyInfo equality and hashing are inconsistent.  Two records with
the same website but different names compare __eq__-equal while their hash
inputs (the lowercased names) differ, and inserting both into a Python set
keeps both, although __eq__ calls them duplicates. -/
theorem companyInfo_eq_hash_inconsistent :
    CompanyInfo.pyEq
        { name := "Acme".data, website := "https://acme.com".data }
        { name := "Acme Corporation".data, website := "HTTPS://ACME.COM".data } = true ∧
    CompanyInfo.hashKey
        { name := "Acme".data, website := "https://acme.com".data } ≠
      CompanyInfo.hashKey
        { name := "Acme Corporation".data, website := "HTTPS://ACME.COM".data } ∧
    pySetOfList
        [{ name := "Acme".data, website := "https://acme.com".data },
         { name := "Acme Corporation".data, website := "HTTPS://ACME.COM".data }] =
      [{ name := "Acme".data, website := "https://acme.com".data },
       { name := "Acme Corporation".data, website := "HTTPS://ACME.COM".data }] := by
  refine ⟨by decide, by decide, by decide⟩

end SignalForge

namespace SignalForge

/-! ## Relevance score parsing (src/src/discovery/relevance_scorer.py)

RelevanceScorer._parse_score extracts a brace-delimited span, tries json.loads
on it, reads a numeric "score" field, and otherwise scans the free text with
the regular expression r'\b([0-1]?\.\d+|0|1)\b' via re.findall, returning the
first match whose value lies in the unit interval, and 0.5 as last resort.
The except clause catches JSONDecodeError, ValueError and AttributeError; a
TypeError from float() on a non-scalar score field is not caught. -/

/-- A word character for the \b assertion (ASCII range of Python \w). -/
def wordChar (c : Char) : Bool := c.isAlphanum ∨ c = '_'

def wordAt (s : PyStr) (i : Nat) : Bool :=
  match s.get? i with
  | some c => wordChar c
  | none => false

/-- The \b assertion at position i. -/
def boundaryAt (s : PyStr) (i : Nat) : Bool :=
  (match i with
   | 0 => false
   | j + 1 => wordAt s j) != wordAt s i

/-- First alternative [0-1]\.\d+ with the optional digit present, including the
trailing \b (a shorter greedy run of \d+ would end before another digit, which
is a word character, so only the maximal run can satisfy the boundary). -/
def altA (s : PyStr) (i : Nat) : Option (PyStr × Nat) :=
  match s.get? i, s.get? (i + 1) with
  | some c, some '.' =>
    if c = '0' ∨ c = '1' then
      let ds := (s.drop (i + 2)).takeWhile Char.isDigit
      if ds ≠ [] ∧ wordAt s (i + 2 + ds.length) = false then
        some (c :: '.' :: ds, i + 2 + ds.length)
      else none
    else none
  | _, _ => none

/-- First alternative with the optional [0-1] left empty: \.\d+ and trailing \b. -/
def altB (s : PyStr) (i : Nat) : Option (PyStr × Nat) :=
  match s.get? i with
  | some '.' =>
    let ds := (s.drop (i + 1)).takeWhile Char.isDigit
    if ds ≠ [] ∧ wordAt s (i + 1 + ds.length) = false then
      some ('.' :: ds, i + 1 + ds.length)
    else none
  | _ => none

/-- Remaining alternatives 0 and 1, with the trailing \b. -/
def altC (s : PyStr) (i : Nat) : Option (PyStr × Nat) :=
  match s.get? i with
  | some c =>
    if (c = '0' ∨ c = '1') ∧ wordAt s (i + 1) = false then some ([c], i + 1)
    else none
  | _ => none

/-- One match attempt at position i, in the engine's alternation order. -/
def tryMatchAt (s : PyStr) (i : Nat) : Option (PyStr × Nat) :=
  if boundaryAt s i then
    match altA s i with
    | some r => some r
    | none =>
      match altB s i with
      | some r => some r
      | none => altC s i
  else none

/-- re.findall for the score pattern: leftmost, non-overlapping matches. -/
def scoreFindAllFrom (s : PyStr) : Nat → Nat → List PyStr
  | 0, _ => []
  | fuel + 1, i =>
    if s.length ≤ i then []
    else
      match tryMatchAt s i with
      | some (m, e) => m :: scoreFindAllFrom s fuel e
      | none => scoreFindAllFrom s fuel (i + 1)

def scoreFindAll (s : PyStr) : List PyStr := scoreFindAllFrom s (s.length + 1) 0

/-- float() on a matched token (the token shapes the pattern can produce always
parse). -/
def decToQ (tok : PyStr) : ℚ :=
  let ip := tok.takeWhile Char.isDigit
  let rest := tok.dropWhile Char.isDigit
  let fd := match rest with
    | '.' :: ds => ds
    | _ => []
  (digitsToNat ip : ℚ) + (digitsToNat fd : ℚ) / (10 : ℚ) ^ fd.length

/-- The free-text path of _parse_score: first regex match whose value lies in
the unit interval, else the neutral 0.5. -/
def scoreRegexFallback (response : PyStr) : ℚ :=
  match (scoreFindAll response).find? (fun m => decide (0 ≤ decToQ m ∧ decToQ m ≤ 1)) with
  | some m => decToQ m
  | none => 1/2

/-- Python float() applied to a decoded JSON value.  valueErr is the caught
ValueError (a non-numeric string); typeErr is the uncaught TypeError (None, a
list or a dict).  Strings spelling infinities or NaN, which float() would
accept, have no rational value and are outside the model. -/
inductive PyFloatErr where
  | valueErr
  | typeErr
deriving DecidableEq

def parseFloatStr (s : PyStr) : Option ℚ :=
  let t := pyStrip s
  let (neg, u) : Bool × PyStr := match t with
    | '-' :: r => (true, r)
    | '+' :: r => (false, r)
    | _ => (false, t)
  let ip := u.takeWhile Char.isDigit
  let r1 := u.dropWhile Char.isDigit
  let (fd, r2) : PyStr × PyStr := match r1 with
    | '.' :: rest => (rest.takeWhile Char.isDigit, rest.dropWhile Char.isDigit)
    | _ => ([], r1)
  if ip = [] ∧ fd = [] then none
  else
    let withExp : Option (ℤ × PyStr) := match r2 with
      | 'e' :: rest | 'E' :: rest =>
        let (esign, rest2) : ℤ × PyStr := match rest with
          | '+' :: r3 => (1, r3)
          | '-' :: r3 => (-1, r3)
          | _ => (1, rest)
        let ed := rest2.takeWhile Char.isDigit
        if ed = [] then none
        else some (esign * (digitsToNat ed : ℤ), rest2.dropWhile Char.isDigit)
      | _ => some (0, r2)
    match withExp with
    | none => none
    | some (e, r3) =>
      if r3 ≠ [] then none
      else
        let base : ℚ :=
          (digitsToNat ip : ℚ) + (digitsToNat fd : ℚ) / (10 : ℚ) ^ fd.length
        some ((if neg then -base else base) * (10 : ℚ) ^ e)

def pyFloatOfJValue : JValue → Except PyFloatErr ℚ
  | .jnum q => .ok q
  | .jbool b => .ok (if b then 1 else 0)
  | .jstr s =>
    match parseFloatStr s with
    | some q => .ok q
    | none => .error .valueErr
  | .jnull => .error .typeErr
  | .jarr _ => .error .typeErr
  | .jobj _ => .error .typeErr

/-- The score-key branch of _parse_score, given the decoded object fields. -/
def parse_score_withData (response : PyStr) (data : List (PyStr × JValue)) :
    Option ℚ :=
  match jGet data "score".data with
  | some v =>
    (match pyFloatOfJValue v with
     | .ok q => some (max 0 (min 1 q))
     | .error .valueErr => some (1/2)
     | .error .typeErr => none)
  | none => some (scoreRegexFallback response)

/-- The branch of _parse_score after json.loads on the brace span. -/
def parse_score_afterLoads (response : PyStr) : Option JValue → Option ℚ
  | none => some (1/2)
  | some (.jobj data) => parse_score_withData response data
  | some _ => some (scoreRegexFallback response)

/-- RelevanceScorer._parse_score.  The result none models the uncaught
TypeError; every caught failure yields the neutral 0.5. -/
def parse_score (response : PyStr) : Option ℚ :=
  match braceSpan response with
  | some json_str => parse_score_afterLoads response (jsonLoads json_str)
  | none => some (scoreRegexFallback response)

/-- The parser C3 describes: the score field clamped whenever a JSON object
with a score key is found, and in every other case — including a brace span
that fails to JSON-parse — the first in-range decimal of the free text, then
the neutral 0.5; never an exception. -/
def parse_score_claimed (response : PyStr) : ℚ :=
  match braceSpan response with
  | some json_str =>
    (match jsonLoads json_str with
     | some (.jobj data) =>
       (match jGet data "score".data with
        | some v =>
          (match pyFloatOfJValue v with
           | .ok q => max 0 (min 1 q)
           | .error _ => scoreRegexFallback response)
        | none => scoreRegexFallback response)
     | _ => scoreRegexFallback response)
  | none => scoreRegexFallback response

/-- Counterexample to C3: on a response whose brace-delimited span is not valid
JSON but whose free text carries the decimal 0.7, _parse_score returns the
neutral 0.5 straight from the except clause — the free-text fallback the claim
promises is skipped. -/
theorem parse_score_cex :
    parse_score "{oops} score 0.7".data = some (1/2) ∧
    parse_score_claimed "{oops} score 0.7".data = 7/10 ∧
    parse_score "{oops} score 0.7".data ≠ some (parse_score_claimed "{oops} score 0.7".data) := by
  refine ⟨by decide, by decide, by decide⟩

/-- C3 as amended: the parser returns the clamped score field when the span
parses to an object with a numeric score; when the span fails to parse it
returns 0.5 directly, skipping the free-text fallback; the regex fallback runs
only when no brace pair is present or the parsed object lacks a score key; and
the parser is total except that a null, list or dict score field raises an
uncaught TypeError. -/
theorem parse_score_amended
    (response json_str : PyStr) (data : List (PyStr × JValue)) (q : ℚ) :
    (braceSpan response = some json_str → jsonLoads json_str = none →
      parse_score response = some (1/2)) ∧
    (braceSpan response = some json_str →
      jsonLoads json_str = some (.jobj data) →
      jGet data "score".data = some (.jnum q) →
      parse_score response = some (max 0 (min 1 q))) ∧
    (braceSpan response = some json_str →
      jsonLoads json_str = some (.jobj data) →
      jGet data "score".data = none →
      parse_score response = some (scoreRegexFallback response)) ∧
    (braceSpan response = none →
      parse_score response = some (scoreRegexFallback response)) ∧
    (braceSpan response = some json_str →
      jsonLoads json_str = some (.jobj data) →
      jGet data "score".data = some .jnull →
      parse_score response = none) ∧
    (0 ≤ scoreRegexFallback response ∧ scoreRegexFallback response ≤ 1) ∧
    (scoreFindAll response = [] → scoreRegexFallback response = 1/2) := by
  have hobj : ∀ data, parse_score_afterLoads response (some (.jobj data)) =
      parse_score_withData response data := fun _ => rfl
  refine ⟨?_, ?_, ?_, ?_, ?_, ?_, ?_⟩
  · intro h1 h2
    unfold parse_score
    simp only [h1]
    rw [h2]
    rfl
  · intro h1 h2 h3
    unfold parse_score
    simp only [h1]
    rw [h2, hobj]
    unfold parse_score_withData
    rw [h3]
    rfl
  · intro h1 h2 h3
    unfold parse_score
    simp only [h1]
    rw [h2, hobj]
    unfold parse_score_withData
    rw [h3]
  · intro h1
    unfold parse_score
    simp only [h1]
  · intro h1 h2 h3
    unfold parse_score
    simp only [h1]
    rw [h2, hobj]
    unfold parse_score_withData
    rw [h3]
    rfl
  · constructor
    · unfold scoreRegexFallback
      rcases hf : (scoreFindAll response).find? (fun m => decide (0 ≤ decToQ m ∧ decToQ m ≤ 1)) with _ | m
      · norm_num
      · have := List.find?_some hf
        simp only [decide_eq_true_eq] at this
        exact this.1
    · unfold scoreRegexFallback
      rcases hf : (scoreFindAll response).find? (fun m => decide (0 ≤ decToQ m ∧ decToQ m ≤ 1)) with _ | m
      · norm_num
      · have := List.find?_some hf
        simp only [decide_eq_true_eq] at this
        exact this.2
  · intro h
    unfold scoreRegexFallback
    rw [h]
    rfl

/-- Witness for the amended C3 on concrete responses exercising the clamped
JSON branch and the failed-parse branch. -/
theorem parse_score_amended_witness :
    parse_score "\x7b\"score\": 0.85\x7d".data = some (17/20) ∧
    parse_score "\x7bbroken json".data = some (scoreRegexFallback "\x7bbroken json".data) ∧
    parse_score "\x7b\"score\": null\x7d".data = none := by
  have h1 := parse_score_amended "\x7b\"score\": 0.85\x7d".data
    "\x7b\"score\": 0.85\x7d".data [("score".data, JValue.jnum (17/20))] (17/20)
  have h2 := parse_score_amended "\x7bbroken json".data [] [] 0
  have h3 := parse_score_amended "\x7b\"score\": null\x7d".data
    "\x7b\"score\": null\x7d".data [("score".data, JValue.jnull)] 0
  refine ⟨?_, ?_, ?_⟩
  · have := h1.2.1 (by decide) (by rfl) (by rfl)
    rw [this]; decide
  · exact h2.2.2.2.1 (by decide)
  · exact h3.2.2.2.2.1 (by decide) (by rfl) (by rfl)
end SignalForge

namespace SignalForge

/-! ## difflib.SequenceMatcher ratio

MatchScorer uses difflib's character-sequence similarity ratio.  The inputs in
this repository are far below the 200-character autojunk threshold and contain
no junk, so the matcher below is the junk-free algorithm: the longest-match
search with its j2len rolling table and tie-breaking, the two non-junk
extension passes (no-ops without junk, kept for fidelity), the recursive
matching-block decomposition, and ratio = 2*M/(len(a)+len(b)). -/

structure FLM where
  besti : Nat
  bestj : Nat
  bestsize : Nat

/-- b2j: ascending indices of occurrences of a character in b. -/
def b2jOf (b : PyStr) (c : Char) : List Nat :=
  (List.range b.length).filter (fun j => b.get? j = some c)

def j2lenGet (m : List (Nat × Nat)) (k : Nat) : Nat :=
  match m.find? (fun kv => kv.1 = k) with
  | some kv => kv.2
  | none => 0

/-- Body of the inner j-loop of find_longest_match: j2len is the row for the
previous i, the accumulator carries the new row and current best. -/
def flmStep (i : Nat) (j2len : List (Nat × Nat))
    (acc : List (Nat × Nat) × FLM) (j : Nat) : List (Nat × Nat) × FLM :=
  let k := (if j = 0 then 0 else j2lenGet j2len (j - 1)) + 1
  let best := acc.2
  ((j, k) :: acc.1,
    if k > best.bestsize then ⟨i - k + 1, j - k + 1, k⟩ else best)

/-- Body of the outer i-loop of find_longest_match. -/
def flmILoop (a b : PyStr) (blo bhi : Nat)
    (st : List (Nat × Nat) × FLM) (i : Nat) : List (Nat × Nat) × FLM :=
  let js := match a.get? i with
    | some ch => (b2jOf b ch).filter (fun j => blo ≤ j ∧ j < bhi)
    | none => []
  let (row, best) := js.foldl (flmStep i st.1) ([], st.2)
  (row, best)

def charsMatch (a b : PyStr) (i j : Nat) : Bool :=
  match a.get? i, b.get? j with
  | some x, some y => x = y
  | _, _ => false

/-- The first (non-junk) extension loop, shifting the match left. -/
def extendLeft (a b : PyStr) (alo blo : Nat) : Nat → FLM → FLM
  | 0, st => st
  | fuel + 1, st =>
    if alo < st.besti ∧ blo < st.bestj ∧
        charsMatch a b (st.besti - 1) (st.bestj - 1) then
      extendLeft a b alo blo fuel ⟨st.besti - 1, st.bestj - 1, st.bestsize + 1⟩
    else st

/-- The second (non-junk) extension loop, growing the match to the right. -/
def extendRight (a b : PyStr) (ahi bhi : Nat) : Nat → FLM → FLM
  | 0, st => st
  | fuel + 1, st =>
    if st.besti + st.bestsize < ahi ∧ st.bestj + st.bestsize < bhi ∧
        charsMatch a b (st.besti + st.bestsize) (st.bestj + st.bestsize) then
      extendRight a b ahi bhi fuel ⟨st.besti, st.bestj, st.bestsize + 1⟩
    else st

/-- SequenceMatcher.find_longest_match on a window, without junk (the junk
extension loops of the original never fire and are omitted). -/
def find_longest_match (a b : PyStr) (alo ahi blo bhi : Nat) : FLM :=
  let loopOut :=
    (List.range' alo (ahi - alo)).foldl (flmILoop a b blo bhi) ([], ⟨alo, blo, 0⟩)
  extendRight a b ahi bhi (ahi + 1)
    (extendLeft a b alo blo (loopOut.2.besti + 1) loopOut.2)

/-- Total size of all matching blocks (the queue recursion of
get_matching_blocks, summed). -/
def matchedTotal (a b : PyStr) : Nat → Nat → Nat → Nat → Nat → Nat
  | 0, _, _, _, _ => 0
  | fuel + 1, alo, ahi, blo, bhi =>
    let m := find_longest_match a b alo ahi blo bhi
    if m.bestsize = 0 then 0
    else
      m.bestsize + matchedTotal a b fuel alo m.besti blo m.bestj +
        matchedTotal a b fuel (m.besti + m.bestsize) ahi (m.bestj + m.bestsize) bhi

/-- SequenceMatcher(None, a, b).ratio(). -/
def sequence_ratio (a b : PyStr) : ℚ :=
  let la := a.length
  let lb := b.length
  if la + lb = 0 then 1
  else 2 * (matchedTotal a b (la + lb + 1) 0 la 0 lb : ℚ) / (la + lb : ℚ)

/-! ## Geographic fit (MatchScorer._calculate_geographic_fit) -/

def normalizeLocs (ls : List PyStr) : List PyStr :=
  ls.map (fun l => pyStrip (pyLower l))

/-- MatchScorer._calculate_geographic_fit, with the source's fold over pairs. -/
def calculate_geographic_fit (company_locations context_geography : List PyStr) : ℚ :=
  if company_locations = [] ∨ context_geography = [] then 50
  else
    let company_locs := normalizeLocs company_locations
    let context_locs := normalizeLocs context_geography
    if company_locs.any (fun c => context_locs.contains c) then 100
    else
      let max_similarity := company_locs.foldl (fun acc c =>
        context_locs.foldl (fun acc2 g =>
          if isSubstr c g ∨ isSubstr g c then max acc2 (85/100)
          else max acc2 (sequence_ratio c g)) acc) 0
      max_similarity * 100

/-- The per-pair value named by the claim: 0.85 on a substring containment,
the character-sequence similarity ratio otherwise. -/
def geoPairValue (c g : PyStr) : ℚ :=
  if isSubstr c g ∨ isSubstr g c then 85/100 else sequence_ratio c g

/-- The geographic-fit function exactly as C4 states it: 50 on an empty side,
100 on a shared normalized element, otherwise 100 times the maximum of
geoPairValue over all (candidate, profile) pairs. -/
def geographic_fit_claim (clocs glocs : List PyStr) : ℚ :=
  if clocs = [] ∨ glocs = [] then 50
  else
    let cs := normalizeLocs clocs
    let gs := normalizeLocs glocs
    if cs.any (fun c => gs.contains c) then 100
    else 100 * ((cs.product gs).map (fun p => geoPairValue p.1 p.2)).foldl max 0

lemma geo_inner_if (a : ℚ) (c g : PyStr) :
    (if isSubstr c g ∨ isSubstr g c then max a (85/100)
     else max a (sequence_ratio c g)) = max a (geoPairValue c g) := by
  unfold geoPairValue
  split
  · rfl
  · rfl

lemma list_product_cons (c : PyStr) (cs gs : List PyStr) :
    (c :: cs).product gs = gs.map (fun g => (c, g)) ++ cs.product gs := by
  simp [List.product]

lemma geo_fold_eq (gs : List PyStr) :
    ∀ (cs : List PyStr) (acc : ℚ),
      cs.foldl (fun a c => gs.foldl (fun a2 g => max a2 (geoPairValue c g)) a) acc =
      ((cs.product gs).map (fun p => geoPairValue p.1 p.2)).foldl max acc := by
  intro cs
  induction cs with
  | nil => intro acc; rfl
  | cons c cs ih =>
    intro acc
    rw [List.foldl_cons, ih]
    rw [list_product_cons, List.map_append, List.foldl_append]
    congr 1
    rw [List.map_map, List.foldl_map]
    rfl

/-- C4: the geographic-fit score is 50 when either location list is empty, 100
when the lowercased stripped lists share an element, and otherwise 100 times
the maximum over all pairs of the substring/similarity value; identical
single-element lists score 100 and the unrelated pair Asia / Europe scores
below 70. -/
theorem geographic_fit_spec (clocs glocs : List PyStr) (s : PyStr) :
    calculate_geographic_fit clocs glocs = geographic_fit_claim clocs glocs ∧
    (clocs = [] ∨ glocs = [] → calculate_geographic_fit clocs glocs = 50) ∧
    (clocs ≠ [] → glocs ≠ [] →
      (normalizeLocs clocs).any (fun c => (normalizeLocs glocs).contains c) →
      calculate_geographic_fit clocs glocs = 100) ∧
    calculate_geographic_fit [s] [s] = 100 ∧
    calculate_geographic_fit ["Asia".data] ["Europe".data] < 70 := by
  refine ⟨?_, ?_, ?_, ?_, by decide⟩
  · unfold calculate_geographic_fit geographic_fit_claim
    by_cases h : clocs = [] ∨ glocs = []
    · rw [if_pos h, if_pos h]
    · rw [if_neg h, if_neg h]
      by_cases hsh : (normalizeLocs clocs).any (fun c => (normalizeLocs glocs).contains c)
      · rw [if_pos hsh, if_pos hsh]
      · rw [if_neg hsh, if_neg hsh]
        simp only [geo_inner_if]
        rw [geo_fold_eq]
        ring
  · intro h
    unfold calculate_geographic_fit
    rw [if_pos h]
  · intro h1 h2 h3
    unfold calculate_geographic_fit
    rw [if_neg (by rintro (h | h) <;> [exact h1 h; exact h2 h]), if_pos h3]
  · unfold calculate_geographic_fit
    rw [if_neg (by rintro (h | h) <;> exact absurd h (by simp))]
    rw [if_pos]
    simp [normalizeLocs, List.any, List.contains]

/-- Witness for C4 on nonempty, intersecting concrete lists. -/
theorem geographic_fit_spec_witness :
    calculate_geographic_fit ["New York".data, "Berlin".data] ["berlin".data] = 100 := by
  have h := geographic_fit_spec ["New York".data, "Berlin".data] ["berlin".data] [] 
  exact h.2.2.1 (by decide) (by decide) (by decide)

/-! ## Size fit (MatchScorer._calculate_size_fit) -/

def size_indicators : List (PyStr × List PyStr) :=
  [("small".data,
    ["smb".data, "small".data, "startup".data, "entrepreneur".data,
     "small business".data, "local".data]),
   ("medium".data,
    ["mid-market".data, "medium".data, "growing".data, "regional".data,
     "middle market".data]),
   ("large".data,
    ["enterprise".data, "large".data, "fortune".data, "global".data,
     "multinational".data, "corporation".data])]

/-- The target size inferred from the lowercased target market, first matching
bucket in insertion order. -/
def inferTargetSize (target_market : PyStr) : Option PyStr :=
  (size_indicators.find? (fun si => si.2.any (fun ind => isSubstr ind target_market))).map
    (fun si => si.1)

/-- size_map.get(s, 1): everything outside the vocabulary defaults to medium. -/
def size_map_get (s : PyStr) : Nat :=
  if s = "small".data then 0
  else if s = "medium".data then 1
  else if s = "large".data then 2
  else 1

/-- MatchScorer._calculate_size_fit. -/
def calculate_size_fit (company_size : PyStr) (context : BusinessContext) : ℚ :=
  if company_size = [] ∨ pyLower company_size = "unknown".data then 50
  else
    let size_normalized := pyStrip (pyLower company_size)
    match inferTargetSize (pyLower context.target_market) with
    | none => 50
    | some target_size =>
      let d := ((size_map_get size_normalized : ℤ) - (size_map_get target_size : ℤ)).natAbs
      if d = 0 then 100
      else if d = 1 then 70
      else 30

/-- C5: the size-fit score is 50 when no target size is inferable from the
target market or the candidate size is unknown, and otherwise scores the
ordinal distance between the candidate bucket and the inferred target bucket
(100 / 70 / 30), where a size string outside the small/medium/large
vocabulary — such as Gigantic against an enterprise target market — falls into
the default medium bucket. -/
theorem size_fit_spec (company_size : PyStr) (ctx : BusinessContext) :
    (company_size = [] ∨ pyLower company_size = "unknown".data →
      calculate_size_fit company_size ctx = 50) ∧
    (inferTargetSize (pyLower ctx.target_market) = none →
      calculate_size_fit company_size ctx = 50) ∧
    (∀ ts, company_size ≠ [] → pyLower company_size ≠ "unknown".data →
      inferTargetSize (pyLower ctx.target_market) = some ts →
      calculate_size_fit company_size ctx =
        (let d := ((size_map_get (pyStrip (pyLower company_size)) : ℤ) -
            (size_map_get ts : ℤ)).natAbs
         if d = 0 then 100 else if d = 1 then 70 else 30)) ∧
    calculate_size_fit "Gigantic".data
      { target_market := "Enterprise SaaS buyers".data } = 70 := by
  refine ⟨?_, ?_, ?_, by decide⟩
  · intro h
    unfold calculate_size_fit
    rw [if_pos h]
  · intro h
    unfold calculate_size_fit
    by_cases hu : company_size = [] ∨ pyLower company_size = "unknown".data
    · rw [if_pos hu]
    · rw [if_neg hu, h]
  · intro ts h1 h2 h3
    unfold calculate_size_fit
    rw [if_neg (by rintro (h | h) <;> [exact h1 h; exact h2 h]), h3]

/-- Witness for C5 at concrete inputs covering the three branches. -/
theorem size_fit_spec_witness :
    calculate_size_fit "Unknown".data
      { target_market := "Enterprise buyers".data } = 50 ∧
    calculate_size_fit "Small".data { target_market := "anyone".data } = 50 ∧
    calculate_size_fit "Small".data
      { target_market := "Enterprise buyers".data } = 30 := by
  refine ⟨?_, ?_, ?_⟩
  · exact (size_fit_spec "Unknown".data
      { target_market := "Enterprise buyers".data }).1 (by decide)
  · exact (size_fit_spec "Small".data { target_market := "anyone".data }).2.1 (by decide)
  · have h := (size_fit_spec "Small".data
      { target_market := "Enterprise buyers".data }).2.2.1 "large".data
      (by decide) (by decide) (by decide)
    rw [h]
    decide

end SignalForge

namespace SignalForge

/-! ## Query builder (src/src/agent/query_builder.py)

Filter values are strings or lists of strings, the shapes the documented
filter contract uses; Python truthiness of a value is emptiness of the string
or list.  With these shapes every operation below is total, matching the
builder's raise-nothing contract. -/

inductive FilterVal where
  | fstr (s : PyStr)
  | flist (l : List PyStr)
deriving DecidableEq

def FilterVal.truthy : FilterVal → Bool
  | .fstr s => s ≠ []
  | .flist l => l ≠ []

structure Filters where
  geography : Option FilterVal := none
  industry : Option FilterVal := none
  size : Option PyStr := none
  partnership_type : Option PyStr := none
deriving DecidableEq

/-- QueryBuilder._extract_geography; the empty string plays the falsy None. -/
def extract_geography (context : BusinessContext) (filters : Filters) : PyStr :=
  let ctxGeo :=
    if context.geography ≠ [] then pyJoin ", ".data (context.geography.take 2) else []
  match filters.geography with
  | some v =>
    if v.truthy then
      match v with
      | .fstr s => s
      | .flist l => pyJoin ", ".data (l.take 2)
    else ctxGeo
  | none => ctxGeo

/-- QueryBuilder._build_query. -/
def build_query (base geography : PyStr) : PyStr :=
  if base = [] then []
  else
    let query := pyStrip base
    if geography ≠ [] ∧ isSubstr "in ".data (pyLower query) = false then
      query ++ " in ".data ++ geography
    else query

/-- Append guarded by non-emptiness and the seen-set (which always mirrors the
list contents in the source). -/
def appendIf (qs : List PyStr) (q : PyStr) : List PyStr :=
  if q ≠ [] ∧ q ∉ qs then qs ++ [q] else qs

/-- Strategy 4's append: guarded by the seen-set only. -/
def appendIfNew (qs : List PyStr) (q : PyStr) : List PyStr :=
  if q ∉ qs then qs ++ [q] else qs

/-- The industry variable of both builders: context.industry or "businesses". -/
def industryOr (context : BusinessContext) : PyStr :=
  if context.industry ≠ [] then context.industry else "businesses".data

/-- Customer strategy 1: target-market focused. -/
def custS1 (tm geo : PyStr) (qs : List PyStr) : List PyStr :=
  if tm ≠ [] then appendIf qs (build_query tm geo) else qs

/-- Customer strategy 2: need statements for the first two products. -/
def custS2 (tm geo : PyStr) (products : List PyStr) (qs : List PyStr) : List PyStr :=
  if products ≠ [] then
    (products.take 2).foldl (fun qs p =>
      appendIf qs (build_query
        ((if tm ≠ [] then tm else "companies".data) ++ " needing ".data ++ pyLower p)
        geo)) qs
  else qs

/-- Customer strategy 3: industry-based, preferring filter industries. -/
def custS3 (industry geo : PyStr) (fi : Option FilterVal) (qs : List PyStr) :
    List PyStr :=
  match fi with
  | some v =>
    if v.truthy then
      match v with
      | .fstr s => appendIf qs (build_query (s ++ " companies".data) geo)
      | .flist l =>
        (l.take 2).foldl (fun qs ind =>
          appendIf qs (build_query (ind ++ " companies".data) geo)) qs
    else appendIf qs (build_query (pyStrip (dashHead industry) ++ " companies".data) geo)
  | none => appendIf qs (build_query (pyStrip (dashHead industry) ++ " companies".data) geo)

/-- Customer strategy 4: geography + industry combination. -/
def custS4 (industry geo : PyStr) (qs : List PyStr) : List PyStr :=
  if geo ≠ [] then
    appendIfNew qs (pyStrip (dashHead industry) ++ " businesses in ".data ++ geo)
  else qs

/-- Customer strategy 5: size-filtered variant. -/
def custS5 (tm geo : PyStr) (sz : Option PyStr) (qs : List PyStr) : List PyStr :=
  match sz with
  | some s =>
    if s ≠ [] ∧ tm ≠ [] then appendIf qs (build_query (tm ++ " ".data ++ s) geo) else qs
  | none => qs

def customerStrategies (context : BusinessContext) (filters : Filters) : List PyStr :=
  let industry := industryOr context
  let tm := context.target_market
  let geo := extract_geography context filters
  custS5 tm geo filters.size
    (custS4 industry geo
      (custS3 industry geo filters.industry
        (custS2 tm geo context.products_services
          (custS1 tm geo []))))

/-- The generic fallback of the customer while-loop, by current length. -/
def customerFallback (industry tm geo : PyStr) : Nat → PyStr
  | 0 => build_query (if tm ≠ [] then tm else industry) geo
  | 1 => industry ++ " looking for growth".data
  | _ => "potential ".data ++ industry ++ " customers".data

/-- The duplicate-safe catch-all appended by the customer break branch. -/
def customerGeneric (geo : PyStr) : PyStr :=
  if geo ≠ [] then "businesses in ".data ++ geo else "companies".data

/-- The customer while-loop: pad to three queries, breaking with the catch-all
when the length-indexed fallback is empty or already present. -/
def customerPad (industry tm geo : PyStr) : Nat → List PyStr → List PyStr
  | 0, qs => qs
  | fuel + 1, qs =>
    if 3 ≤ qs.length then qs
    else
      let fb := customerFallback industry tm geo qs.length
      if fb ≠ [] ∧ fb ∉ qs then customerPad industry tm geo fuel (qs ++ [fb])
      else qs ++ [customerGeneric geo]

/-- QueryBuilder.build_customer_queries. -/
def build_customer_queries (context : BusinessContext) (filters : Option Filters) :
    List PyStr :=
  let filters := filters.getD {}
  (customerPad (industryOr context) context.target_market
    (extract_geography context filters) 3 (customerStrategies context filters)).take 5

/-- Partner strategy 1: partnership with the base industry. -/
def partS1 (industry geo : PyStr) (qs : List PyStr) : List PyStr :=
  appendIf qs (build_query
    ("companies partnering with ".data ++ pyStrip (dashHead industry) ++
      " businesses".data) geo)

/-- Partner strategy 2: complementary-product integration. -/
def partS2 (geo : PyStr) (products : List PyStr) (qs : List PyStr) : List PyStr :=
  if products ≠ [] then
    (products.take 2).foldl (fun qs p =>
      appendIf qs (build_query ("companies integrating with ".data ++ pyLower p) geo)) qs
  else qs

/-- Partner strategy 3: technology partnerships for SaaS or software. -/
def partS3 (industry geo : PyStr) (qs : List PyStr) : List PyStr :=
  if isSubstr "saas".data (pyLower industry) ∨ isSubstr "software".data (pyLower industry) then
    appendIf qs (build_query "technology integration partners".data geo)
  else qs

/-- Partner strategy 4: the partnership_type filter. -/
def partS4 (geo : PyStr) (pt : Option PyStr) (qs : List PyStr) : List PyStr :=
  match pt with
  | some s =>
    if s ≠ [] then appendIf qs (build_query (s ++ " partnership opportunities".data) geo)
    else qs
  | none => qs

/-- Partner strategy 5: filter-industry strategic partners. -/
def partS5 (geo : PyStr) (fi : Option FilterVal) (qs : List PyStr) : List PyStr :=
  match fi with
  | some v =>
    if v.truthy then
      match v with
      | .fstr s => appendIf qs (build_query (s ++ " strategic partners".data) geo)
      | .flist l =>
        (l.take 2).foldl (fun qs ind =>
          appendIf qs (build_query (ind ++ " strategic partners".data) geo)) qs
    else qs
  | none => qs

def partnerStrategies (context : BusinessContext) (filters : Filters) : List PyStr :=
  let industry := industryOr context
  let geo := extract_geography context filters
  partS5 geo filters.industry
    (partS4 geo filters.partnership_type
      (partS3 industry geo
        (partS2 geo context.products_services
          (partS1 industry geo []))))

def partnerFallback (industry geo : PyStr) : Nat → PyStr
  | 0 => build_query (pyStrip (dashHead industry) ++ " partners".data) geo
  | 1 => "strategic ".data ++ industry ++ " partnerships".data
  | _ => "complementary ".data ++ industry ++ " partners".data

def partnerGeneric (geo : PyStr) : PyStr :=
  if geo ≠ [] then "partnership opportunities in ".data ++ geo
  else "business partners".data

def partnerPad (industry geo : PyStr) : Nat → List PyStr → List PyStr
  | 0, qs => qs
  | fuel + 1, qs =>
    if 3 ≤ qs.length then qs
    else
      let fb := partnerFallback industry geo qs.length
      if fb ≠ [] ∧ fb ∉ qs then partnerPad industry geo fuel (qs ++ [fb])
      else qs ++ [partnerGeneric geo]

/-- QueryBuilder.build_partner_queries. -/
def build_partner_queries (context : BusinessContext) (filters : Option Filters) :
    List PyStr :=
  let filters := filters.getD {}
  (partnerPad (industryOr context) (extract_geography context filters) 3
    (partnerStrategies context filters)).take 5

end SignalForge

namespace SignalForge

/-! ## String and list lemmas for the query-builder proofs -/

lemma lstrip_noop {s : PyStr} {c : Char} (h : s.head? = some c)
    (hc : c.isWhitespace = false) : lstrip s = s := by
  cases s with
  | nil => rfl
  | cons x xs =>
    simp only [List.head?_cons, Option.some.injEq] at h
    subst h
    unfold lstrip
    rw [List.dropWhile_cons, if_neg (by rw [hc]; simp)]

lemma lstrip_append_decomp (x t : PyStr) : ∃ w, lstrip (x ++ t) = w ++ lstrip t := by
  induction x with
  | nil => exact ⟨[], rfl⟩
  | cons c x ih =>
    by_cases h : c.isWhitespace
    · obtain ⟨w, hw⟩ := ih
      refine ⟨w, ?_⟩
      unfold lstrip at hw ⊢
      rw [List.cons_append, List.dropWhile_cons, if_pos (by rw [h])]
      exact hw
    · refine ⟨c :: x ++ t.takeWhile Char.isWhitespace, ?_⟩
      unfold lstrip
      rw [List.cons_append, List.dropWhile_cons, if_neg (by simp [h])]
      simp only [List.cons_append, List.append_assoc]
      rw [List.takeWhile_append_dropWhile]

lemma rstrip_noop {s : PyStr} {c : Char} (h : s.reverse.head? = some c)
    (hc : c.isWhitespace = false) : rstrip s = s := by
  unfold rstrip
  cases hr : s.reverse with
  | nil => simp [List.reverse_eq_nil_iff.mp hr]
  | cons y ys =>
    rw [hr] at h
    simp only [List.head?_cons, Option.some.injEq] at h
    subst h
    rw [List.dropWhile_cons, if_neg (by rw [hc]; simp), ← hr, List.reverse_reverse]

lemma rev_head_append (x t : PyStr) (h : t ≠ []) :
    (x ++ t).reverse.head? = t.reverse.head? := by
  rw [List.reverse_append]
  exact List.head?_append_of_ne_nil _ (by simpa using h)

lemma rstrip_append_noop {x t : PyStr} {c : Char} (h : t.reverse.head? = some c)
    (hc : c.isWhitespace = false) : rstrip (x ++ t) = x ++ t := by
  have ht : t ≠ [] := by
    intro he
    rw [he] at h
    exact absurd h (by simp)
  exact rstrip_noop (by rw [rev_head_append x t ht]; exact h) hc

lemma lstrip_tail_ne_nil {t : PyStr} {c : Char} (h : t.reverse.head? = some c)
    (hc : c.isWhitespace = false) : lstrip t ≠ [] := by
  intro he
  have hws : ∀ y ∈ t, y.isWhitespace = true := by
    intro y hy
    have : t.takeWhile Char.isWhitespace = t := by
      have := List.takeWhile_append_dropWhile Char.isWhitespace t
      unfold lstrip at he
      rw [he, List.append_nil] at this
      exact this
    exact List.mem_takeWhile_imp (this ▸ hy)
  have hcmem : c ∈ t := by
    have : c ∈ t.reverse := by
      cases hr : t.reverse with
      | nil => rw [hr] at h; exact absurd h (by simp)
      | cons a l => rw [hr] at h; simp at h; subst h; simp
    simpa using this
  rw [hws c hcmem] at hc
  exact absurd hc (by simp)

lemma rev_head_lstrip {t : PyStr} {c : Char} (h : t.reverse.head? = some c)
    (hc : c.isWhitespace = false) : (lstrip t).reverse.head? = some c := by
  have hts : t.takeWhile Char.isWhitespace ++ lstrip t = t :=
    List.takeWhile_append_dropWhile _ t
  have := rev_head_append (t.takeWhile Char.isWhitespace) (lstrip t)
    (lstrip_tail_ne_nil h hc)
  rw [hts] at this
  rw [← this]
  exact h

/-- The central shape fact: stripping x ++ t, for t with a non-whitespace last
character, yields some prefix followed by the leading-whitespace-trimmed t. -/
lemma pyStrip_append_shape (x t : PyStr) {c : Char} (h : t.reverse.head? = some c)
    (hc : c.isWhitespace = false) : ∃ w, pyStrip (x ++ t) = w ++ lstrip t := by
  obtain ⟨w, hw⟩ := lstrip_append_decomp x t
  refine ⟨w, ?_⟩
  unfold pyStrip
  rw [hw]
  exact rstrip_append_noop (rev_head_lstrip h hc) hc

lemma rev_get_append (x t : PyStr) (i : Nat) (h : i < t.length) :
    (x ++ t).reverse.get? i = t.reverse.get? i := by
  rw [List.reverse_append]
  exact List.get?_append (by simpa using h)

lemma length_lstrip_le (s : PyStr) : (lstrip s).length ≤ s.length := by
  unfold lstrip
  induction s with
  | nil => simp
  | cons c x ih =>
    rw [List.dropWhile_cons]
    split
    · exact Nat.le_trans ih (by simp)
    · simp

lemma length_rstrip_le (s : PyStr) : (rstrip s).length ≤ s.length := by
  unfold rstrip
  rw [List.length_reverse]
  calc (s.reverse.dropWhile Char.isWhitespace).length ≤ s.reverse.length :=
        length_lstrip_le s.reverse
    _ = s.length := by simp

lemma length_pyStrip_le (s : PyStr) : (pyStrip s).length ≤ s.length :=
  Nat.le_trans (length_rstrip_le _) (length_lstrip_le _)

lemma length_pyLower (s : PyStr) : (pyLower s).length = s.length := by
  unfold pyLower
  simp

lemma length_dashHead_le (s : PyStr) : (dashHead s).length ≤ s.length := by
  unfold dashHead
  simpa using List.length_le_of_sublist (List.takeWhile_sublist _)

lemma rotation_short (c u v x : PyStr) (hlen : x.length ≤ c.length)
    (heq : x ++ u = c ++ (x ++ v)) :
    ∃ k ≤ c.length, u = c.drop k ++ c.take k ++ v := by
  have hx : x = c.take x.length := by
    have h1 : (x ++ u).take x.length = x := List.take_left x u
    rw [heq, List.take_append_eq_append_take, Nat.sub_eq_zero_of_le hlen,
      List.take_zero, List.append_nil] at h1
    exact h1.symm
  have hu : u = c.drop x.length ++ (x ++ v) := by
    have h2 : (x ++ u).drop x.length = u := by
      rw [List.drop_append_eq_append_drop, Nat.sub_self, List.drop_length]
      simp
    rw [heq, List.drop_append_eq_append_drop, Nat.sub_eq_zero_of_le hlen,
      List.drop_zero] at h2
    exact h2.symm
  refine ⟨x.length, hlen, ?_⟩
  rw [hu, ← List.append_assoc, ← hx]

/-- Word-equation rotation: x ++ u = c ++ x ++ v forces u to be a rotation of c
followed by v. -/
lemma rotation_of_shift (c u v : PyStr) (hc : c ≠ []) :
    ∀ (n : Nat) (x : PyStr), x.length ≤ n → x ++ u = c ++ (x ++ v) →
      ∃ k ≤ c.length, u = c.drop k ++ c.take k ++ v := by
  intro n
  induction n with
  | zero =>
    intro x hx heq
    exact rotation_short c u v x (by omega) heq
  | succ n ih =>
    intro x hx heq
    by_cases hlen : x.length ≤ c.length
    · exact rotation_short c u v x hlen heq
    · push_neg at hlen
      have hcx : x.take c.length = c := by
        have h1 : (x ++ u).take c.length = x.take c.length := by
          rw [List.take_append_eq_append_take, Nat.sub_eq_zero_of_le (Nat.le_of_lt hlen),
            List.take_zero, List.append_nil]
        rw [heq, List.take_append_eq_append_take, Nat.sub_self, List.take_zero,
          List.append_nil, List.take_length] at h1
        exact h1.symm
      obtain ⟨x2, hx2⟩ : ∃ x2, x = c ++ x2 := by
        refine ⟨x.drop c.length, ?_⟩
        conv_lhs => rw [← List.take_append_drop c.length x]
        rw [hcx]
      have heq2 : x2 ++ u = c ++ (x2 ++ v) := by
        rw [hx2, List.append_assoc] at heq
        have hcan := List.append_cancel_left heq
        rw [hcan, List.append_assoc]
      have hle : x2.length ≤ n := by
        have h0 : 0 < c.length := List.length_pos.mpr hc
        have : x.length = c.length + x2.length := by rw [hx2, List.length_append]
        omega
      exact ih x2 hle heq2

end SignalForge

namespace SignalForge

/-! ## Query-builder structural lemmas (C6) -/

/-- Every query in the list is a non-empty string. -/
def GoodQs (qs : List PyStr) : Prop := ∀ q ∈ qs, q ≠ []

lemma append_ne_nil_left {s : PyStr} (h : s ≠ []) (t : PyStr) : s ++ t ≠ [] := by
  intro he
  exact h (List.append_eq_nil.mp he).1

lemma append_ne_nil_right (s : PyStr) {t : PyStr} (h : t ≠ []) : s ++ t ≠ [] := by
  intro he
  exact h (List.append_eq_nil.mp he).2

lemma mem_appendIf {qs : List PyStr} {x q : PyStr} (h : x ∈ qs) : x ∈ appendIf qs q := by
  unfold appendIf
  split
  · exact List.mem_append.mpr (Or.inl h)
  · exact h

lemma mem_appendIfNew {qs : List PyStr} {x q : PyStr} (h : x ∈ qs) :
    x ∈ appendIfNew qs q := by
  unfold appendIfNew
  split
  · exact List.mem_append.mpr (Or.inl h)
  · exact h

lemma self_mem_appendIf {qs : List PyStr} {q : PyStr} (h : q ≠ []) : q ∈ appendIf qs q := by
  unfold appendIf
  split
  · exact List.mem_append.mpr (Or.inr (List.mem_singleton.mpr rfl))
  · next h' =>
    push_neg at h'
    exact h' h

lemma self_mem_appendIfNew (qs : List PyStr) (q : PyStr) : q ∈ appendIfNew qs q := by
  unfold appendIfNew
  split
  · exact List.mem_append.mpr (Or.inr (List.mem_singleton.mpr rfl))
  · next h' => exact not_not.mp h'

lemma nodup_appendIf {qs : List PyStr} (q : PyStr) (h : qs.Nodup) :
    (appendIf qs q).Nodup := by
  unfold appendIf
  split
  · next hc =>
    refine List.Nodup.append h (List.nodup_singleton q) ?_
    intro a ha haq
    rw [List.mem_singleton] at haq
    subst haq
    exact hc.2 ha
  · exact h

lemma nodup_appendIfNew {qs : List PyStr} (q : PyStr) (h : qs.Nodup) :
    (appendIfNew qs q).Nodup := by
  unfold appendIfNew
  split
  · next hc =>
    refine List.Nodup.append h (List.nodup_singleton q) ?_
    intro a ha haq
    rw [List.mem_singleton] at haq
    subst haq
    exact hc ha
  · exact h

lemma good_appendIf {qs : List PyStr} (q : PyStr) (h : GoodQs qs) :
    GoodQs (appendIf qs q) := by
  unfold appendIf
  split
  · next hc =>
    intro x hx
    rcases List.mem_append.mp hx with h1 | h2
    · exact h x h1
    · rw [List.mem_singleton] at h2
      subst h2
      exact hc.1
  · exact h

lemma good_appendIfNew {qs : List PyStr} {q : PyStr} (h : GoodQs qs) (hq : q ≠ []) :
    GoodQs (appendIfNew qs q) := by
  unfold appendIfNew
  split
  · intro x hx
    rcases List.mem_append.mp hx with h1 | h2
    · exact h x h1
    · rw [List.mem_singleton] at h2
      subst h2
      exact hq
  · exact h

lemma foldl_appendIf_pres (P : List PyStr → Prop)
    (hP : ∀ qs q, P qs → P (appendIf qs q)) (f : PyStr → PyStr) :
    ∀ (l : List PyStr) (qs : List PyStr), P qs →
      P (l.foldl (fun qs p => appendIf qs (f p)) qs) := by
  intro l
  induction l with
  | nil => intro qs h; exact h
  | cons a l ih =>
    intro qs h
    exact ih _ (hP qs (f a) h)

lemma dropLast_append_singleton (l : List PyStr) (a : PyStr) :
    (l ++ [a]).dropLast = l := by
  simp

/-- Unfolded form of _build_query. -/
lemma build_query_def (base geo : PyStr) : build_query base geo =
    if base = [] then [] else
    if geo ≠ [] ∧ isSubstr "in ".data (pyLower (pyStrip base)) = false
    then pyStrip base ++ " in ".data ++ geo
    else pyStrip base := rfl

lemma build_query_cases (base geo : PyStr) (hb : base ≠ []) :
    build_query base geo = pyStrip base ∨
      (geo ≠ [] ∧ build_query base geo = pyStrip base ++ " in ".data ++ geo) := by
  rw [build_query_def, if_neg hb]
  split
  · next hc => exact Or.inr ⟨hc.1, rfl⟩
  · exact Or.inl rfl

lemma build_query_ne_nil_of_suffix (β t geo : PyStr) {c : Char}
    (h : t.reverse.head? = some c) (hc : c.isWhitespace = false)
    (ht : lstrip t ≠ []) : build_query (β ++ t) geo ≠ [] := by
  have htne : t ≠ [] := by
    intro he
    rw [he] at h
    exact absurd h (by simp)
  have hb : β ++ t ≠ [] := append_ne_nil_right β htne
  obtain ⟨w, hw⟩ := pyStrip_append_shape β t h hc
  rcases build_query_cases (β ++ t) geo hb with h1 | ⟨_, h1⟩
  · rw [h1, hw]
    exact append_ne_nil_right w ht
  · rw [h1, hw]
    exact append_ne_nil_left (append_ne_nil_left (append_ne_nil_right w ht) _) _

/-- Customer strategy-3 candidate value. -/
def s3val (β geo : PyStr) : PyStr := build_query (β ++ " companies".data) geo

/-- Customer strategy-4 value. -/
def s4val (industry geo : PyStr) : PyStr :=
  pyStrip (dashHead industry) ++ " businesses in ".data ++ geo

lemma s3val_ne_nil (β geo : PyStr) : s3val β geo ≠ [] :=
  build_query_ne_nil_of_suffix β " companies".data geo (c := 's') (by decide) (by decide)
    (by decide)

lemma custS3_mem (industry geo : PyStr) (fi : Option FilterVal) (qs : List PyStr) :
    ∃ β, s3val β geo ∈ custS3 industry geo fi qs := by
  cases fi with
  | none =>
    exact ⟨pyStrip (dashHead industry), self_mem_appendIf (s3val_ne_nil _ _)⟩
  | some v =>
    by_cases htr : v.truthy = true
    · cases v with
      | fstr s =>
        refine ⟨s, ?_⟩
        show s3val s geo ∈ if (FilterVal.fstr s).truthy = true
          then appendIf qs (s3val s geo)
          else appendIf qs (s3val (pyStrip (dashHead industry)) geo)
        rw [if_pos htr]
        exact self_mem_appendIf (s3val_ne_nil _ _)
      | flist l =>
        cases l with
        | nil => exact absurd htr (by decide)
        | cons i0 rest =>
          refine ⟨i0, ?_⟩
          show s3val i0 geo ∈ if (FilterVal.flist (i0 :: rest)).truthy = true
            then List.foldl (fun qs ind => appendIf qs (s3val ind geo)) qs
              ((i0 :: rest).take 2)
            else appendIf qs (s3val (pyStrip (dashHead industry)) geo)
          rw [if_pos htr]
          rw [show (i0 :: rest).take 2 = i0 :: rest.take 1 from rfl, List.foldl_cons]
          exact foldl_appendIf_pres _ (fun _ _ h => mem_appendIf h) _ _ _
            (self_mem_appendIf (s3val_ne_nil _ _))
    · cases v with
      | fstr s =>
        refine ⟨pyStrip (dashHead industry), ?_⟩
        show s3val (pyStrip (dashHead industry)) geo ∈
          if (FilterVal.fstr s).truthy = true
          then appendIf qs (s3val s geo)
          else appendIf qs (s3val (pyStrip (dashHead industry)) geo)
        rw [if_neg htr]
        exact self_mem_appendIf (s3val_ne_nil _ _)
      | flist l =>
        refine ⟨pyStrip (dashHead industry), ?_⟩
        show s3val (pyStrip (dashHead industry)) geo ∈
          if (FilterVal.flist l).truthy = true
          then List.foldl (fun qs ind => appendIf qs (s3val ind geo)) qs (l.take 2)
          else appendIf qs (s3val (pyStrip (dashHead industry)) geo)
        rw [if_neg htr]
        exact self_mem_appendIf (s3val_ne_nil _ _)

lemma custS1_pres (P : List PyStr → Prop) (hP : ∀ qs q, P qs → P (appendIf qs q))
    (tm geo : PyStr) {qs : List PyStr} (h : P qs) : P (custS1 tm geo qs) := by
  unfold custS1
  split
  · exact hP _ _ h
  · exact h

lemma custS2_pres (P : List PyStr → Prop) (hP : ∀ qs q, P qs → P (appendIf qs q))
    (tm geo : PyStr) (products : List PyStr) {qs : List PyStr} (h : P qs) :
    P (custS2 tm geo products qs) := by
  unfold custS2
  split
  · exact foldl_appendIf_pres P hP _ _ _ h
  · exact h

lemma custS3_pres (P : List PyStr → Prop) (hP : ∀ qs q, P qs → P (appendIf qs q))
    (industry geo : PyStr) (fi : Option FilterVal) {qs : List PyStr} (h : P qs) :
    P (custS3 industry geo fi qs) := by
  cases fi with
  | none => exact hP _ _ h
  | some v =>
    cases v with
    | fstr s =>
      show P (if (FilterVal.fstr s).truthy = true
        then appendIf qs (build_query (s ++ " companies".data) geo)
        else appendIf qs
          (build_query (pyStrip (dashHead industry) ++ " companies".data) geo))
      split
      · exact hP _ _ h
      · exact hP _ _ h
    | flist l =>
      show P (if (FilterVal.flist l).truthy = true
        then List.foldl (fun qs ind =>
          appendIf qs (build_query (ind ++ " companies".data) geo)) qs (l.take 2)
        else appendIf qs
          (build_query (pyStrip (dashHead industry) ++ " companies".data) geo))
      split
      · exact foldl_appendIf_pres P hP _ _ _ h
      · exact hP _ _ h

lemma custS4_mem_pres {x : PyStr} (industry geo : PyStr) {qs : List PyStr}
    (h : x ∈ qs) : x ∈ custS4 industry geo qs := by
  unfold custS4
  split
  · exact mem_appendIfNew h
  · exact h

lemma custS4_nodup (industry geo : PyStr) {qs : List PyStr} (h : qs.Nodup) :
    (custS4 industry geo qs).Nodup := by
  unfold custS4
  split
  · exact nodup_appendIfNew _ h
  · exact h

lemma custS4_good (industry geo : PyStr) {qs : List PyStr} (h : GoodQs qs) :
    GoodQs (custS4 industry geo qs) := by
  unfold custS4
  split
  · exact good_appendIfNew h
      (append_ne_nil_left (append_ne_nil_right _ (by decide)) geo)
  · exact h

lemma custS5_pres (P : List PyStr → Prop) (hP : ∀ qs q, P qs → P (appendIf qs q))
    (tm geo : PyStr) (sz : Option PyStr) {qs : List PyStr} (h : P qs) :
    P (custS5 tm geo sz qs) := by
  cases sz with
  | none => exact h
  | some s =>
    show P (if s ≠ [] ∧ tm ≠ [] then appendIf qs (build_query (tm ++ " ".data ++ s) geo)
      else qs)
    split
    · exact hP _ _ h
    · exact h

lemma customerStrategies_def (ctx : BusinessContext) (f : Filters) :
    customerStrategies ctx f =
    custS5 ctx.target_market (extract_geography ctx f) f.size
      (custS4 (industryOr ctx) (extract_geography ctx f)
        (custS3 (industryOr ctx) (extract_geography ctx f) f.industry
          (custS2 ctx.target_market (extract_geography ctx f) ctx.products_services
            (custS1 ctx.target_market (extract_geography ctx f) [])))) := rfl

lemma customerStrategies_s3 (ctx : BusinessContext) (f : Filters) :
    ∃ β, s3val β (extract_geography ctx f) ∈ customerStrategies ctx f := by
  rw [customerStrategies_def]
  obtain ⟨β, hβ⟩ := custS3_mem (industryOr ctx) (extract_geography ctx f) f.industry
    (custS2 ctx.target_market (extract_geography ctx f) ctx.products_services
      (custS1 ctx.target_market (extract_geography ctx f) []))
  exact ⟨β, custS5_pres _ (fun _ _ h => mem_appendIf h) _ _ _
    (custS4_mem_pres _ _ hβ)⟩

lemma customerStrategies_s4 (ctx : BusinessContext) (f : Filters)
    (hgeo : extract_geography ctx f ≠ []) :
    s4val (industryOr ctx) (extract_geography ctx f) ∈ customerStrategies ctx f := by
  rw [customerStrategies_def]
  apply custS5_pres _ (fun _ _ h => mem_appendIf h)
  unfold custS4 s4val
  rw [if_pos hgeo]
  exact self_mem_appendIfNew _ _

lemma customerStrategies_nodup (ctx : BusinessContext) (f : Filters) :
    (customerStrategies ctx f).Nodup := by
  rw [customerStrategies_def]
  exact custS5_pres _ (fun _ q h => nodup_appendIf q h) _ _ _
    (custS4_nodup _ _
      (custS3_pres _ (fun _ q h => nodup_appendIf q h) _ _ _
        (custS2_pres _ (fun _ q h => nodup_appendIf q h) _ _ _
          (custS1_pres _ (fun _ q h => nodup_appendIf q h) _ _
            List.nodup_nil))))

lemma customerStrategies_good (ctx : BusinessContext) (f : Filters) :
    GoodQs (customerStrategies ctx f) := by
  rw [customerStrategies_def]
  exact custS5_pres _ (fun _ q h => good_appendIf q h) _ _ _
    (custS4_good _ _
      (custS3_pres _ (fun _ q h => good_appendIf q h) _ _ _
        (custS2_pres _ (fun _ q h => good_appendIf q h) _ _ _
          (custS1_pres _ (fun _ q h => good_appendIf q h) _ _
            (fun q hq => absurd hq (List.not_mem_nil q))))))

lemma customerStrategies_ne_nil (ctx : BusinessContext) (f : Filters) :
    customerStrategies ctx f ≠ [] := by
  obtain ⟨β, hβ⟩ := customerStrategies_s3 ctx f
  exact List.ne_nil_of_mem hβ

/-- If the strategies phase produced a single query, it is not the
length-one fallback "industry looking for growth". -/
lemma customer_no_fb1 (ctx : BusinessContext) (f : Filters) (A : PyStr)
    (hA : customerStrategies ctx f = [A]) :
    A ≠ industryOr ctx ++ " looking for growth".data := by
  obtain ⟨β, hβ⟩ := customerStrategies_s3 ctx f
  rw [hA, List.mem_singleton] at hβ
  intro hfb
  have hb : β ++ " companies".data ≠ [] := append_ne_nil_right β (by decide)
  obtain ⟨w, hw⟩ := pyStrip_append_shape β " companies".data (c := 's') (by decide)
    (by decide)
  rw [show lstrip " companies".data = "companies".data from by decide] at hw
  rcases build_query_cases (β ++ " companies".data) (extract_geography ctx f) hb with
    h1 | ⟨hgeo, h1⟩
  · have hAeq : A = w ++ "companies".data := by
      rw [← hβ]
      unfold s3val
      rw [h1, hw]
    have h2 : A.reverse.head? = some 's' := by
      rw [hAeq, rev_head_append w "companies".data (by decide)]
      decide
    have h3 : A.reverse.head? = some 'h' := by
      rw [hfb, rev_head_append (industryOr ctx) " looking for growth".data (by decide)]
      decide
    rw [h2] at h3
    exact absurd h3 (by decide)
  · have hs4 := customerStrategies_s4 ctx f hgeo
    rw [hA, List.mem_singleton] at hs4
    have e1 : (w ++ "companies".data) ++ " in ".data ++ extract_geography ctx f = A := by
      rw [← hβ]
      unfold s3val
      rw [h1, hw]
    have e2 : pyStrip (dashHead (industryOr ctx)) ++ " businesses in ".data ++
        extract_geography ctx f = A := by
      rw [← hs4]
      rfl
    rw [← e2] at e1
    have e3 := List.append_cancel_right e1
    rw [show " businesses in ".data = " businesses".data ++ " in ".data from by decide,
      ← List.append_assoc] at e3
    have e4 := List.append_cancel_right e3
    have g1 : (w ++ "companies".data).reverse.get? 2 = some 'i' := by
      rw [rev_get_append w "companies".data 2 (by decide)]
      decide
    have g2 : (pyStrip (dashHead (industryOr ctx)) ++ " businesses".data).reverse.get? 2 =
        some 's' := by
      rw [rev_get_append _ " businesses".data 2 (by decide)]
      decide
    rw [e4, g2] at g1
    exact absurd g1 (by decide)

end SignalForge

namespace SignalForge

/-! ## Partner strategies: structure lemmas (C6) -/

lemma ne_nil_of_head? {s : PyStr} {c : Char} (h : s.head? = some c) : s ≠ [] := by
  intro he
  rw [he] at h
  exact absurd h (by simp)

/-- Partner strategy 1's query base. -/
def p1base (industry : PyStr) : PyStr :=
  "companies partnering with ".data ++ pyStrip (dashHead industry) ++ " businesses".data

/-- Partner strategy 1's full candidate query. -/
def p1val (industry geo : PyStr) : PyStr := build_query (p1base industry) geo

lemma p1base_head (industry : PyStr) : (p1base industry).head? = some 'c' := rfl

lemma p1base_rev_head (industry : PyStr) :
    (p1base industry).reverse.head? = some 's' := by
  rw [show p1base industry = ("companies partnering with ".data ++
      pyStrip (dashHead industry)) ++ " businesses".data from rfl,
    rev_head_append _ _ (by decide)]
  decide

lemma p1base_strip (industry : PyStr) : pyStrip (p1base industry) = p1base industry := by
  have h1 : lstrip (p1base industry) = p1base industry :=
    lstrip_noop (p1base_head industry) (by decide)
  unfold pyStrip
  rw [h1]
  exact rstrip_noop (p1base_rev_head industry) (by decide)

lemma p1val_head (industry geo : PyStr) : (p1val industry geo).head? = some 'c' := by
  have hb : p1base industry ≠ [] := ne_nil_of_head? (p1base_head industry)
  rcases build_query_cases (p1base industry) geo hb with h1 | ⟨_, h1⟩
  · unfold p1val
    rw [h1, p1base_strip]
    exact p1base_head industry
  · unfold p1val
    rw [h1, p1base_strip]
    have e1 : ((p1base industry ++ " in ".data) ++ geo).head? =
        (p1base industry ++ " in ".data).head? :=
      List.head?_append_of_ne_nil _ (append_ne_nil_left hb _)
    have e2 : (p1base industry ++ " in ".data).head? = (p1base industry).head? :=
      List.head?_append_of_ne_nil _ hb
    rw [e1, e2]
    exact p1base_head industry

lemma p1val_ne_nil (industry geo : PyStr) : p1val industry geo ≠ [] :=
  ne_nil_of_head? (p1val_head industry geo)

lemma partS1_mem (industry geo : PyStr) (qs : List PyStr) :
    p1val industry geo ∈ partS1 industry geo qs :=
  self_mem_appendIf (p1val_ne_nil _ _)

lemma partS1_pres (P : List PyStr → Prop) (hP : ∀ qs q, P qs → P (appendIf qs q))
    (industry geo : PyStr) {qs : List PyStr} (h : P qs) :
    P (partS1 industry geo qs) :=
  hP _ _ h

lemma partS2_pres (P : List PyStr → Prop) (hP : ∀ qs q, P qs → P (appendIf qs q))
    (geo : PyStr) (products : List PyStr) {qs : List PyStr} (h : P qs) :
    P (partS2 geo products qs) := by
  unfold partS2
  split
  · exact foldl_appendIf_pres P hP _ _ _ h
  · exact h

lemma partS3_pres (P : List PyStr → Prop) (hP : ∀ qs q, P qs → P (appendIf qs q))
    (industry geo : PyStr) {qs : List PyStr} (h : P qs) :
    P (partS3 industry geo qs) := by
  unfold partS3
  split
  · exact hP _ _ h
  · exact h

lemma partS4_pres (P : List PyStr → Prop) (hP : ∀ qs q, P qs → P (appendIf qs q))
    (geo : PyStr) (pt : Option PyStr) {qs : List PyStr} (h : P qs) :
    P (partS4 geo pt qs) := by
  cases pt with
  | none => exact h
  | some s =>
    show P (if s ≠ [] then
      appendIf qs (build_query (s ++ " partnership opportunities".data) geo) else qs)
    split
    · exact hP _ _ h
    · exact h

lemma partS5_pres (P : List PyStr → Prop) (hP : ∀ qs q, P qs → P (appendIf qs q))
    (geo : PyStr) (fi : Option FilterVal) {qs : List PyStr} (h : P qs) :
    P (partS5 geo fi qs) := by
  cases fi with
  | none => exact h
  | some v =>
    cases v with
    | fstr s =>
      show P (if (FilterVal.fstr s).truthy = true
        then appendIf qs (build_query (s ++ " strategic partners".data) geo)
        else qs)
      split
      · exact hP _ _ h
      · exact h
    | flist l =>
      show P (if (FilterVal.flist l).truthy = true
        then List.foldl (fun qs ind =>
          appendIf qs (build_query (ind ++ " strategic partners".data) geo)) qs (l.take 2)
        else qs)
      split
      · exact foldl_appendIf_pres P hP _ _ _ h
      · exact h

lemma partnerStrategies_def (ctx : BusinessContext) (f : Filters) :
    partnerStrategies ctx f =
    partS5 (extract_geography ctx f) f.industry
      (partS4 (extract_geography ctx f) f.partnership_type
        (partS3 (industryOr ctx) (extract_geography ctx f)
          (partS2 (extract_geography ctx f) ctx.products_services
            (partS1 (industryOr ctx) (extract_geography ctx f) [])))) := rfl

lemma partnerStrategies_p1 (ctx : BusinessContext) (f : Filters) :
    p1val (industryOr ctx) (extract_geography ctx f) ∈ partnerStrategies ctx f := by
  rw [partnerStrategies_def]
  exact partS5_pres _ (fun _ _ h => mem_appendIf h) _ _
    (partS4_pres _ (fun _ _ h => mem_appendIf h) _ _
      (partS3_pres _ (fun _ _ h => mem_appendIf h) _ _
        (partS2_pres _ (fun _ _ h => mem_appendIf h) _ _
          (partS1_mem _ _ _))))

lemma partnerStrategies_nodup (ctx : BusinessContext) (f : Filters) :
    (partnerStrategies ctx f).Nodup := by
  rw [partnerStrategies_def]
  exact partS5_pres _ (fun _ q h => nodup_appendIf q h) _ _
    (partS4_pres _ (fun _ q h => nodup_appendIf q h) _ _
      (partS3_pres _ (fun _ q h => nodup_appendIf q h) _ _
        (partS2_pres _ (fun _ q h => nodup_appendIf q h) _ _
          (partS1_pres _ (fun _ q h => nodup_appendIf q h) _ _
            List.nodup_nil))))

lemma partnerStrategies_good (ctx : BusinessContext) (f : Filters) :
    GoodQs (partnerStrategies ctx f) := by
  rw [partnerStrategies_def]
  exact partS5_pres _ (fun _ q h => good_appendIf q h) _ _
    (partS4_pres _ (fun _ q h => good_appendIf q h) _ _
      (partS3_pres _ (fun _ q h => good_appendIf q h) _ _
        (partS2_pres _ (fun _ q h => good_appendIf q h) _ _
          (partS1_pres _ (fun _ q h => good_appendIf q h) _ _
            (fun q hq => absurd hq (List.not_mem_nil q))))))

lemma partnerStrategies_ne_nil (ctx : BusinessContext) (f : Filters) :
    partnerStrategies ctx f ≠ [] :=
  List.ne_nil_of_mem (partnerStrategies_p1 ctx f)

/-- If the partner strategies phase produced a single query, it is not the
length-one fallback "strategic {industry} partnerships". -/
lemma partner_no_fb1 (ctx : BusinessContext) (f : Filters) (A : PyStr)
    (hA : partnerStrategies ctx f = [A]) :
    A ≠ "strategic ".data ++ industryOr ctx ++ " partnerships".data := by
  have hE := partnerStrategies_p1 ctx f
  rw [hA, List.mem_singleton] at hE
  intro hfb
  have h1 : A.head? = some 'c' := by
    rw [← hE]
    exact p1val_head _ _
  have h2 : A.head? = some 's' := by
    rw [hfb]
    rfl
  rw [h1] at h2
  exact absurd h2 (by decide)

/-! ## The padding while-loops (C6) -/

lemma good_concat {qs : List PyStr} {q : PyStr} (hg : GoodQs qs) (hq : q ≠ []) :
    GoodQs (qs ++ [q]) := by
  intro x hx
  rcases List.mem_append.mp hx with h | h
  · exact hg x h
  · rw [List.mem_singleton] at h
    subst h
    exact hq

lemma nodup_concat {qs : List PyStr} {q : PyStr} (hn : qs.Nodup) (hq : q ∉ qs) :
    (qs ++ [q]).Nodup := by
  refine List.Nodup.append hn (List.nodup_singleton q) ?_
  intro a ha haq
  rw [List.mem_singleton] at haq
  subst haq
  exact hq ha

lemma customerPad_succ (i t g : PyStr) (fuel : Nat) (qs : List PyStr) :
    customerPad i t g (fuel + 1) qs =
      if 3 ≤ qs.length then qs
      else if customerFallback i t g qs.length ≠ [] ∧
          customerFallback i t g qs.length ∉ qs
        then customerPad i t g fuel (qs ++ [customerFallback i t g qs.length])
        else qs ++ [customerGeneric g] := rfl

lemma customerPad_stop (i t g : PyStr) (fuel : Nat) (qs : List PyStr)
    (h : 3 ≤ qs.length) : customerPad i t g (fuel + 1) qs = qs := by
  rw [customerPad_succ, if_pos h]

lemma customerPad_step (i t g : PyStr) (fuel : Nat) (qs : List PyStr)
    (h3 : ¬ 3 ≤ qs.length)
    (hfb : customerFallback i t g qs.length ≠ [] ∧
      customerFallback i t g qs.length ∉ qs) :
    customerPad i t g (fuel + 1) qs =
      customerPad i t g fuel (qs ++ [customerFallback i t g qs.length]) := by
  rw [customerPad_succ, if_neg h3, if_pos hfb]

lemma customerPad_break (i t g : PyStr) (fuel : Nat) (qs : List PyStr)
    (h3 : ¬ 3 ≤ qs.length)
    (hfb : ¬ (customerFallback i t g qs.length ≠ [] ∧
      customerFallback i t g qs.length ∉ qs)) :
    customerPad i t g (fuel + 1) qs = qs ++ [customerGeneric g] := by
  rw [customerPad_succ, if_neg h3, if_neg hfb]

lemma customerPad3_stop (i t g : PyStr) (qs : List PyStr) (h : 3 ≤ qs.length) :
    customerPad i t g 3 qs = qs := customerPad_stop i t g 2 qs h

lemma customerPad3_step (i t g : PyStr) (qs : List PyStr) (h3 : ¬ 3 ≤ qs.length)
    (hfb : customerFallback i t g qs.length ≠ [] ∧
      customerFallback i t g qs.length ∉ qs) :
    customerPad i t g 3 qs =
      customerPad i t g 2 (qs ++ [customerFallback i t g qs.length]) :=
  customerPad_step i t g 2 qs h3 hfb

lemma customerPad3_break (i t g : PyStr) (qs : List PyStr) (h3 : ¬ 3 ≤ qs.length)
    (hfb : ¬ (customerFallback i t g qs.length ≠ [] ∧
      customerFallback i t g qs.length ∉ qs)) :
    customerPad i t g 3 qs = qs ++ [customerGeneric g] :=
  customerPad_break i t g 2 qs h3 hfb

lemma customerPad2_stop (i t g : PyStr) (qs : List PyStr) (h : 3 ≤ qs.length) :
    customerPad i t g 2 qs = qs := customerPad_stop i t g 1 qs h

lemma customerPad2_step (i t g : PyStr) (qs : List PyStr) (h3 : ¬ 3 ≤ qs.length)
    (hfb : customerFallback i t g qs.length ≠ [] ∧
      customerFallback i t g qs.length ∉ qs) :
    customerPad i t g 2 qs =
      customerPad i t g 1 (qs ++ [customerFallback i t g qs.length]) :=
  customerPad_step i t g 1 qs h3 hfb

lemma customerPad2_break (i t g : PyStr) (qs : List PyStr) (h3 : ¬ 3 ≤ qs.length)
    (hfb : ¬ (customerFallback i t g qs.length ≠ [] ∧
      customerFallback i t g qs.length ∉ qs)) :
    customerPad i t g 2 qs = qs ++ [customerGeneric g] :=
  customerPad_break i t g 1 qs h3 hfb

lemma customerPad1_stop (i t g : PyStr) (qs : List PyStr) (h : 3 ≤ qs.length) :
    customerPad i t g 1 qs = qs := customerPad_stop i t g 0 qs h

lemma customerGeneric_ne_nil (g : PyStr) : customerGeneric g ≠ [] := by
  unfold customerGeneric
  split
  · exact append_ne_nil_left (by decide) g
  · decide

lemma customerPad2_spec (i t g : PyStr) (qs : List PyStr)
    (hnodup : qs.Nodup) (hgood : GoodQs qs) (hlen2 : qs.length = 2) :
    3 ≤ (customerPad i t g 2 qs).length ∧
    GoodQs (customerPad i t g 2 qs) ∧
    (customerPad i t g 2 qs).dropLast.Nodup ∧
    ((customerPad i t g 2 qs).Nodup ∨ (customerPad i t g 2 qs).length ≤ 3) := by
  have h3 : ¬ 3 ≤ qs.length := by omega
  by_cases hfb : customerFallback i t g qs.length ≠ [] ∧
      customerFallback i t g qs.length ∉ qs
  · rw [customerPad2_step _ _ _ _ h3 hfb,
      customerPad1_stop _ _ _ _ (by simp [hlen2])]
    refine ⟨by simp [hlen2], good_concat hgood hfb.1, ?_,
      Or.inl (nodup_concat hnodup hfb.2)⟩
    exact (nodup_concat hnodup hfb.2).sublist (List.dropLast_sublist _)
  · rw [customerPad2_break _ _ _ _ h3 hfb]
    refine ⟨by simp [hlen2], good_concat hgood (customerGeneric_ne_nil g), ?_,
      Or.inr (by simp [hlen2])⟩
    rw [dropLast_append_singleton]
    exact hnodup

lemma customerPad_spec (i t g : PyStr) (qs : List PyStr)
    (hnodup : qs.Nodup) (hgood : GoodQs qs) (hlen : 1 ≤ qs.length)
    (hfb1 : qs.length = 1 → i ++ " looking for growth".data ∉ qs) :
    3 ≤ (customerPad i t g 3 qs).length ∧
    GoodQs (customerPad i t g 3 qs) ∧
    (customerPad i t g 3 qs).dropLast.Nodup ∧
    ((customerPad i t g 3 qs).Nodup ∨ (customerPad i t g 3 qs).length ≤ 3) := by
  by_cases h3 : 3 ≤ qs.length
  · rw [customerPad3_stop _ _ _ _ h3]
    exact ⟨h3, hgood, hnodup.sublist (List.dropLast_sublist _), Or.inl hnodup⟩
  · rcases (by omega : qs.length = 1 ∨ qs.length = 2) with hL | hL
    · have hfb : customerFallback i t g qs.length ≠ [] ∧
          customerFallback i t g qs.length ∉ qs := by
        constructor
        · rw [hL]
          exact append_ne_nil_right i (by decide)
        · rw [hL]
          exact hfb1 hL
      rw [customerPad3_step _ _ _ _ h3 hfb]
      exact customerPad2_spec _ _ _ _ (nodup_concat hnodup hfb.2)
        (good_concat hgood hfb.1) (by simp [hL])
    · by_cases hfb : customerFallback i t g qs.length ≠ [] ∧
          customerFallback i t g qs.length ∉ qs
      · rw [customerPad3_step _ _ _ _ h3 hfb,
          customerPad2_stop _ _ _ _ (by simp [hL])]
        refine ⟨by simp [hL], good_concat hgood hfb.1, ?_,
          Or.inl (nodup_concat hnodup hfb.2)⟩
        exact (nodup_concat hnodup hfb.2).sublist (List.dropLast_sublist _)
      · rw [customerPad3_break _ _ _ _ h3 hfb]
        refine ⟨by simp [hL], good_concat hgood (customerGeneric_ne_nil g), ?_,
          Or.inr (by simp [hL])⟩
        rw [dropLast_append_singleton]
        exact hnodup

lemma partnerPad_succ (i g : PyStr) (fuel : Nat) (qs : List PyStr) :
    partnerPad i g (fuel + 1) qs =
      if 3 ≤ qs.length then qs
      else if partnerFallback i g qs.length ≠ [] ∧ partnerFallback i g qs.length ∉ qs
        then partnerPad i g fuel (qs ++ [partnerFallback i g qs.length])
        else qs ++ [partnerGeneric g] := rfl

lemma partnerPad_stop (i g : PyStr) (fuel : Nat) (qs : List PyStr)
    (h : 3 ≤ qs.length) : partnerPad i g (fuel + 1) qs = qs := by
  rw [partnerPad_succ, if_pos h]

lemma partnerPad_step (i g : PyStr) (fuel : Nat) (qs : List PyStr)
    (h3 : ¬ 3 ≤ qs.length)
    (hfb : partnerFallback i g qs.length ≠ [] ∧ partnerFallback i g qs.length ∉ qs) :
    partnerPad i g (fuel + 1) qs =
      partnerPad i g fuel (qs ++ [partnerFallback i g qs.length]) := by
  rw [partnerPad_succ, if_neg h3, if_pos hfb]

lemma partnerPad_break (i g : PyStr) (fuel : Nat) (qs : List PyStr)
    (h3 : ¬ 3 ≤ qs.length)
    (hfb : ¬ (partnerFallback i g qs.length ≠ [] ∧
      partnerFallback i g qs.length ∉ qs)) :
    partnerPad i g (fuel + 1) qs = qs ++ [partnerGeneric g] := by
  rw [partnerPad_succ, if_neg h3, if_neg hfb]

lemma partnerPad3_stop (i g : PyStr) (qs : List PyStr) (h : 3 ≤ qs.length) :
    partnerPad i g 3 qs = qs := partnerPad_stop i g 2 qs h

lemma partnerPad3_step (i g : PyStr) (qs : List PyStr) (h3 : ¬ 3 ≤ qs.length)
    (hfb : partnerFallback i g qs.length ≠ [] ∧ partnerFallback i g qs.length ∉ qs) :
    partnerPad i g 3 qs = partnerPad i g 2 (qs ++ [partnerFallback i g qs.length]) :=
  partnerPad_step i g 2 qs h3 hfb

lemma partnerPad3_break (i g : PyStr) (qs : List PyStr) (h3 : ¬ 3 ≤ qs.length)
    (hfb : ¬ (partnerFallback i g qs.length ≠ [] ∧
      partnerFallback i g qs.length ∉ qs)) :
    partnerPad i g 3 qs = qs ++ [partnerGeneric g] :=
  partnerPad_break i g 2 qs h3 hfb

lemma partnerPad2_stop (i g : PyStr) (qs : List PyStr) (h : 3 ≤ qs.length) :
    partnerPad i g 2 qs = qs := partnerPad_stop i g 1 qs h

lemma partnerPad2_step (i g : PyStr) (qs : List PyStr) (h3 : ¬ 3 ≤ qs.length)
    (hfb : partnerFallback i g qs.length ≠ [] ∧ partnerFallback i g qs.length ∉ qs) :
    partnerPad i g 2 qs = partnerPad i g 1 (qs ++ [partnerFallback i g qs.length]) :=
  partnerPad_step i g 1 qs h3 hfb

lemma partnerPad2_break (i g : PyStr) (qs : List PyStr) (h3 : ¬ 3 ≤ qs.length)
    (hfb : ¬ (partnerFallback i g qs.length ≠ [] ∧
      partnerFallback i g qs.length ∉ qs)) :
    partnerPad i g 2 qs = qs ++ [partnerGeneric g] :=
  partnerPad_break i g 1 qs h3 hfb

lemma partnerPad1_stop (i g : PyStr) (qs : List PyStr) (h : 3 ≤ qs.length) :
    partnerPad i g 1 qs = qs := partnerPad_stop i g 0 qs h

lemma partnerGeneric_ne_nil (g : PyStr) : partnerGeneric g ≠ [] := by
  unfold partnerGeneric
  split
  · exact append_ne_nil_left (by decide) g
  · decide

lemma partnerPad2_spec (i g : PyStr) (qs : List PyStr)
    (hnodup : qs.Nodup) (hgood : GoodQs qs) (hlen2 : qs.length = 2) :
    3 ≤ (partnerPad i g 2 qs).length ∧
    GoodQs (partnerPad i g 2 qs) ∧
    (partnerPad i g 2 qs).dropLast.Nodup ∧
    ((partnerPad i g 2 qs).Nodup ∨ (partnerPad i g 2 qs).length ≤ 3) := by
  have h3 : ¬ 3 ≤ qs.length := by omega
  by_cases hfb : partnerFallback i g qs.length ≠ [] ∧ partnerFallback i g qs.length ∉ qs
  · rw [partnerPad2_step _ _ _ h3 hfb, partnerPad1_stop _ _ _ (by simp [hlen2])]
    refine ⟨by simp [hlen2], good_concat hgood hfb.1, ?_,
      Or.inl (nodup_concat hnodup hfb.2)⟩
    exact (nodup_concat hnodup hfb.2).sublist (List.dropLast_sublist _)
  · rw [partnerPad2_break _ _ _ h3 hfb]
    refine ⟨by simp [hlen2], good_concat hgood (partnerGeneric_ne_nil g), ?_,
      Or.inr (by simp [hlen2])⟩
    rw [dropLast_append_singleton]
    exact hnodup

lemma partnerPad_spec (i g : PyStr) (qs : List PyStr)
    (hnodup : qs.Nodup) (hgood : GoodQs qs) (hlen : 1 ≤ qs.length)
    (hfb1 : qs.length = 1 → "strategic ".data ++ i ++ " partnerships".data ∉ qs) :
    3 ≤ (partnerPad i g 3 qs).length ∧
    GoodQs (partnerPad i g 3 qs) ∧
    (partnerPad i g 3 qs).dropLast.Nodup ∧
    ((partnerPad i g 3 qs).Nodup ∨ (partnerPad i g 3 qs).length ≤ 3) := by
  by_cases h3 : 3 ≤ qs.length
  · rw [partnerPad3_stop _ _ _ h3]
    exact ⟨h3, hgood, hnodup.sublist (List.dropLast_sublist _), Or.inl hnodup⟩
  · rcases (by omega : qs.length = 1 ∨ qs.length = 2) with hL | hL
    · have hfb : partnerFallback i g qs.length ≠ [] ∧
          partnerFallback i g qs.length ∉ qs := by
        constructor
        · rw [hL]
          exact append_ne_nil_right _ (by decide)
        · rw [hL]
          exact hfb1 hL
      rw [partnerPad3_step _ _ _ h3 hfb]
      exact partnerPad2_spec _ _ _ (nodup_concat hnodup hfb.2)
        (good_concat hgood hfb.1) (by simp [hL])
    · by_cases hfb : partnerFallback i g qs.length ≠ [] ∧
          partnerFallback i g qs.length ∉ qs
      · rw [partnerPad3_step _ _ _ h3 hfb, partnerPad2_stop _ _ _ (by simp [hL])]
        refine ⟨by simp [hL], good_concat hgood hfb.1, ?_,
          Or.inl (nodup_concat hnodup hfb.2)⟩
        exact (nodup_concat hnodup hfb.2).sublist (List.dropLast_sublist _)
      · rw [partnerPad3_break _ _ _ h3 hfb]
        refine ⟨by simp [hL], good_concat hgood (partnerGeneric_ne_nil g), ?_,
          Or.inr (by simp [hL])⟩
        rw [dropLast_append_singleton]
        exact hnodup

/-! ## Main C6 lemmas -/

lemma customer_main (ctx : BusinessContext) (filters : Option Filters) :
    3 ≤ (build_customer_queries ctx filters).length ∧
    (build_customer_queries ctx filters).length ≤ 5 ∧
    GoodQs (build_customer_queries ctx filters) ∧
    (build_customer_queries ctx filters).dropLast.Nodup := by
  have hdef : build_customer_queries ctx filters =
      (customerPad (industryOr ctx) ctx.target_market
        (extract_geography ctx (filters.getD {})) 3
        (customerStrategies ctx (filters.getD {}))).take 5 := rfl
  have hfb1 : (customerStrategies ctx (filters.getD {})).length = 1 →
      industryOr ctx ++ " looking for growth".data ∉
        customerStrategies ctx (filters.getD {}) := by
    intro hlen hmem
    obtain ⟨A, hA⟩ := List.length_eq_one.mp hlen
    rw [hA, List.mem_singleton] at hmem
    exact customer_no_fb1 ctx (filters.getD {}) A hA hmem.symm
  have hlen1 : 1 ≤ (customerStrategies ctx (filters.getD {})).length :=
    List.length_pos.mpr (customerStrategies_ne_nil ctx (filters.getD {}))
  obtain ⟨h3, hgood, hdrop, hnd⟩ := customerPad_spec (industryOr ctx) ctx.target_market
    (extract_geography ctx (filters.getD {}))
    (customerStrategies ctx (filters.getD {}))
    (customerStrategies_nodup ctx (filters.getD {}))
    (customerStrategies_good ctx (filters.getD {})) hlen1 hfb1
  rw [hdef]
  refine ⟨?_, ?_, ?_, ?_⟩
  · rw [List.length_take]
    omega
  · rw [List.length_take]
    omega
  · intro q hq
    exact hgood q (List.mem_of_mem_take hq)
  · rcases hnd with hnd | hle
    · exact List.Nodup.sublist
        ((List.dropLast_sublist _).trans (List.take_sublist _ _)) hnd
    · rw [List.take_of_length_le (by omega)]
      exact hdrop

lemma partner_main (ctx : BusinessContext) (filters : Option Filters) :
    3 ≤ (build_partner_queries ctx filters).length ∧
    (build_partner_queries ctx filters).length ≤ 5 ∧
    GoodQs (build_partner_queries ctx filters) ∧
    (build_partner_queries ctx filters).dropLast.Nodup := by
  have hdef : build_partner_queries ctx filters =
      (partnerPad (industryOr ctx) (extract_geography ctx (filters.getD {})) 3
        (partnerStrategies ctx (filters.getD {}))).take 5 := rfl
  have hfb1 : (partnerStrategies ctx (filters.getD {})).length = 1 →
      "strategic ".data ++ industryOr ctx ++ " partnerships".data ∉
        partnerStrategies ctx (filters.getD {}) := by
    intro hlen hmem
    obtain ⟨A, hA⟩ := List.length_eq_one.mp hlen
    rw [hA, List.mem_singleton] at hmem
    exact partner_no_fb1 ctx (filters.getD {}) A hA hmem.symm
  have hlen1 : 1 ≤ (partnerStrategies ctx (filters.getD {})).length :=
    List.length_pos.mpr (partnerStrategies_ne_nil ctx (filters.getD {}))
  obtain ⟨h3, hgood, hdrop, hnd⟩ := partnerPad_spec (industryOr ctx)
    (extract_geography ctx (filters.getD {}))
    (partnerStrategies ctx (filters.getD {}))
    (partnerStrategies_nodup ctx (filters.getD {}))
    (partnerStrategies_good ctx (filters.getD {})) hlen1 hfb1
  rw [hdef]
  refine ⟨?_, ?_, ?_, ?_⟩
  · rw [List.length_take]
    omega
  · rw [List.length_take]
    omega
  · intro q hq
    exact hgood q (List.mem_of_mem_take hq)
  · rcases hnd with hnd | hle
    · exact List.Nodup.sublist
        ((List.dropLast_sublist _).trans (List.take_sublist _ _)) hnd
    · rw [List.take_of_length_le (by omega)]
      exact hdrop

/-- C6 (amended): for every context and every optional filter map, both
build_customer_queries and build_partner_queries return between 3 and 5
queries, all non-empty; pairwise distinctness holds for every entry except
possibly the final one, because the break branch of the padding loop appends
its catch-all query without a duplicate check. -/
theorem build_queries_count_nonempty (ctx : BusinessContext)
    (filters : Option Filters) :
    (3 ≤ (build_customer_queries ctx filters).length ∧
      (build_customer_queries ctx filters).length ≤ 5 ∧
      GoodQs (build_customer_queries ctx filters) ∧
      (build_customer_queries ctx filters).dropLast.Nodup) ∧
    (3 ≤ (build_partner_queries ctx filters).length ∧
      (build_partner_queries ctx filters).length ≤ 5 ∧
      GoodQs (build_partner_queries ctx filters) ∧
      (build_partner_queries ctx filters).dropLast.Nodup) :=
  ⟨customer_main ctx filters, partner_main ctx filters⟩

/-- C6 witness: the amended statement instantiated at the empty context. -/
theorem build_queries_count_nonempty_witness :
    3 ≤ (build_customer_queries {} none).length ∧
      (build_customer_queries {} none).dropLast.Nodup :=
  ⟨(build_queries_count_nonempty {} none).1.1,
    (build_queries_count_nonempty {} none).1.2.2.2⟩

/-- C6 counterexample: a profile whose target market coincides with the
"potential {industry} customers" fallback drives the customer padding loop
into its break branch, whose catch-all "companies" duplicates an existing
query — the returned list is NOT pairwise distinct. -/
theorem build_customer_queries_nodup_cex :
    ¬ (build_customer_queries
      { industry := "-I".data, target_market := "potential -I customers".data }
      none).Nodup := by decide

end SignalForge

namespace SignalForge

/-! ## Membership inventories for the query builders (C7, C8) -/

lemma mem_appendIf_cases {qs : List PyStr} {x q : PyStr} (h : x ∈ appendIf qs q) :
    x ∈ qs ∨ x = q := by
  unfold appendIf at h
  split at h
  · rcases List.mem_append.mp h with h1 | h1
    · exact Or.inl h1
    · exact Or.inr (List.mem_singleton.mp h1)
  · exact Or.inl h

lemma mem_appendIfNew_cases {qs : List PyStr} {x q : PyStr}
    (h : x ∈ appendIfNew qs q) : x ∈ qs ∨ x = q := by
  unfold appendIfNew at h
  split at h
  · rcases List.mem_append.mp h with h1 | h1
    · exact Or.inl h1
    · exact Or.inr (List.mem_singleton.mp h1)
  · exact Or.inl h

lemma mem_foldl_appendIf_cases (f : PyStr → PyStr) :
    ∀ (l : List PyStr) (qs : List PyStr) (x : PyStr),
      x ∈ l.foldl (fun qs p => appendIf qs (f p)) qs →
      x ∈ qs ∨ ∃ p ∈ l, x = f p := by
  intro l
  induction l with
  | nil => intro qs x h; exact Or.inl h
  | cons a t ih =>
    intro qs x h
    rw [List.foldl_cons] at h
    rcases ih _ x h with h1 | ⟨p, hp, he⟩
    · rcases mem_appendIf_cases h1 with h2 | h2
      · exact Or.inl h2
      · exact Or.inr ⟨a, by simp, h2⟩
    · exact Or.inr ⟨p, by simp [hp], he⟩

lemma custS1_cases {x : PyStr} (tm geo : PyStr) {qs : List PyStr}
    (h : x ∈ custS1 tm geo qs) : x ∈ qs ∨ x = build_query tm geo := by
  unfold custS1 at h
  split at h
  · exact mem_appendIf_cases h
  · exact Or.inl h

lemma custS2_cases {x : PyStr} (tm geo : PyStr) (products : List PyStr)
    {qs : List PyStr} (h : x ∈ custS2 tm geo products qs) :
    x ∈ qs ∨ ∃ p ∈ products.take 2,
      x = build_query ((if tm ≠ [] then tm else "companies".data) ++
        " needing ".data ++ pyLower p) geo := by
  unfold custS2 at h
  split at h
  · rcases mem_foldl_appendIf_cases _ _ _ _ h with h1 | ⟨p, hp, he⟩
    · exact Or.inl h1
    · exact Or.inr ⟨p, hp, he⟩
  · exact Or.inl h

lemma custS3_cases {x : PyStr} (industry geo : PyStr) (fi : Option FilterVal)
    {qs : List PyStr} (h : x ∈ custS3 industry geo fi qs) :
    x ∈ qs ∨ (∃ s, fi = some (.fstr s) ∧ x = s3val s geo) ∨
      (∃ l i, fi = some (.flist l) ∧ i ∈ l.take 2 ∧ x = s3val i geo) ∨
      x = s3val (pyStrip (dashHead industry)) geo := by
  cases fi with
  | none =>
    rcases mem_appendIf_cases h with h1 | h1
    · exact Or.inl h1
    · exact Or.inr (Or.inr (Or.inr h1))
  | some v =>
    cases v with
    | fstr s =>
      replace h : x ∈ (if (FilterVal.fstr s).truthy = true
        then appendIf qs (build_query (s ++ " companies".data) geo)
        else appendIf qs
          (build_query (pyStrip (dashHead industry) ++ " companies".data) geo)) := h
      split at h
      · rcases mem_appendIf_cases h with h1 | h1
        · exact Or.inl h1
        · exact Or.inr (Or.inl ⟨s, rfl, h1⟩)
      · rcases mem_appendIf_cases h with h1 | h1
        · exact Or.inl h1
        · exact Or.inr (Or.inr (Or.inr h1))
    | flist l =>
      replace h : x ∈ (if (FilterVal.flist l).truthy = true
        then List.foldl (fun qs ind =>
          appendIf qs (build_query (ind ++ " companies".data) geo)) qs (l.take 2)
        else appendIf qs
          (build_query (pyStrip (dashHead industry) ++ " companies".data) geo)) := h
      split at h
      · rcases mem_foldl_appendIf_cases _ _ _ _ h with h1 | ⟨i, hi, he⟩
        · exact Or.inl h1
        · exact Or.inr (Or.inr (Or.inl ⟨l, i, rfl, hi, he⟩))
      · rcases mem_appendIf_cases h with h1 | h1
        · exact Or.inl h1
        · exact Or.inr (Or.inr (Or.inr h1))

lemma custS4_cases {x : PyStr} (industry geo : PyStr) {qs : List PyStr}
    (h : x ∈ custS4 industry geo qs) :
    x ∈ qs ∨ x = s4val industry geo := by
  unfold custS4 at h
  split at h
  · exact mem_appendIfNew_cases h
  · exact Or.inl h

lemma custS5_cases {x : PyStr} (tm geo : PyStr) (sz : Option PyStr) {qs : List PyStr}
    (h : x ∈ custS5 tm geo sz qs) :
    x ∈ qs ∨ ∃ s, sz = some s ∧ x = build_query (tm ++ " ".data ++ s) geo := by
  cases sz with
  | none => exact Or.inl h
  | some s =>
    replace h : x ∈ (if s ≠ [] ∧ tm ≠ []
      then appendIf qs (build_query (tm ++ " ".data ++ s) geo) else qs) := h
    split at h
    · rcases mem_appendIf_cases h with h1 | h1
      · exact Or.inl h1
      · exact Or.inr ⟨s, rfl, h1⟩
    · exact Or.inl h

lemma partS1_cases {x : PyStr} (industry geo : PyStr) {qs : List PyStr}
    (h : x ∈ partS1 industry geo qs) : x ∈ qs ∨ x = p1val industry geo :=
  mem_appendIf_cases h

lemma partS2_cases {x : PyStr} (geo : PyStr) (products : List PyStr)
    {qs : List PyStr} (h : x ∈ partS2 geo products qs) :
    x ∈ qs ∨ ∃ p ∈ products.take 2,
      x = build_query ("companies integrating with ".data ++ pyLower p) geo := by
  unfold partS2 at h
  split at h
  · rcases mem_foldl_appendIf_cases _ _ _ _ h with h1 | ⟨p, hp, he⟩
    · exact Or.inl h1
    · exact Or.inr ⟨p, hp, he⟩
  · exact Or.inl h

lemma partS3_cases {x : PyStr} (industry geo : PyStr) {qs : List PyStr}
    (h : x ∈ partS3 industry geo qs) :
    x ∈ qs ∨ x = build_query "technology integration partners".data geo := by
  unfold partS3 at h
  split at h
  · exact mem_appendIf_cases h
  · exact Or.inl h

lemma partS4_cases {x : PyStr} (geo : PyStr) (pt : Option PyStr) {qs : List PyStr}
    (h : x ∈ partS4 geo pt qs) :
    x ∈ qs ∨ ∃ s, pt = some s ∧
      x = build_query (s ++ " partnership opportunities".data) geo := by
  cases pt with
  | none => exact Or.inl h
  | some s =>
    replace h : x ∈ (if s ≠ []
      then appendIf qs (build_query (s ++ " partnership opportunities".data) geo)
      else qs) := h
    split at h
    · rcases mem_appendIf_cases h with h1 | h1
      · exact Or.inl h1
      · exact Or.inr ⟨s, rfl, h1⟩
    · exact Or.inl h

lemma partS5_cases {x : PyStr} (geo : PyStr) (fi : Option FilterVal)
    {qs : List PyStr} (h : x ∈ partS5 geo fi qs) :
    x ∈ qs ∨ (∃ s, fi = some (.fstr s) ∧
        x = build_query (s ++ " strategic partners".data) geo) ∨
      (∃ l i, fi = some (.flist l) ∧ i ∈ l.take 2 ∧
        x = build_query (i ++ " strategic partners".data) geo) := by
  cases fi with
  | none => exact Or.inl h
  | some v =>
    cases v with
    | fstr s =>
      replace h : x ∈ (if (FilterVal.fstr s).truthy = true
        then appendIf qs (build_query (s ++ " strategic partners".data) geo)
        else qs) := h
      split at h
      · rcases mem_appendIf_cases h with h1 | h1
        · exact Or.inl h1
        · exact Or.inr (Or.inl ⟨s, rfl, h1⟩)
      · exact Or.inl h
    | flist l =>
      replace h : x ∈ (if (FilterVal.flist l).truthy = true
        then List.foldl (fun qs ind =>
          appendIf qs (build_query (ind ++ " strategic partners".data) geo)) qs
          (l.take 2)
        else qs) := h
      split at h
      · rcases mem_foldl_appendIf_cases _ _ _ _ h with h1 | ⟨i, hi, he⟩
        · exact Or.inl h1
        · exact Or.inr (Or.inr ⟨l, i, rfl, hi, he⟩)
      · exact Or.inl h

lemma customerPad_cases (i t g : PyStr) :
    ∀ (fuel : Nat) (qs : List PyStr) (x : PyStr), x ∈ customerPad i t g fuel qs →
      x ∈ qs ∨ (∃ k, x = customerFallback i t g k) ∨ x = customerGeneric g := by
  intro fuel
  induction fuel with
  | zero => intro qs x h; exact Or.inl h
  | succ n ih =>
    intro qs x h
    rw [customerPad_succ] at h
    split at h
    · exact Or.inl h
    · split at h
      · rcases ih _ x h with h1 | h1
        · rcases List.mem_append.mp h1 with h2 | h2
          · exact Or.inl h2
          · exact Or.inr (Or.inl ⟨qs.length, List.mem_singleton.mp h2⟩)
        · exact Or.inr h1
      · rcases List.mem_append.mp h with h2 | h2
        · exact Or.inl h2
        · exact Or.inr (Or.inr (List.mem_singleton.mp h2))

lemma partnerPad_cases (i g : PyStr) :
    ∀ (fuel : Nat) (qs : List PyStr) (x : PyStr), x ∈ partnerPad i g fuel qs →
      x ∈ qs ∨ (∃ k, x = partnerFallback i g k) ∨ x = partnerGeneric g := by
  intro fuel
  induction fuel with
  | zero => intro qs x h; exact Or.inl h
  | succ n ih =>
    intro qs x h
    rw [partnerPad_succ] at h
    split at h
    · exact Or.inl h
    · split at h
      · rcases ih _ x h with h1 | h1
        · rcases List.mem_append.mp h1 with h2 | h2
          · exact Or.inl h2
          · exact Or.inr (Or.inl ⟨qs.length, List.mem_singleton.mp h2⟩)
        · exact Or.inr h1
      · rcases List.mem_append.mp h with h2 | h2
        · exact Or.inl h2
        · exact Or.inr (Or.inr (List.mem_singleton.mp h2))

end SignalForge

namespace SignalForge

/-! ## Length bounds for the query builders (C7) -/

/-- All free-text profile fields are at most n characters. -/
def CtxBounded (n : Nat) (ctx : BusinessContext) : Prop :=
  ctx.industry.length ≤ n ∧ ctx.target_market.length ≤ n ∧
  (∀ g ∈ ctx.geography, g.length ≤ n) ∧
  (∀ p ∈ ctx.products_services, p.length ≤ n)

def FvBounded (n : Nat) : Option FilterVal → Prop
  | none => True
  | some (.fstr s) => s.length ≤ n
  | some (.flist l) => ∀ x ∈ l, x.length ≤ n

def OptBounded (n : Nat) : Option PyStr → Prop
  | none => True
  | some s => s.length ≤ n

/-- All filter values are at most n characters. -/
def FiltersBounded (n : Nat) (f : Filters) : Prop :=
  FvBounded n f.geography ∧ FvBounded n f.industry ∧
  OptBounded n f.size ∧ OptBounded n f.partnership_type

lemma build_query_len (base geo : PyStr) :
    (build_query base geo).length ≤ base.length + geo.length + 4 := by
  by_cases hb : base = []
  · rw [build_query_def, if_pos hb]
    simp
  · rcases build_query_cases base geo hb with h | ⟨_, h⟩ <;> rw [h]
    · calc (pyStrip base).length ≤ base.length := length_pyStrip_le base
        _ ≤ base.length + geo.length + 4 := by omega
    · rw [List.length_append, List.length_append]
      have h4 : (" in ".data).length = 4 := by decide
      have hs := length_pyStrip_le base
      omega

lemma pyJoin_take2_len {l : List PyStr} {n : Nat} (h : ∀ x ∈ l, x.length ≤ n) :
    (pyJoin ", ".data (l.take 2)).length ≤ 2 * n + 2 := by
  cases l with
  | nil =>
    rw [show pyJoin ", ".data ((([] : List PyStr)).take 2) = [] from rfl]
    simp
  | cons a t =>
    cases t with
    | nil =>
      rw [show pyJoin ", ".data ((([a] : List PyStr)).take 2) = a ++ [] from rfl,
        List.append_nil]
      have := h a (by simp)
      omega
    | cons b rest =>
      rw [show pyJoin ", ".data (((a :: b :: rest : List PyStr)).take 2) =
        a ++ (", ".data ++ (b ++ [])) from rfl, List.append_nil,
        List.length_append, List.length_append]
      have ha := h a (by simp)
      have hb := h b (by simp)
      have h2 : (", ".data).length = 2 := by decide
      omega

lemma extract_geography_len (ctx : BusinessContext) (f : Filters)
    (hctx : CtxBounded 30 ctx) (hf : FiltersBounded 30 f) :
    (extract_geography ctx f).length ≤ 62 := by
  have hctxgeo : (if ctx.geography ≠ [] then
      pyJoin ", ".data (ctx.geography.take 2) else ([] : PyStr)).length ≤ 62 := by
    split
    · have := pyJoin_take2_len (n := 30) hctx.2.2.1
      omega
    · simp
  obtain ⟨fg, fi_, fs_, fp_⟩ := f
  cases fg with
  | none => exact hctxgeo
  | some v =>
    cases v with
    | fstr s =>
      have hs : s.length ≤ 30 := hf.1
      show (if (FilterVal.fstr s).truthy = true then s
        else if ctx.geography ≠ [] then pyJoin ", ".data (ctx.geography.take 2)
        else ([] : PyStr)).length ≤ 62
      split
      · omega
      · exact hctxgeo
    | flist l =>
      have hl : ∀ x ∈ l, x.length ≤ 30 := hf.1
      show (if (FilterVal.flist l).truthy = true then pyJoin ", ".data (l.take 2)
        else if ctx.geography ≠ [] then pyJoin ", ".data (ctx.geography.take 2)
        else ([] : PyStr)).length ≤ 62
      split
      · have := pyJoin_take2_len (n := 30) hl
        omega
      · exact hctxgeo

lemma industryOr_len (ctx : BusinessContext) (hctx : CtxBounded 30 ctx) :
    (industryOr ctx).length ≤ 30 := by
  unfold industryOr
  split
  · exact hctx.1
  · decide

lemma stripDash_len (i : PyStr) (hi : i.length ≤ 30) :
    (pyStrip (dashHead i)).length ≤ 30 :=
  le_trans (length_pyStrip_le _) (le_trans (length_dashHead_le _) hi)

lemma customerFallback_len (i t g : PyStr) (hi : i.length ≤ 30) (ht : t.length ≤ 30)
    (hg : g.length ≤ 62) : ∀ k, (customerFallback i t g k).length < 150 := by
  intro k
  cases k with
  | zero =>
    show (build_query (if t ≠ [] then t else i) g).length < 150
    have hb : (if t ≠ [] then t else i).length ≤ 30 := by
      split
      · exact ht
      · exact hi
    have := build_query_len (if t ≠ [] then t else i) g
    omega
  | succ k1 =>
    cases k1 with
    | zero =>
      show (i ++ " looking for growth".data).length < 150
      rw [List.length_append]
      have h19 : (" looking for growth".data).length = 19 := by decide
      omega
    | succ k2 =>
      show (("potential ".data ++ i) ++ " customers".data).length < 150
      rw [List.length_append, List.length_append]
      have ha : ("potential ".data).length = 10 := by decide
      have hb : (" customers".data).length = 10 := by decide
      omega

lemma customerGeneric_len (g : PyStr) (hg : g.length ≤ 62) :
    (customerGeneric g).length < 150 := by
  unfold customerGeneric
  split
  · rw [List.length_append]
    have : ("businesses in ".data).length = 14 := by decide
    omega
  · decide

lemma partnerFallback_len (i g : PyStr) (hi : i.length ≤ 30) (hg : g.length ≤ 62) :
    ∀ k, (partnerFallback i g k).length < 150 := by
  intro k
  cases k with
  | zero =>
    show (build_query (pyStrip (dashHead i) ++ " partners".data) g).length < 150
    have hb := stripDash_len i hi
    have h9 : (" partners".data).length = 9 := by decide
    have := build_query_len (pyStrip (dashHead i) ++ " partners".data) g
    rw [List.length_append] at this
    omega
  | succ k1 =>
    cases k1 with
    | zero =>
      show (("strategic ".data ++ i) ++ " partnerships".data).length < 150
      rw [List.length_append, List.length_append]
      have ha : ("strategic ".data).length = 10 := by decide
      have hb : (" partnerships".data).length = 13 := by decide
      omega
    | succ k2 =>
      show (("complementary ".data ++ i) ++ " partners".data).length < 150
      rw [List.length_append, List.length_append]
      have ha : ("complementary ".data).length = 14 := by decide
      have hb : (" partners".data).length = 9 := by decide
      omega

lemma partnerGeneric_len (g : PyStr) (hg : g.length ≤ 62) :
    (partnerGeneric g).length < 150 := by
  unfold partnerGeneric
  split
  · rw [List.length_append]
    have : ("partnership opportunities in ".data).length = 29 := by decide
    omega
  · decide

lemma customerPad_len (i t g : PyStr)
    (hfb : ∀ k, (customerFallback i t g k).length < 150)
    (hgen : (customerGeneric g).length < 150) :
    ∀ (fuel : Nat) (qs : List PyStr), (∀ x ∈ qs, x.length < 150) →
      ∀ x ∈ customerPad i t g fuel qs, x.length < 150 := by
  intro fuel qs hqs x hx
  rcases customerPad_cases i t g fuel qs x hx with h | ⟨k, hk⟩ | h
  · exact hqs x h
  · rw [hk]
    exact hfb k
  · rw [h]
    exact hgen

lemma partnerPad_len (i g : PyStr)
    (hfb : ∀ k, (partnerFallback i g k).length < 150)
    (hgen : (partnerGeneric g).length < 150) :
    ∀ (fuel : Nat) (qs : List PyStr), (∀ x ∈ qs, x.length < 150) →
      ∀ x ∈ partnerPad i g fuel qs, x.length < 150 := by
  intro fuel qs hqs x hx
  rcases partnerPad_cases i g fuel qs x hx with h | ⟨k, hk⟩ | h
  · exact hqs x h
  · rw [hk]
    exact hfb k
  · rw [h]
    exact hgen

lemma customerStrategies_len (ctx : BusinessContext) (f : Filters)
    (hctx : CtxBounded 30 ctx) (hf : FiltersBounded 30 f) :
    ∀ x ∈ customerStrategies ctx f, x.length < 150 := by
  have hgeo := extract_geography_len ctx f hctx hf
  have hio := industryOr_len ctx hctx
  have hY := stripDash_len (industryOr ctx) hio
  intro x hx
  rw [customerStrategies_def] at hx
  rcases custS5_cases _ _ _ hx with hx | ⟨s, hs, he⟩
  · rcases custS4_cases _ _ hx with hx | he
    · rcases custS3_cases _ _ _ hx with hx | ⟨s, hs, he⟩ | ⟨l, i, hl, hi, he⟩ | he
      · rcases custS2_cases _ _ _ hx with hx | ⟨p, hp, he⟩
        · rcases custS1_cases _ _ hx with hx | he
          · exact absurd hx (List.not_mem_nil x)
          · rw [he]
            have := build_query_len ctx.target_market (extract_geography ctx f)
            have ht := hctx.2.1
            omega
        · rw [he]
          have hplen : p.length ≤ 30 := hctx.2.2.2 p (List.mem_of_mem_take hp)
          have hb := build_query_len ((if ctx.target_market ≠ []
            then ctx.target_market else "companies".data) ++ " needing ".data ++
            pyLower p) (extract_geography ctx f)
          rw [List.length_append, List.length_append, length_pyLower] at hb
          have h9 : (" needing ".data).length = 9 := by decide
          have hif : (if ctx.target_market ≠ [] then ctx.target_market
              else "companies".data).length ≤ 30 := by
            split
            · exact hctx.2.1
            · decide
          omega
      · rw [he]
        unfold s3val
        have hslen : s.length ≤ 30 := by
          have := hf.2.1
          rw [hs] at this
          exact this
        have hb := build_query_len (s ++ " companies".data) (extract_geography ctx f)
        rw [List.length_append] at hb
        have h10 : (" companies".data).length = 10 := by decide
        omega
      · rw [he]
        unfold s3val
        have hilen : i.length ≤ 30 := by
          have := hf.2.1
          rw [hl] at this
          exact this i (List.mem_of_mem_take hi)
        have hb := build_query_len (i ++ " companies".data) (extract_geography ctx f)
        rw [List.length_append] at hb
        have h10 : (" companies".data).length = 10 := by decide
        omega
      · rw [he]
        unfold s3val
        have hb := build_query_len (pyStrip (dashHead (industryOr ctx)) ++
          " companies".data) (extract_geography ctx f)
        rw [List.length_append] at hb
        have h10 : (" companies".data).length = 10 := by decide
        omega
    · rw [he]
      unfold s4val
      rw [List.length_append, List.length_append]
      have h15 : (" businesses in ".data).length = 15 := by decide
      omega
  · rw [he]
    have hslen : s.length ≤ 30 := by
      have := hf.2.2.1
      rw [hs] at this
      exact this
    have hb := build_query_len (ctx.target_market ++ " ".data ++ s)
      (extract_geography ctx f)
    rw [List.length_append, List.length_append] at hb
    have h1 : (" ".data).length = 1 := by decide
    have ht := hctx.2.1
    omega

lemma partnerStrategies_len (ctx : BusinessContext) (f : Filters)
    (hctx : CtxBounded 30 ctx) (hf : FiltersBounded 30 f) :
    ∀ x ∈ partnerStrategies ctx f, x.length < 150 := by
  have hgeo := extract_geography_len ctx f hctx hf
  have hio := industryOr_len ctx hctx
  have hY := stripDash_len (industryOr ctx) hio
  intro x hx
  rw [partnerStrategies_def] at hx
  rcases partS5_cases _ _ hx with hx | ⟨s, hs, he⟩ | ⟨l, i, hl, hi, he⟩
  · rcases partS4_cases _ _ hx with hx | ⟨s, hs, he⟩
    · rcases partS3_cases _ _ hx with hx | he
      · rcases partS2_cases _ _ hx with hx | ⟨p, hp, he⟩
        · rcases partS1_cases _ _ hx with hx | he
          · exact absurd hx (List.not_mem_nil x)
          · rw [he]
            unfold p1val
            have hb := build_query_len (p1base (industryOr ctx))
              (extract_geography ctx f)
            have hbase : (p1base (industryOr ctx)).length ≤ 67 := by
              unfold p1base
              rw [List.length_append, List.length_append]
              have h26 : ("companies partnering with ".data).length = 26 := by decide
              have h11 : (" businesses".data).length = 11 := by decide
              omega
            omega
        · rw [he]
          have hplen : p.length ≤ 30 := hctx.2.2.2 p (List.mem_of_mem_take hp)
          have hb := build_query_len ("companies integrating with ".data ++
            pyLower p) (extract_geography ctx f)
          rw [List.length_append, length_pyLower] at hb
          have h27 : ("companies integrating with ".data).length = 27 := by decide
          omega
      · rw [he]
        have hb := build_query_len "technology integration partners".data
          (extract_geography ctx f)
        have h31 : ("technology integration partners".data).length = 31 := by decide
        omega
    · rw [he]
      have hslen : s.length ≤ 30 := by
        have := hf.2.2.2
        rw [hs] at this
        exact this
      have hb := build_query_len (s ++ " partnership opportunities".data)
        (extract_geography ctx f)
      rw [List.length_append] at hb
      have h26 : (" partnership opportunities".data).length = 26 := by decide
      omega
  · rw [he]
    have hslen : s.length ≤ 30 := by
      have := hf.2.1
      rw [hs] at this
      exact this
    have hb := build_query_len (s ++ " strategic partners".data)
      (extract_geography ctx f)
    rw [List.length_append] at hb
    have h19 : (" strategic partners".data).length = 19 := by decide
    omega
  · rw [he]
    have hilen : i.length ≤ 30 := by
      have := hf.2.1
      rw [hl] at this
      exact this i (List.mem_of_mem_take hi)
    have hb := build_query_len (i ++ " strategic partners".data)
      (extract_geography ctx f)
    rw [List.length_append] at hb
    have h19 : (" strategic partners".data).length = 19 := by decide
    omega

/-- C7 (amended): when every profile field and filter value is at most 30
characters, every query produced by either builder is under 150 characters.
The code itself imposes no cap, so the unqualified claim fails (see the
counterexample). -/
theorem queries_under_150 (ctx : BusinessContext) (filters : Option Filters)
    (hctx : CtxBounded 30 ctx) (hf : FiltersBounded 30 (filters.getD {})) :
    (∀ q ∈ build_customer_queries ctx filters, q.length < 150) ∧
    (∀ q ∈ build_partner_queries ctx filters, q.length < 150) := by
  have hgeo := extract_geography_len ctx (filters.getD {}) hctx hf
  have hio := industryOr_len ctx hctx
  constructor
  · intro q hq
    have hq' : q ∈ customerPad (industryOr ctx) ctx.target_market
        (extract_geography ctx (filters.getD {})) 3
        (customerStrategies ctx (filters.getD {})) := List.mem_of_mem_take hq
    exact customerPad_len _ _ _
      (customerFallback_len _ _ _ hio hctx.2.1 hgeo)
      (customerGeneric_len _ hgeo) _ _
      (customerStrategies_len ctx (filters.getD {}) hctx hf) q hq'
  · intro q hq
    have hq' : q ∈ partnerPad (industryOr ctx)
        (extract_geography ctx (filters.getD {})) 3
        (partnerStrategies ctx (filters.getD {})) := List.mem_of_mem_take hq
    exact partnerPad_len _ _
      (partnerFallback_len _ _ hio hgeo)
      (partnerGeneric_len _ hgeo) _ _
      (partnerStrategies_len ctx (filters.getD {}) hctx hf) q hq'

/-- C7 witness: the bounded-field hypotheses hold at the empty profile, and
the amended bound follows for it. -/
theorem queries_under_150_witness :
    (build_customer_queries {} none).all (fun q => decide (q.length < 150)) =
      true := by
  have h := (queries_under_150 {} none
    ⟨by decide, by decide, fun g hg => absurd hg (List.not_mem_nil g),
      fun p hp => absurd hp (List.not_mem_nil p)⟩
    ⟨trivial, trivial, trivial, trivial⟩).1
  rw [List.all_eq_true]
  intro q hq
  exact decide_eq_true (h q hq)

set_option maxRecDepth 4000 in
/-- C7 counterexample: nothing in the code truncates queries — a
160-character target market is returned verbatim as a query, so the
unconditional under-150 claim is false. -/
theorem queries_under_150_cex :
    ∃ q ∈ build_customer_queries { target_market := List.replicate 160 'a' } none,
      150 ≤ q.length := by decide

end SignalForge

namespace SignalForge

/-! ## Discovery orchestrators (C9)

The web search, the per-company relevance scoring, the enrichment model call
and the rationale model call are oracle parameters: `searchResults` stands for
`search_engine.search_and_parse(queries)`, `scoreFn c` for the
`score_customer_relevance` / `score_partner_relevance` call (`none` models a
raised exception, turned into the neutral 0.5 by `batch_score`'s except
branch), `enrichFn` for the parsed enrichment response (the source mutates
only description, locations and size_estimate, returning the same company on
failure), and `rationaleResponse` for the rationale model response. -/

/-- Stable descending insertion: the unique stable sort matching Python
`list.sort(key=..., reverse=True)`. -/
def insertByDesc {α : Type} (key : α → ℚ) (x : α) : List α → List α
  | [] => [x]
  | y :: ys => if key y < key x then x :: y :: ys else y :: insertByDesc key x ys

def pySortDesc {α : Type} (key : α → ℚ) (l : List α) : List α :=
  l.foldl (fun acc x => insertByDesc key x acc) []

lemma mem_insertByDesc {α : Type} (key : α → ℚ) (x a : α) :
    ∀ l : List α, (a ∈ insertByDesc key x l ↔ a = x ∨ a ∈ l) := by
  intro l
  induction l with
  | nil => simp [insertByDesc]
  | cons y ys ih =>
    unfold insertByDesc
    split
    · simp
    · simp only [List.mem_cons, ih]
      tauto

lemma mem_pySortDesc {α : Type} (key : α → ℚ) (l : List α) (a : α) :
    a ∈ pySortDesc key l ↔ a ∈ l := by
  have key_lemma : ∀ (l acc : List α),
      (a ∈ l.foldl (fun acc x => insertByDesc key x acc) acc ↔ a ∈ acc ∨ a ∈ l) := by
    intro l
    induction l with
    | nil => simp
    | cons x t ih =>
      intro acc
      rw [List.foldl_cons, ih, mem_insertByDesc]
      simp
      tauto
  rw [pySortDesc, key_lemma]
  simp

/-- RelevanceScorer.RELEVANCE_THRESHOLD (0.3). -/
def RELEVANCE_THRESHOLD : ℚ := 3/10

/-- RelevanceScorer.batch_score: neutral 0.5 on a scoring exception, then a
stable sort by score descending. -/
def batch_score (companies : List CompanyInfo) (scoreFn : CompanyInfo → Option ℚ) :
    List (CompanyInfo × ℚ) :=
  pySortDesc (fun x => x.2) (companies.map (fun c => (c, (scoreFn c).getD (1/2))))

/-- RelevanceScorer.filter_by_threshold. -/
def filter_by_threshold (scored : List (CompanyInfo × ℚ)) (threshold : ℚ) :
    List CompanyInfo :=
  (scored.filter (fun x => threshold ≤ x.2)).map Prod.fst

/-- CustomerDiscovery._filter_by_relevance (keeps at most 20). -/
def filter_by_relevance (candidates : List CompanyInfo)
    (scoreFn : CompanyInfo → Option ℚ) : List CompanyInfo :=
  (filter_by_threshold (batch_score candidates scoreFn) RELEVANCE_THRESHOLD).take 20

/-- PartnerDiscovery._filter_by_partnership_potential (keeps at most 10). -/
def filter_by_partnership_potential (candidates : List CompanyInfo)
    (scoreFn : CompanyInfo → Option ℚ) : List CompanyInfo :=
  (filter_by_threshold (batch_score candidates scoreFn) RELEVANCE_THRESHOLD).take 10

/-- The in-place enrichment of _enrich_company_info / _enrich_partner_info:
only description, locations and size_estimate can change. -/
def apply_enrich (c : CompanyInfo)
    (e : Option PyStr × Option (List PyStr) × Option PyStr) : CompanyInfo :=
  { c with
    description := e.1.getD c.description
    locations := e.2.1.getD c.locations
    size_estimate := e.2.2.getD c.size_estimate }

/-- CustomerDiscovery.discover. -/
def customer_discover (context : BusinessContext) (filters : Option Filters)
    (target_count : Nat) (searchResults : List CompanyInfo)
    (scoreFn : CompanyInfo → Option ℚ)
    (enrichFn : CompanyInfo → Option PyStr × Option (List PyStr) × Option PyStr) :
    DiscoveryResult :=
  let queries := build_customer_queries context filters
  if searchResults = [] then
    { entity_type := "customer".data, companies := [],
      query_used := pyJoin ", ".data queries }
  else
    let relevant := filter_by_relevance searchResults scoreFn
    if relevant = [] then
      { entity_type := "customer".data, companies := [],
        query_used := pyJoin ", ".data queries }
    else
      { entity_type := "customer".data,
        companies := (relevant.take target_count).map
          (fun c => apply_enrich c (enrichFn c)),
        query_used := pyJoin ", ".data queries }

/-- Sort key of PartnerDiscovery.discover step 7. -/
def msKey (c : CompanyInfo) : ℚ :=
  match c.match_score with
  | some ms => ms.overall_score
  | none => 0

/-- PartnerDiscovery.discover. The rationale step reads the match score set
in step 4 and preserved by enrichment. -/
def partner_discover (context : BusinessContext) (filters : Option Filters)
    (target_count : Nat) (searchResults : List CompanyInfo)
    (scoreFn : CompanyInfo → Option ℚ)
    (matchScoreFn : CompanyInfo → MatchScore)
    (enrichFn : CompanyInfo → Option PyStr × Option (List PyStr) × Option PyStr)
    (rationaleResponse : CompanyInfo → Option PyStr) : DiscoveryResult :=
  let queries := build_partner_queries context filters
  if searchResults = [] then
    { entity_type := "partner".data, companies := [],
      query_used := pyJoin ", ".data queries }
  else
    let relevant := filter_by_partnership_potential searchResults scoreFn
    if relevant = [] then
      { entity_type := "partner".data, companies := [],
        query_used := pyJoin ", ".data queries }
    else
      let scored := (relevant.take target_count).map
        (fun c => { c with match_score := some (matchScoreFn c) })
      let enriched := scored.map (fun c => apply_enrich c (enrichFn c))
      let withRat := enriched.map (fun c =>
        { c with rationale := some (generate_rationale (rationaleResponse c) c
            ((c.match_score).getD {}) "partner".data) })
      let sortedC := pySortDesc msKey withRat
      let total := (sortedC.filterMap CompanyInfo.match_score).foldl
        (fun a ms => a + ms.overall_score) 0
      let avg := if sortedC = [] then 0 else total / (sortedC.length : ℚ)
      { entity_type := "partner".data, companies := sortedC,
        query_used := pyJoin ", ".data queries, scored := true, avg_score := avg }

lemma customer_discover_def (context : BusinessContext) (filters : Option Filters)
    (target_count : Nat) (searchResults : List CompanyInfo)
    (scoreFn : CompanyInfo → Option ℚ)
    (enrichFn : CompanyInfo → Option PyStr × Option (List PyStr) × Option PyStr) :
    customer_discover context filters target_count searchResults scoreFn enrichFn =
    if searchResults = [] then
      { entity_type := "customer".data, companies := [],
        query_used := pyJoin ", ".data (build_customer_queries context filters) }
    else if filter_by_relevance searchResults scoreFn = [] then
      { entity_type := "customer".data, companies := [],
        query_used := pyJoin ", ".data (build_customer_queries context filters) }
    else
      { entity_type := "customer".data,
        companies := ((filter_by_relevance searchResults scoreFn).take
          target_count).map (fun c => apply_enrich c (enrichFn c)),
        query_used := pyJoin ", ".data (build_customer_queries context filters) } :=
  rfl

lemma partner_discover_empty_def (context : BusinessContext)
    (filters : Option Filters) (target_count : Nat)
    (searchResults : List CompanyInfo) (scoreFn : CompanyInfo → Option ℚ)
    (matchScoreFn : CompanyInfo → MatchScore)
    (enrichFn : CompanyInfo → Option PyStr × Option (List PyStr) × Option PyStr)
    (rationaleResponse : CompanyInfo → Option PyStr)
    (hs : searchResults ≠ [])
    (hrel : filter_by_partnership_potential searchResults scoreFn = []) :
    partner_discover context filters target_count searchResults scoreFn
      matchScoreFn enrichFn rationaleResponse =
    { entity_type := "partner".data, companies := [],
      query_used := pyJoin ", ".data (build_partner_queries context filters) } := by
  unfold partner_discover
  rw [if_neg hs, hrel]
  rfl

lemma all_below_filter_nil (candidates : List CompanyInfo)
    (scoreFn : CompanyInfo → Option ℚ)
    (h : ∀ c ∈ candidates, (scoreFn c).getD (1/2) < RELEVANCE_THRESHOLD) :
    filter_by_threshold (batch_score candidates scoreFn) RELEVANCE_THRESHOLD = [] := by
  unfold filter_by_threshold
  have hf : (batch_score candidates scoreFn).filter
      (fun x => decide (RELEVANCE_THRESHOLD ≤ x.2)) = [] := by
    rw [List.filter_eq_nil_iff]
    intro a ha
    rw [batch_score, mem_pySortDesc] at ha
    obtain ⟨c, hc, he⟩ := List.mem_map.mp ha
    subst he
    simp only [decide_eq_true_eq]
    exact not_le.mpr (h c hc)
  rw [hf]
  rfl

/-- C9: with zero search candidates, or with every candidate scoring below
the relevance threshold, CustomerDiscovery.discover and
PartnerDiscovery.discover both return (without raising) a DiscoveryResult
with the right entity_type, an empty companies list, and query_used equal to
the comma-joined attempted queries. -/
theorem discover_empty_paths (context : BusinessContext) (filters : Option Filters)
    (target_count : Nat) (searchResults : List CompanyInfo)
    (scoreFn : CompanyInfo → Option ℚ)
    (matchScoreFn : CompanyInfo → MatchScore)
    (enrichFn : CompanyInfo → Option PyStr × Option (List PyStr) × Option PyStr)
    (rationaleResponse : CompanyInfo → Option PyStr) :
    (customer_discover context filters target_count [] scoreFn enrichFn =
      { entity_type := "customer".data, companies := [],
        query_used := pyJoin ", ".data (build_customer_queries context filters) }) ∧
    (partner_discover context filters target_count [] scoreFn matchScoreFn
        enrichFn rationaleResponse =
      { entity_type := "partner".data, companies := [],
        query_used := pyJoin ", ".data (build_partner_queries context filters) }) ∧
    ((∀ c ∈ searchResults, (scoreFn c).getD (1/2) < RELEVANCE_THRESHOLD) →
      customer_discover context filters target_count searchResults scoreFn
          enrichFn =
        { entity_type := "customer".data, companies := [],
          query_used :=
            pyJoin ", ".data (build_customer_queries context filters) } ∧
      partner_discover context filters target_count searchResults scoreFn
          matchScoreFn enrichFn rationaleResponse =
        { entity_type := "partner".data, companies := [],
          query_used :=
            pyJoin ", ".data (build_partner_queries context filters) }) := by
  refine ⟨rfl, rfl, fun hbelow => ?_⟩
  by_cases hs : searchResults = []
  · subst hs
    exact ⟨rfl, rfl⟩
  · constructor
    · rw [customer_discover_def, if_neg hs, if_pos]
      unfold filter_by_relevance
      rw [all_below_filter_nil searchResults scoreFn hbelow]
      rfl
    · refine partner_discover_empty_def _ _ _ _ _ _ _ _ hs ?_
      unfold filter_by_partnership_potential
      rw [all_below_filter_nil searchResults scoreFn hbelow]
      rfl

/-- C9 witness: a single candidate scoring 0.1 is filtered out, and both
orchestrators return the empty result with the joined queries. -/
theorem discover_empty_paths_witness :
    customer_discover {} none 10 [{ name := "Acme".data, website := "a.co".data }]
        (fun _ => some (1/10)) (fun _ => (none, none, none)) =
      { entity_type := "customer".data, companies := [],
        query_used := pyJoin ", ".data (build_customer_queries {} none) } ∧
    partner_discover {} none 10 [{ name := "Acme".data, website := "a.co".data }]
        (fun _ => some (1/10)) (fun _ => MatchScore.make 50 50 50 50 50 [] "Low".data)
        (fun _ => (none, none, none)) (fun _ => none) =
      { entity_type := "partner".data, companies := [],
        query_used := pyJoin ", ".data (build_partner_queries {} none) } :=
  (discover_empty_paths {} none 10 [{ name := "Acme".data, website := "a.co".data }]
    (fun _ => some (1/10)) (fun _ => MatchScore.make 50 50 50 50 50 [] "Low".data)
    (fun _ => (none, none, none)) (fun _ => none)).2.2
    (by intro c hc; rw [List.mem_singleton] at hc; subst hc; decide)

end SignalForge

namespace SignalForge

/-! ## Whitespace-structure lemmas (C8) -/

/-- Every character of the string is whitespace. -/
def WsOnly (s : PyStr) : Prop := ∀ c ∈ s, c.isWhitespace = true

lemma wsOnly_nil : WsOnly [] := fun c hc => absurd hc (List.not_mem_nil c)

lemma lstrip_decomp (s : PyStr) :
    s = s.takeWhile Char.isWhitespace ++ lstrip s ∧
      WsOnly (s.takeWhile Char.isWhitespace) :=
  ⟨(List.takeWhile_append_dropWhile _ _).symm,
    fun c hc => List.mem_takeWhile_imp hc⟩

lemma rstrip_decomp (s : PyStr) :
    ∃ w, s = rstrip s ++ w ∧ WsOnly w := by
  refine ⟨(s.reverse.takeWhile Char.isWhitespace).reverse, ?_, ?_⟩
  · conv_lhs => rw [← List.reverse_reverse s,
      ← List.takeWhile_append_dropWhile Char.isWhitespace s.reverse]
    rw [List.reverse_append]
    rfl
  · intro c hc
    rw [List.mem_reverse] at hc
    exact List.mem_takeWhile_imp hc

lemma pyStrip_decomp (s : PyStr) :
    ∃ a b, s = a ++ pyStrip s ++ b ∧ WsOnly a ∧ WsOnly b := by
  obtain ⟨h1, ha⟩ := lstrip_decomp s
  obtain ⟨w, h2, hw⟩ := rstrip_decomp (lstrip s)
  refine ⟨s.takeWhile Char.isWhitespace, w, ?_, ha, hw⟩
  conv_lhs => rw [h1]
  rw [h2, List.append_assoc]
  rfl

lemma lstrip_append_of_ne_nil {a : PyStr} (h : lstrip a ≠ []) (b : PyStr) :
    lstrip (a ++ b) = lstrip a ++ b := by
  unfold lstrip at h ⊢
  rw [List.dropWhile_append]
  split
  · next he =>
    rw [List.isEmpty_iff] at he
    exact absurd he h
  · rfl

lemma lstrip_append_of_ws {a : PyStr} (h : WsOnly a) (b : PyStr) :
    lstrip (a ++ b) = lstrip b := by
  unfold lstrip
  rw [List.dropWhile_append]
  split
  · rfl
  · next he =>
    rw [List.isEmpty_iff] at he
    exact absurd (List.dropWhile_eq_nil_iff.mpr (fun x hx => h x hx)) he

lemma rstrip_eq_nil_iff {s : PyStr} : rstrip s = [] ↔ WsOnly s := by
  unfold rstrip
  rw [List.reverse_eq_nil_iff, List.dropWhile_eq_nil_iff]
  constructor
  · intro h c hc
    exact h c (List.mem_reverse.mpr hc)
  · intro h c hc
    exact h c (List.mem_reverse.mp hc)

lemma rstrip_append_cases (a b : PyStr) :
    rstrip (a ++ b) = if rstrip b = [] then rstrip a else a ++ rstrip b := by
  unfold rstrip
  rw [List.reverse_append, List.dropWhile_append]
  split
  · next he =>
    rw [List.isEmpty_iff] at he
    rw [if_pos (by rw [List.reverse_eq_nil_iff]; exact he)]
  · next he =>
    rw [List.isEmpty_iff] at he
    rw [if_neg (by
      intro hr
      rw [List.reverse_eq_nil_iff] at hr
      exact he hr)]
    rw [List.reverse_append, List.reverse_reverse]

lemma rstrip_append_of_rev_head {a b : PyStr} {c : Char}
    (h : a.reverse.head? = some c) (hc : c.isWhitespace = false)
    (hb : WsOnly b) : rstrip (a ++ b) = a := by
  rw [rstrip_append_cases, if_pos (rstrip_eq_nil_iff.mpr hb)]
  exact rstrip_noop h hc

lemma pyStrip_ne_nil_of_mem {ch : Char} {s : PyStr} (hc : ch ∈ s)
    (hw : ch.isWhitespace = false) : pyStrip s ≠ [] := by
  intro he
  obtain ⟨a, b, hs, ha, hb⟩ := pyStrip_decomp s
  rw [he, List.append_nil] at hs
  rw [hs] at hc
  rcases List.mem_append.mp hc with h | h
  · rw [ha ch h] at hw
    exact absurd hw (by simp)
  · rw [hb ch h] at hw
    exact absurd hw (by simp)

lemma lstrip_eq_nil_of_pyStrip {s : PyStr} (h : pyStrip s = []) : WsOnly s := by
  intro c hc
  by_contra hcw
  exact pyStrip_ne_nil_of_mem hc (by simpa using hcw) h

/-! ## Rotation character lemma and prefix helpers (C8) -/

lemma take_append_of_le {a : PyStr} (b : PyStr) {n : Nat} (h : n ≤ a.length) :
    (a ++ b).take n = a.take n := by
  rw [List.take_append_eq_append_take, Nat.sub_eq_zero_of_le h, List.take_zero,
    List.append_nil]

lemma get?_append_left {a : PyStr} (b : PyStr) {n : Nat} (h : n < a.length) :
    (a ++ b).get? n = a.get? n :=
  List.get?_append h

/-- From a shifted word equation `x ++ u = c ++ x ++ v`, every character of u
at an index below |c| is a character of c. -/
lemma shift_char_mem {c x u v : PyStr} (hc : c ≠ [])
    (heq : x ++ u = c ++ (x ++ v)) {i : Nat} (hi : i < c.length) {ch : Char}
    (hch : u.get? i = some ch) : ch ∈ c := by
  obtain ⟨k, hk, hu⟩ := rotation_of_shift c u v hc x.length x le_rfl heq
  have hrl : (c.drop k ++ c.take k).length = c.length := by
    rw [List.length_append, List.length_drop, List.length_take]
    omega
  rw [hu,
    get?_append_left _ (by omega : i < (c.drop k ++ c.take k).length)] at hch
  have hmem : ch ∈ c.drop k ++ c.take k := List.get?_mem hch
  rcases List.mem_append.mp hmem with h | h
  · exact List.mem_of_mem_drop h
  · exact List.mem_of_mem_take h

/-- From a shifted word equation, the first n characters of u agree with some
rotation of c. -/
lemma shift_take_eq {c x u v : PyStr} (hc : c ≠ [])
    (heq : x ++ u = c ++ (x ++ v)) {n : Nat} (hn : n ≤ c.length) :
    ∃ k ≤ c.length, u.take n = (c.drop k ++ c.take k).take n := by
  obtain ⟨k, hk, hu⟩ := rotation_of_shift c u v hc x.length x le_rfl heq
  have hrl : (c.drop k ++ c.take k).length = c.length := by
    rw [List.length_append, List.length_drop, List.length_take]
    omega
  refine ⟨k, hk, ?_⟩
  rw [hu, take_append_of_le _ (by omega : n ≤ (c.drop k ++ c.take k).length)]

lemma two_mem_length_ge_two {l : List PyStr} {a b : PyStr} (ha : a ∈ l)
    (hb : b ∈ l) (hne : a ≠ b) : 2 ≤ l.length := by
  match l with
  | [] => exact absurd ha (List.not_mem_nil a)
  | [x] =>
    rw [List.mem_singleton] at ha hb
    exact absurd (ha.trans hb.symm) hne
  | x :: y :: t => simp

/-! ## Length bounds and prefix facts for the strategy lists (C8) -/

lemma length_appendIf_le (qs : List PyStr) (q : PyStr) :
    (appendIf qs q).length ≤ qs.length + 1 := by
  unfold appendIf
  split
  · simp
  · omega

lemma length_foldl_appendIf_le (f : PyStr → PyStr) :
    ∀ (l : List PyStr) (qs : List PyStr),
      (l.foldl (fun qs p => appendIf qs (f p)) qs).length ≤ qs.length + l.length := by
  intro l
  induction l with
  | nil => intro qs; simp
  | cons a t ih =>
    intro qs
    rw [List.foldl_cons]
    calc (t.foldl (fun qs p => appendIf qs (f p)) (appendIf qs (f a))).length
        ≤ (appendIf qs (f a)).length + t.length := ih _
      _ ≤ qs.length + 1 + t.length := by
          have := length_appendIf_le qs (f a)
          omega
      _ = qs.length + (a :: t).length := by simp; omega

lemma customerStrategies_len_le (ctx : BusinessContext) :
    (customerStrategies ctx {}).length ≤ 5 := by
  show (custS4 (industryOr ctx) (extract_geography ctx {})
    (custS3 (industryOr ctx) (extract_geography ctx {}) none
      (custS2 ctx.target_market (extract_geography ctx {}) ctx.products_services
        (custS1 ctx.target_market (extract_geography ctx {}) [])))).length ≤ 5
  have h3 : ∀ qs : List PyStr,
      (custS3 (industryOr ctx) (extract_geography ctx {}) none qs).length ≤
        qs.length + 1 := by
    intro qs
    exact length_appendIf_le _ _
  have h4 : ∀ qs : List PyStr,
      (custS4 (industryOr ctx) (extract_geography ctx {}) qs).length ≤
        qs.length + 1 := by
    intro qs
    unfold custS4 appendIfNew
    split
    · split
      · simp
      · omega
    · omega
  have h2 : ∀ qs : List PyStr,
      (custS2 ctx.target_market (extract_geography ctx {})
        ctx.products_services qs).length ≤ qs.length + 2 := by
    intro qs
    unfold custS2
    split
    · calc ((ctx.products_services.take 2).foldl _ qs).length
          ≤ qs.length + (ctx.products_services.take 2).length :=
            length_foldl_appendIf_le _ _ _
        _ ≤ qs.length + 2 := by
            have : (ctx.products_services.take 2).length ≤ 2 := by
              rw [List.length_take]
              omega
            omega
    · omega
  have h1 : (custS1 ctx.target_market (extract_geography ctx {}) []).length ≤ 1 := by
    unfold custS1
    split
    · exact length_appendIf_le [] _
    · simp
  have := h2 (custS1 ctx.target_market (extract_geography ctx {}) [])
  have := h3 (custS2 ctx.target_market (extract_geography ctx {})
    ctx.products_services (custS1 ctx.target_market (extract_geography ctx {}) []))
  have := h4 (custS3 (industryOr ctx) (extract_geography ctx {}) none
    (custS2 ctx.target_market (extract_geography ctx {}) ctx.products_services
      (custS1 ctx.target_market (extract_geography ctx {}) [])))
  omega

lemma partnerStrategies_len_le (ctx : BusinessContext) :
    (partnerStrategies ctx {}).length ≤ 4 := by
  show (partS3 (industryOr ctx) (extract_geography ctx {})
    (partS2 (extract_geography ctx {}) ctx.products_services
      (partS1 (industryOr ctx) (extract_geography ctx {}) []))).length ≤ 4
  have h3 : ∀ qs : List PyStr,
      (partS3 (industryOr ctx) (extract_geography ctx {}) qs).length ≤
        qs.length + 1 := by
    intro qs
    unfold partS3
    split
    · exact length_appendIf_le _ _
    · omega
  have h2 : ∀ qs : List PyStr,
      (partS2 (extract_geography ctx {}) ctx.products_services qs).length ≤
        qs.length + 2 := by
    intro qs
    unfold partS2
    split
    · calc ((ctx.products_services.take 2).foldl _ qs).length
          ≤ qs.length + (ctx.products_services.take 2).length :=
            length_foldl_appendIf_le _ _ _
        _ ≤ qs.length + 2 := by
            have : (ctx.products_services.take 2).length ≤ 2 := by
              rw [List.length_take]
              omega
            omega
    · omega
  have h1 : (partS1 (industryOr ctx) (extract_geography ctx {}) []).length ≤ 1 :=
    length_appendIf_le [] _
  have := h2 (partS1 (industryOr ctx) (extract_geography ctx {}) [])
  have := h3 (partS2 (extract_geography ctx {}) ctx.products_services
    (partS1 (industryOr ctx) (extract_geography ctx {}) []))
  omega

lemma appendIf_prefix (qs : List PyStr) (q : PyStr) : qs <+: appendIf qs q := by
  unfold appendIf
  split
  · exact ⟨[q], rfl⟩
  · exact List.prefix_refl qs

lemma customerPad_pref (i t g : PyStr) :
    ∀ (fuel : Nat) (qs : List PyStr), qs <+: customerPad i t g fuel qs := by
  intro fuel
  induction fuel with
  | zero => intro qs; exact List.prefix_refl qs
  | succ n ih =>
    intro qs
    rw [customerPad_succ]
    split
    · exact List.prefix_refl qs
    · split
      · exact List.IsPrefix.trans ⟨[customerFallback i t g qs.length], rfl⟩ (ih _)
      · exact ⟨[customerGeneric g], rfl⟩

lemma partnerPad_pref (i g : PyStr) :
    ∀ (fuel : Nat) (qs : List PyStr), qs <+: partnerPad i g fuel qs := by
  intro fuel
  induction fuel with
  | zero => intro qs; exact List.prefix_refl qs
  | succ n ih =>
    intro qs
    rw [partnerPad_succ]
    split
    · exact List.prefix_refl qs
    · split
      · exact List.IsPrefix.trans ⟨[partnerFallback i g qs.length], rfl⟩ (ih _)
      · exact ⟨[partnerGeneric g], rfl⟩

lemma mem_take_of_pref {l1 l2 : List PyStr} {x : PyStr} (hp : l1 <+: l2)
    (hl : l1.length ≤ 5) (hx : x ∈ l1) : x ∈ l2.take 5 := by
  obtain ⟨rest, hr⟩ := hp
  rw [← hr, List.take_append_eq_append_take, List.take_of_length_le hl]
  exact List.mem_append.mpr (Or.inl hx)

/-- Every strategy-phase query survives into the final customer list. -/
lemma mem_build_customer_of_strategies {ctx : BusinessContext} {x : PyStr}
    (hx : x ∈ customerStrategies ctx {}) : x ∈ build_customer_queries ctx none :=
  mem_take_of_pref (customerPad_pref _ _ _ 3 _)
    (customerStrategies_len_le ctx) hx

/-- Every strategy-phase query survives into the final partner list. -/
lemma mem_build_partner_of_strategies {ctx : BusinessContext} {x : PyStr}
    (hx : x ∈ partnerStrategies ctx {}) : x ∈ build_partner_queries ctx none :=
  mem_take_of_pref (partnerPad_pref _ _ 3 _)
    (le_trans (partnerStrategies_len_le ctx) (by omega)) hx

/-! ## Sharpened padding inventories (C8) -/

lemma customerPad_cases_sharp (i t g : PyStr) :
    ∀ (fuel : Nat) (qs : List PyStr) (x : PyStr), x ∈ customerPad i t g fuel qs →
      x ∈ qs ∨ (∃ k, qs.length ≤ k ∧ k < 3 ∧ x = customerFallback i t g k) ∨
        (x = customerGeneric g ∧ qs.length < 3) := by
  intro fuel
  induction fuel with
  | zero => intro qs x h; exact Or.inl h
  | succ n ih =>
    intro qs x h
    rw [customerPad_succ] at h
    split at h
    · exact Or.inl h
    · next h3 =>
      split at h
      · rcases ih _ x h with h1 | ⟨k, hk1, hk2, hk3⟩ | ⟨h1, h2⟩
        · rcases List.mem_append.mp h1 with h2 | h2
          · exact Or.inl h2
          · exact Or.inr (Or.inl ⟨qs.length, le_refl _, by omega,
              List.mem_singleton.mp h2⟩)
        · refine Or.inr (Or.inl ⟨k, ?_, hk2, hk3⟩)
          rw [List.length_append] at hk1
          omega
        · refine Or.inr (Or.inr ⟨h1, ?_⟩)
          rw [List.length_append] at h2
          omega
      · rcases List.mem_append.mp h with h2 | h2
        · exact Or.inl h2
        · exact Or.inr (Or.inr ⟨List.mem_singleton.mp h2, by omega⟩)

lemma partnerPad_cases_sharp (i g : PyStr) :
    ∀ (fuel : Nat) (qs : List PyStr) (x : PyStr), x ∈ partnerPad i g fuel qs →
      x ∈ qs ∨ (∃ k, qs.length ≤ k ∧ k < 3 ∧ x = partnerFallback i g k) ∨
        (x = partnerGeneric g ∧ qs.length < 3) := by
  intro fuel
  induction fuel with
  | zero => intro qs x h; exact Or.inl h
  | succ n ih =>
    intro qs x h
    rw [partnerPad_succ] at h
    split at h
    · exact Or.inl h
    · next h3 =>
      split at h
      · rcases ih _ x h with h1 | ⟨k, hk1, hk2, hk3⟩ | ⟨h1, h2⟩
        · rcases List.mem_append.mp h1 with h2 | h2
          · exact Or.inl h2
          · exact Or.inr (Or.inl ⟨qs.length, le_refl _, by omega,
              List.mem_singleton.mp h2⟩)
        · refine Or.inr (Or.inl ⟨k, ?_, hk2, hk3⟩)
          rw [List.length_append] at hk1
          omega
        · refine Or.inr (Or.inr ⟨h1, ?_⟩)
          rw [List.length_append] at h2
          omega
      · rcases List.mem_append.mp h with h2 | h2
        · exact Or.inl h2
        · exact Or.inr (Or.inr ⟨List.mem_singleton.mp h2, by omega⟩)

end SignalForge


namespace SignalForge

/-! ## Idempotence of stripping and value shapes (C8) -/

lemma dropWhile_head_not (p : Char → Bool) :
    ∀ (l : PyStr) {c : Char} {t : PyStr}, l.dropWhile p = c :: t → p c = false := by
  intro l
  induction l with
  | nil => intro c t h; exact absurd h (by simp)
  | cons a l ih =>
    intro c t h
    rw [List.dropWhile_cons] at h
    split at h
    · exact ih h
    · next hp =>
      rw [List.cons.injEq] at h
      rw [← h.1]
      simpa using hp

lemma lstrip_head_not {s : PyStr} {c : Char} {t : PyStr} (h : lstrip s = c :: t) :
    c.isWhitespace = false :=
  dropWhile_head_not _ s h

lemma lstrip_lstrip (s : PyStr) : lstrip (lstrip s) = lstrip s := by
  cases h : lstrip s with
  | nil => rfl
  | cons c t =>
    exact lstrip_noop (c := c) (by simp [h]) (lstrip_head_not h)

lemma rstrip_rstrip (s : PyStr) : rstrip (rstrip s) = rstrip s := by
  cases h : (s.reverse.dropWhile Char.isWhitespace) with
  | nil =>
    have he : rstrip s = [] := by
      unfold rstrip
      rw [h]
      rfl
    rw [he]
    rfl
  | cons c t =>
    have hr : (rstrip s).reverse.head? = some c := by
      unfold rstrip
      rw [h, List.reverse_reverse]
      rfl
    exact rstrip_noop hr (dropWhile_head_not _ _ h)

lemma rstrip_pyStrip (s : PyStr) : rstrip (pyStrip s) = pyStrip s :=
  rstrip_rstrip (lstrip s)

lemma lstrip_pyStrip (s : PyStr) : lstrip (pyStrip s) = pyStrip s := by
  cases h : pyStrip s with
  | nil => rfl
  | cons c t =>
    refine lstrip_noop (c := c) (by simp [h]) ?_
    obtain ⟨w, hw, _⟩ := rstrip_decomp (lstrip s)
    have hls : lstrip s = (c :: t) ++ w := by
      rw [← h]
      exact hw
    have hli := lstrip_lstrip s
    rw [hls] at hli
    cases hcw : c.isWhitespace
    · rfl
    · exfalso
      have hstep : lstrip ((c :: t) ++ w) = lstrip (t ++ w) := by
        show List.dropWhile _ (c :: (t ++ w)) = _
        rw [List.dropWhile_cons, if_pos (by rw [hcw])]
        rfl
      rw [hstep] at hli
      have hlen := congrArg List.length hli
      have h1 : (lstrip (t ++ w)).length ≤ (t ++ w).length := length_lstrip_le _
      rw [List.length_append] at h1
      simp at hlen
      omega

/-- A stripped, non-empty string glued to a suffix with non-whitespace last
character strips to itself. -/
lemma strip_app {Y t : PyStr} (hY : pyStrip Y = Y) (hYne : Y ≠ []) {c : Char}
    (hrev : t.reverse.head? = some c) (hc : c.isWhitespace = false) :
    pyStrip (Y ++ t) = Y ++ t := by
  obtain ⟨y, ys, hY2⟩ : ∃ y ys, Y = y :: ys := by
    cases Y with
    | nil => exact absurd rfl hYne
    | cons y ys => exact ⟨y, ys, rfl⟩
  have hlY : lstrip Y = Y := by
    conv_lhs => rw [← hY]
    rw [lstrip_pyStrip, hY]
  have hyw : y.isWhitespace = false :=
    lstrip_head_not (show lstrip Y = y :: ys from by rw [hlY, hY2])
  have h1 : lstrip (Y ++ t) = Y ++ t := by
    refine lstrip_noop (c := y) ?_ hyw
    rw [hY2]
    rfl
  unfold pyStrip
  rw [h1]
  exact rstrip_append_noop hrev hc

lemma SA_cases (Y : PyStr) (hY : pyStrip Y = Y) :
    (Y ≠ [] ∧ pyStrip (Y ++ " companies".data) = Y ++ " companies".data) ∨
    (Y = [] ∧ pyStrip (Y ++ " companies".data) = "companies".data) := by
  by_cases hYne : Y = []
  · right
    refine ⟨hYne, ?_⟩
    rw [hYne]
    decide
  · left
    exact ⟨hYne, strip_app hY hYne (c := 's') (by decide) (by decide)⟩

lemma Y_stripped (industry : PyStr) :
    pyStrip (pyStrip (dashHead industry)) = pyStrip (dashHead industry) := by
  unfold pyStrip
  rw [show lstrip (rstrip (lstrip (dashHead industry))) =
    rstrip (lstrip (dashHead industry)) from lstrip_pyStrip (dashHead industry)]
  exact rstrip_pyStrip (dashHead industry)

/-- Uniform prefix-extraction through build_query. -/
lemma build_query_take (base geo : PyStr) (hb : base ≠ []) {n : Nat}
    (hn : n ≤ (pyStrip base).length) :
    (build_query base geo).take n = (pyStrip base).take n := by
  rcases build_query_cases base geo hb with h | ⟨_, h⟩
  · rw [h]
  · rw [h, List.append_assoc, take_append_of_le _ hn]

lemma build_query_len_cases (base geo : PyStr) (hb : base ≠ []) :
    (build_query base geo).length = (pyStrip base).length ∨
      (geo ≠ [] ∧
        (build_query base geo).length = (pyStrip base).length + 4 + geo.length) := by
  rcases build_query_cases base geo hb with h | ⟨hg, h⟩
  · rw [h]
    exact Or.inl rfl
  · rw [h]
    refine Or.inr ⟨hg, ?_⟩
    rw [List.length_append, List.length_append]
    have h4 : (" in ".data).length = 4 := by decide
    omega

lemma p1base_take11 (industry : PyStr) :
    (p1base industry).take 11 = "companies p".data := by
  show (("companies partnering with ".data ++ pyStrip (dashHead industry)) ++
    " businesses".data).take 11 = "companies p".data
  rw [take_append_of_le _ (by
      rw [List.length_append]
      have h26 : ("companies partnering with ".data).length = 26 := by decide
      omega),
    take_append_of_le _ (by decide)]
  decide

lemma p1base_len (industry : PyStr) :
    (p1base industry).length = (pyStrip (dashHead industry)).length + 37 := by
  show (("companies partnering with ".data ++ pyStrip (dashHead industry)) ++
    " businesses".data).length = _
  rw [List.length_append, List.length_append]
  have h1 : ("companies partnering with ".data).length = 26 := by decide
  have h2 : (" businesses".data).length = 11 := by decide
  omega

lemma p1val_take11 (industry geo : PyStr) :
    (p1val industry geo).take 11 = "companies p".data := by
  have hb : p1base industry ≠ [] := ne_nil_of_head? (p1base_head industry)
  unfold p1val
  rw [build_query_take _ _ hb (by
    rw [p1base_strip, p1base_len]
    omega)]
  rw [p1base_strip]
  exact p1base_take11 industry

lemma Spp_pref (p : PyStr) :
    ∃ r, pyStrip ("companies integrating with ".data ++ pyLower p) =
      "companies integrating with".data ++ r := by
  have h1 : lstrip ("companies integrating with ".data ++ pyLower p) =
      "companies integrating with ".data ++ pyLower p :=
    lstrip_noop (c := 'c') (by rfl) (by decide)
  unfold pyStrip
  rw [h1]
  rw [show "companies integrating with ".data ++ pyLower p =
    "companies integrating with".data ++ (" ".data ++ pyLower p) from by
      rw [show ("companies integrating with ".data : PyStr) =
        "companies integrating with".data ++ " ".data from by decide]
      rw [List.append_assoc]]
  rw [rstrip_append_cases]
  split
  · exact ⟨[], by
      rw [rstrip_noop (c := 'h') (by decide) (by decide), List.append_nil]⟩
  · exact ⟨rstrip (" ".data ++ pyLower p), rfl⟩

lemma ppval_take11 (p geo : PyStr) :
    (build_query ("companies integrating with ".data ++ pyLower p) geo).take 11 =
      "companies i".data := by
  obtain ⟨r, hr⟩ := Spp_pref p
  have hb : "companies integrating with ".data ++ pyLower p ≠ [] :=
    append_ne_nil_left (by decide) _
  rw [build_query_take _ _ hb (by
    rw [hr, List.length_append]
    have h26 : ("companies integrating with".data).length = 26 := by decide
    omega)]
  rw [hr, take_append_of_le _ (by decide)]
  decide

lemma ppval_ne_nil (p geo : PyStr) :
    build_query ("companies integrating with ".data ++ pyLower p) geo ≠ [] := by
  intro h
  have h2 := congrArg (List.take 11) h
  rw [ppval_take11] at h2
  exact absurd h2 (by decide)

lemma P3val_eq (geo : PyStr) (hg : geo ≠ []) :
    build_query "technology integration partners".data geo =
      "technology integration partners".data ++ " in ".data ++ geo := by
  rw [build_query_def, if_neg (by decide),
    if_pos (⟨hg, by decide⟩ : geo ≠ [] ∧ isSubstr "in ".data
      (pyLower (pyStrip "technology integration partners".data)) = false)]
  rw [show pyStrip "technology integration partners".data =
    "technology integration partners".data from by decide]

/-- The structure of the strategy-2 customer query base after stripping, for
a target market that strips non-trivially. -/
lemma Sc2_struct (t lp : PyStr) (hst : pyStrip t ≠ []) :
    ∃ R, pyStrip (t ++ " needing ".data ++ lp) = pyStrip t ++ R ∧
      (∀ ch, R.get? 0 = some ch → ch.isWhitespace = true) ∧
      (∀ ch, R.get? 1 = some ch → ch.isWhitespace = true ∨ ch = 'n') ∧
      8 ≤ R.length := by
  have hlt : lstrip t ≠ [] := by
    intro h
    unfold pyStrip at hst
    rw [h] at hst
    exact hst rfl
  obtain ⟨w, hw, hwws⟩ := rstrip_decomp (lstrip t)
  have hw' : lstrip t = pyStrip t ++ w := hw
  have key : ∃ Z, pyStrip (t ++ " needing ".data ++ lp) =
      pyStrip t ++ (w ++ (" needing".data ++ Z)) := by
    have hps : pyStrip (t ++ " needing ".data ++ lp) =
        rstrip (lstrip (t ++ " needing ".data ++ lp)) := rfl
    have h1 : lstrip (t ++ " needing ".data ++ lp) =
        ((pyStrip t ++ w) ++ " needing".data) ++ (" ".data ++ lp) := by
      rw [List.append_assoc, lstrip_append_of_ne_nil hlt, hw']
      rw [show " needing ".data ++ lp = " needing".data ++ (" ".data ++ lp) from by
        rw [← List.append_assoc]
        rfl]
      simp [List.append_assoc]
    rw [hps, h1, rstrip_append_cases]
    have hA : rstrip ((pyStrip t ++ w) ++ " needing".data) =
        (pyStrip t ++ w) ++ " needing".data :=
      rstrip_append_noop (c := 'g') (by decide) (by decide)
    by_cases hz : rstrip (" ".data ++ lp) = []
    · rw [if_pos hz, hA]
      exact ⟨[], by simp [List.append_assoc]⟩
    · rw [if_neg hz]
      exact ⟨rstrip (" ".data ++ lp), by simp [List.append_assoc]⟩
  obtain ⟨Z, hZ⟩ := key
  refine ⟨w ++ (" needing".data ++ Z), hZ, ?_, ?_, ?_⟩
  · intro ch hch
    cases w with
    | nil =>
      rw [List.nil_append] at hch
      rw [show (" needing".data ++ Z).get? 0 = some ' ' from rfl] at hch
      injection hch with hch
      rw [← hch]
      decide
    | cons c0 w' =>
      rw [show ((c0 :: w') ++ (" needing".data ++ Z)).get? 0 = some c0 from rfl]
        at hch
      injection hch with hch
      rw [← hch]
      exact hwws c0 (by simp)
  · intro ch hch
    cases w with
    | nil =>
      rw [List.nil_append] at hch
      rw [show (" needing".data ++ Z).get? 1 = some 'n' from rfl] at hch
      injection hch with hch
      rw [← hch]
      right
      rfl
    | cons c0 w' =>
      cases w' with
      | nil =>
        rw [show ((c0 :: []) ++ (" needing".data ++ Z)).get? 1 = some ' ' from rfl]
          at hch
        injection hch with hch
        rw [← hch]
        left
        decide
      | cons c1 w'' =>
        rw [show ((c0 :: c1 :: w'') ++ (" needing".data ++ Z)).get? 1 = some c1
          from rfl] at hch
        injection hch with hch
        rw [← hch]
        exact Or.inl (hwws c1 (by simp))
  · rw [List.length_append, List.length_append]
    have h8 : (" needing".data).length = 8 := by decide
    omega

/-- Strategy-2 base with the "companies" placeholder (empty target market). -/
lemma Sc2_companies (lp : PyStr) :
    ∃ Z, pyStrip ("companies".data ++ " needing ".data ++ lp) =
      "companies needing".data ++ Z := by
  have h1 : lstrip ("companies".data ++ " needing ".data ++ lp) =
      "companies".data ++ " needing ".data ++ lp :=
    lstrip_noop (c := 'c') (by rfl) (by decide)
  unfold pyStrip
  rw [h1]
  rw [show ("companies".data : PyStr) ++ " needing ".data ++ lp =
    "companies needing".data ++ (" ".data ++ lp) from by
      rw [show ("companies".data : PyStr) ++ " needing ".data =
        "companies needing".data ++ " ".data from by decide]
      rw [List.append_assoc]]
  rw [rstrip_append_cases]
  split
  · exact ⟨[], by
      rw [rstrip_noop (c := 'g') (by decide) (by decide), List.append_nil]⟩
  · exact ⟨rstrip (" ".data ++ lp), rfl⟩

/-- Strategy-2 base with an all-whitespace target market. -/
lemma Sc2_ws (t lp : PyStr) (hws : WsOnly t) :
    ∃ Z, pyStrip (t ++ " needing ".data ++ lp) = "needing".data ++ Z := by
  have h1 : lstrip (t ++ " needing ".data ++ lp) = "needing ".data ++ lp := by
    rw [List.append_assoc, lstrip_append_of_ws hws,
      lstrip_append_of_ne_nil (a := " needing ".data) (by decide)]
    rfl
  unfold pyStrip
  rw [h1]
  rw [show ("needing ".data : PyStr) ++ lp = "needing".data ++ (" ".data ++ lp)
    from by
      rw [show ("needing ".data : PyStr) = "needing".data ++ " ".data from by decide]
      rw [List.append_assoc]]
  rw [rstrip_append_cases]
  split
  · exact ⟨[], by
      rw [rstrip_noop (c := 'g') (by decide) (by decide), List.append_nil]⟩
  · exact ⟨rstrip (" ".data ++ lp), rfl⟩

end SignalForge

namespace SignalForge

/-! ## Distinctness kills between pinned builder values (C8) -/

lemma SA_suffix (β : PyStr) :
    ∃ w, pyStrip (β ++ " companies".data) = w ++ "companies".data := by
  obtain ⟨w, hw⟩ := pyStrip_append_shape β " companies".data (c := 's') (by decide)
    (by decide)
  refine ⟨w, ?_⟩
  rw [hw, show lstrip " companies".data = "companies".data from by decide]

lemma industry_decomp (I : PyStr) :
    ∃ lws rest, I = lws ++ (pyStrip (dashHead I) ++ rest) ∧ WsOnly lws := by
  have hI : I = dashHead I ++ I.dropWhile (fun c => c ≠ '-') := by
    unfold dashHead
    exact (List.takeWhile_append_dropWhile _ _).symm
  obtain ⟨a, b, hd, ha, hb⟩ := pyStrip_decomp (dashHead I)
  set Y := pyStrip (dashHead I) with hY
  refine ⟨a, b ++ I.dropWhile (fun c => c ≠ '-'), ?_, ha⟩
  conv_lhs => rw [hI, hd]
  simp [List.append_assoc]

/-- The always-present customer industry query is never the always-present
partner strategy-1 query. -/
lemma A_ne_E (I G : PyStr) :
    s3val (pyStrip (dashHead I)) G ≠ p1val I G := by
  intro h
  unfold s3val p1val at h
  have hbA : pyStrip (dashHead I) ++ " companies".data ≠ [] :=
    append_ne_nil_right _ (by decide)
  have hbE : p1base I ≠ [] := ne_nil_of_head? (p1base_head I)
  have hYs := Y_stripped I
  have hlenE : (p1base I).length = (pyStrip (dashHead I)).length + 37 :=
    p1base_len I
  have hlenSA : (pyStrip (pyStrip (dashHead I) ++ " companies".data)).length =
      (pyStrip (dashHead I)).length + 10 ∨
      (pyStrip (dashHead I) = [] ∧
        (pyStrip (pyStrip (dashHead I) ++ " companies".data)).length = 9) := by
    rcases SA_cases (pyStrip (dashHead I)) hYs with ⟨hne, he⟩ | ⟨hnil, he⟩
    · left
      rw [he, List.length_append]
      have : (" companies".data).length = 10 := by decide
      omega
    · right
      exact ⟨hnil, by rw [he]; decide⟩
  rcases build_query_cases _ G hbA with hA | ⟨hGne, hA⟩ <;>
    rcases build_query_cases _ G hbE with hE | ⟨hGne2, hE⟩ <;>
      rw [hA, hE, p1base_strip] at h
  · -- SA = p1base : impossible by length
    have := congrArg List.length h
    rcases hlenSA with h1 | ⟨_, h1⟩ <;> omega
  · -- SA = p1base ++ " in " ++ G
    have := congrArg List.length h
    rw [List.length_append, List.length_append] at this
    have h4 : (" in ".data).length = 4 := by decide
    rcases hlenSA with h1 | ⟨_, h1⟩ <;> omega
  · -- SA ++ " in " ++ G = p1base
    rcases SA_cases (pyStrip (dashHead I)) hYs with ⟨hne, he⟩ | ⟨hnil, he⟩
    · rw [he] at h
      -- (Y ++ " companies") ++ " in " ++ G = p1base
      have h' : pyStrip (dashHead I) ++ (" companies in ".data ++ G) =
          "companies partnering with ".data ++
            (pyStrip (dashHead I) ++ " businesses".data) := by
        rw [show (" companies in ".data : PyStr) =
          " companies".data ++ " in ".data from by decide]
        rw [← List.append_assoc, ← List.append_assoc, h]
        show p1base I = _
        unfold p1base
        rw [List.append_assoc]
      obtain ⟨k, hk, htk⟩ := shift_take_eq (c := "companies partnering with ".data)
        (by decide) h' (n := 14) (by decide)
      rw [take_append_of_le _ (by decide),
        show (" companies in ".data).take 14 = " companies in ".data from by decide]
        at htk
      have hall : ∀ k, k < 27 →
          ¬ (" companies in ".data =
            ("companies partnering with ".data.drop k ++
              "companies partnering with ".data.take k).take 14) := by decide
      have h26 : ("companies partnering with ".data).length = 26 := by decide
      exact hall k (by omega) htk
    · rw [he] at h
      -- "companies" ++ " in " ++ G = p1base with Y = []
      have h10 : (("companies".data ++ " in ".data) ++ G).get? 10 = some 'i' := by
        rw [get?_append_left _ (by decide)]
        decide
      have h10' : (p1base I).get? 10 = some 'p' := by
        have hsplit : p1base I = "companies p".data ++ (p1base I).drop 11 := by
          conv_lhs => rw [← List.take_append_drop 11 (p1base I)]
          rw [p1base_take11]
        rw [hsplit, get?_append_left _ (by decide)]
        decide
      rw [h] at h10
      rw [h10'] at h10
      exact absurd h10 (by decide)
  · -- SA ++ " in " ++ G = p1base ++ " in " ++ G : cancel, then length
    have h2 := List.append_cancel_right h
    have h3 := List.append_cancel_right h2
    have := congrArg List.length h3
    rcases hlenSA with h1 | ⟨_, h1⟩ <;> omega

/-- The geography-combination customer query is never the partner
strategy-1 query. -/
lemma D_ne_E (I G : PyStr) : s4val I G ≠ p1val I G := by
  intro h
  unfold s4val p1val at h
  have hbE : p1base I ≠ [] := ne_nil_of_head? (p1base_head I)
  rcases build_query_cases _ G hbE with hE | ⟨hGne2, hE⟩ <;>
    rw [hE, p1base_strip] at h
  · -- (Y ++ lit15) ++ G = p1base
    have h' : pyStrip (dashHead I) ++ (" businesses in ".data ++ G) =
        "companies partnering with ".data ++
          (pyStrip (dashHead I) ++ " businesses".data) := by
      rw [← List.append_assoc, h]
      show p1base I = _
      unfold p1base
      rw [List.append_assoc]
    have hb : (" businesses in ".data ++ G).get? 1 = some 'b' := by
      rw [get?_append_left _ (by decide)]
      decide
    have hmem := shift_char_mem (c := "companies partnering with ".data)
      (by decide) h' (by decide) hb
    exact absurd hmem (by decide)
  · -- (Y ++ lit15) ++ G = (p1base ++ " in ") ++ G
    have h2 := List.append_cancel_right h
    rw [show (" businesses in ".data : PyStr) =
      " businesses".data ++ " in ".data from by decide, ← List.append_assoc] at h2
    have h3 := List.append_cancel_right h2
    have h4 : (pyStrip (dashHead I) ++ " businesses".data : PyStr) =
        ("companies partnering with ".data ++ pyStrip (dashHead I)) ++
          " businesses".data := by
      rw [h3]
      rfl
    have h5 := List.append_cancel_right h4
    have := congrArg List.length h5
    rw [List.length_append] at this
    have h26 : ("companies partnering with ".data).length = 26 := by decide
    omega

/-- The geography-combination customer query is never the length-one partner
fallback. -/
lemma D_ne_Fp1 (I G : PyStr) :
    s4val I G ≠ "strategic ".data ++ I ++ " partnerships".data := by
  intro h
  obtain ⟨lws, rest, hI, hws⟩ := industry_decomp I
  unfold s4val at h
  have h' : pyStrip (dashHead I) ++ (" businesses in ".data ++ G) =
      ("strategic ".data ++ lws) ++ (pyStrip (dashHead I) ++
        (rest ++ " partnerships".data)) := by
    rw [← List.append_assoc, h]
    conv_lhs => rw [hI]
    simp [List.append_assoc]
  have hb : (" businesses in ".data ++ G).get? 1 = some 'b' := by
    rw [get?_append_left _ (by decide)]
    decide
  have hclen : 1 < ("strategic ".data ++ lws).length := by
    rw [List.length_append]
    have : ("strategic ".data).length = 10 := by decide
    omega
  have hmem := shift_char_mem (c := "strategic ".data ++ lws)
    (append_ne_nil_left (by decide) _) h' hclen hb
  rcases List.mem_append.mp hmem with h1 | h1
  · exact absurd h1 (by decide)
  · exact absurd (hws 'b' h1) (by decide)

/-- The geography-combination customer query is never the length-two partner
fallback. -/
lemma D_ne_Fp2 (I G : PyStr) :
    s4val I G ≠ "complementary ".data ++ I ++ " partners".data := by
  intro h
  obtain ⟨lws, rest, hI, hws⟩ := industry_decomp I
  unfold s4val at h
  have h' : pyStrip (dashHead I) ++ (" businesses in ".data ++ G) =
      ("complementary ".data ++ lws) ++ (pyStrip (dashHead I) ++
        (rest ++ " partners".data)) := by
    rw [← List.append_assoc, h]
    conv_lhs => rw [hI]
    simp [List.append_assoc]
  have hb : (" businesses in ".data ++ G).get? 1 = some 'b' := by
    rw [get?_append_left _ (by decide)]
    decide
  have hclen : 1 < ("complementary ".data ++ lws).length := by
    rw [List.length_append]
    have : ("complementary ".data).length = 14 := by decide
    omega
  have hmem := shift_char_mem (c := "complementary ".data ++ lws)
    (append_ne_nil_left (by decide) _) h' hclen hb
  rcases List.mem_append.mp hmem with h1 | h1
  · exact absurd h1 (by decide)
  · exact absurd (hws 'b' h1) (by decide)

/-- The geography-combination customer query is never the partner catch-all. -/
lemma D_ne_GenP (I G : PyStr) (hg : G ≠ []) :
    s4val I G ≠ partnerGeneric G := by
  intro h
  unfold s4val partnerGeneric at h
  rw [if_pos hg] at h
  have h2 := List.append_cancel_right h
  rw [show (" businesses in ".data : PyStr) =
      " businesses".data ++ " in ".data from by decide,
    show ("partnership opportunities in ".data : PyStr) =
      "partnership opportunities".data ++ " in ".data from by decide,
    ← List.append_assoc] at h2
  have h3 := List.append_cancel_right h2
  have g1 : (pyStrip (dashHead I) ++ " businesses".data).reverse.get? 2 =
      some 's' := by
    rw [rev_get_append _ _ 2 (by decide)]
    decide
  rw [h3] at g1
  exact absurd g1 (by decide)

/-- The geography-combination customer query is never the technology-partners
query. -/
lemma D_ne_P3 (I G : PyStr) (hg : G ≠ []) :
    s4val I G ≠ build_query "technology integration partners".data G := by
  intro h
  unfold s4val at h
  rw [P3val_eq G hg] at h
  have h2 := List.append_cancel_right h
  rw [show (" businesses in ".data : PyStr) =
    " businesses".data ++ " in ".data from by decide, ← List.append_assoc] at h2
  have h3 := List.append_cancel_right h2
  have g1 : (pyStrip (dashHead I) ++ " businesses".data).reverse.get? 1 =
      some 'e' := by
    rw [rev_get_append _ _ 1 (by decide)]
    decide
  rw [h3] at g1
  exact absurd g1 (by decide)

/-- Any value ending in "companies" differs from the three partner fallback /
generic shapes, which end in "partners(hips)". -/
lemma SA_ne_Fp1 (β I : PyStr) :
    pyStrip (β ++ " companies".data) ≠
      "strategic ".data ++ I ++ " partnerships".data := by
  intro h
  obtain ⟨w, hw⟩ := SA_suffix β
  have g1 : (pyStrip (β ++ " companies".data)).reverse.get? 1 = some 'e' := by
    rw [hw, rev_get_append _ _ 1 (by decide)]
    decide
  rw [h, rev_get_append _ " partnerships".data 1 (by decide)] at g1
  exact absurd g1 (by decide)

lemma SA_ne_Fp2 (β I : PyStr) :
    pyStrip (β ++ " companies".data) ≠
      "complementary ".data ++ I ++ " partners".data := by
  intro h
  obtain ⟨w, hw⟩ := SA_suffix β
  have g1 : (pyStrip (β ++ " companies".data)).reverse.get? 1 = some 'e' := by
    rw [hw, rev_get_append _ _ 1 (by decide)]
    decide
  rw [h, rev_get_append _ " partners".data 1 (by decide)] at g1
  exact absurd g1 (by decide)

lemma SA_ne_BP (β : PyStr) :
    pyStrip (β ++ " companies".data) ≠ "business partners".data := by
  intro h
  obtain ⟨w, hw⟩ := SA_suffix β
  have g1 : (pyStrip (β ++ " companies".data)).reverse.get? 1 = some 'e' := by
    rw [hw, rev_get_append _ _ 1 (by decide)]
    decide
  rw [h] at g1
  exact absurd g1 (by decide)

lemma SA_ne_P3nil (β : PyStr) :
    pyStrip (β ++ " companies".data) ≠ "technology integration partners".data := by
  intro h
  obtain ⟨w, hw⟩ := SA_suffix β
  have g1 : (pyStrip (β ++ " companies".data)).reverse.get? 1 = some 'e' := by
    rw [hw, rev_get_append _ _ 1 (by decide)]
    decide
  rw [h] at g1
  exact absurd g1 (by decide)

end SignalForge

namespace SignalForge

/-! ## Full inventories of the default-filter builder outputs (C8) -/

/-- Set equality of two query lists, as Python's set(...) == set(...). -/
def setEqStr (l1 l2 : List PyStr) : Prop := ∀ x, x ∈ l1 ↔ x ∈ l2

lemma custS1_cases_t {x : PyStr} (tm geo : PyStr) {qs : List PyStr}
    (h : x ∈ custS1 tm geo qs) :
    x ∈ qs ∨ (x = build_query tm geo ∧ tm ≠ []) := by
  unfold custS1 at h
  split at h
  · next ht =>
    rcases mem_appendIf_cases h with h1 | h1
    · exact Or.inl h1
    · exact Or.inr ⟨h1, ht⟩
  · exact Or.inl h

lemma custS4_cases_geo {x : PyStr} (industry geo : PyStr) {qs : List PyStr}
    (h : x ∈ custS4 industry geo qs) :
    x ∈ qs ∨ (x = s4val industry geo ∧ geo ≠ []) := by
  unfold custS4 at h
  split at h
  · next hg =>
    rcases mem_appendIfNew_cases h with h1 | h1
    · exact Or.inl h1
    · exact Or.inr ⟨h1, hg⟩
  · exact Or.inl h

/-- Everything build_customer_queries can return at default filters. -/
lemma customer_inv (ctx : BusinessContext) {x : PyStr}
    (hx : x ∈ build_customer_queries ctx none) :
    (x = build_query ctx.target_market (extract_geography ctx {}) ∧
      ctx.target_market ≠ []) ∨
    (∃ p ∈ ctx.products_services.take 2,
      x = build_query ((if ctx.target_market ≠ [] then ctx.target_market
        else "companies".data) ++ " needing ".data ++ pyLower p)
        (extract_geography ctx {})) ∨
    x = s3val (pyStrip (dashHead (industryOr ctx))) (extract_geography ctx {}) ∨
    (x = s4val (industryOr ctx) (extract_geography ctx {}) ∧
      extract_geography ctx {} ≠ []) ∨
    (x = customerFallback (industryOr ctx) ctx.target_market
        (extract_geography ctx {}) 1 ∧
      (customerStrategies ctx {}).length = 1) ∨
    (x = customerFallback (industryOr ctx) ctx.target_market
        (extract_geography ctx {}) 2 ∧
      (customerStrategies ctx {}).length ≤ 2) ∨
    (x = customerGeneric (extract_geography ctx {}) ∧
      (customerStrategies ctx {}).length ≤ 2) := by
  have hbc : build_customer_queries ctx none =
      (customerPad (industryOr ctx) ctx.target_market (extract_geography ctx {}) 3
        (customerStrategies ctx {})).take 5 := rfl
  rw [hbc] at hx
  have hx' := List.mem_of_mem_take hx
  have hpos : 0 < (customerStrategies ctx {}).length :=
    List.length_pos.mpr (customerStrategies_ne_nil ctx {})
  rcases customerPad_cases_sharp _ _ _ 3 _ x hx' with hs | ⟨k, hk1, hk2, hk3⟩ |
    ⟨hgen, hlen⟩
  · rw [customerStrategies_def] at hs
    rcases custS5_cases _ _ _ hs with hs | ⟨s, hsz, _⟩
    · rcases custS4_cases_geo _ _ hs with hs | ⟨hD, hg⟩
      · rcases custS3_cases _ _ _ hs with hs | ⟨s, hfi, _⟩ | ⟨l, i, hfi, _, _⟩ | hA
        · rcases custS2_cases _ _ _ hs with hs | ⟨p, hp, he⟩
          · rcases custS1_cases_t _ _ hs with hs | ⟨hc1, ht⟩
            · exact absurd hs (List.not_mem_nil x)
            · exact Or.inl ⟨hc1, ht⟩
          · exact Or.inr (Or.inl ⟨p, hp, he⟩)
        · rw [show ({} : Filters).industry = none from rfl] at hfi
          exact Option.noConfusion hfi
        · rw [show ({} : Filters).industry = none from rfl] at hfi
          exact Option.noConfusion hfi
        · exact Or.inr (Or.inr (Or.inl hA))
      · exact Or.inr (Or.inr (Or.inr (Or.inl ⟨hD, hg⟩)))
    · rw [show ({} : Filters).size = none from rfl] at hsz
      exact Option.noConfusion hsz
  · match k, hk1, hk2 with
    | 0, hk1, hk2 => omega
    | 1, hk1, hk2 =>
      exact Or.inr (Or.inr (Or.inr (Or.inr (Or.inl ⟨hk3, by omega⟩))))
    | 2, hk1, hk2 =>
      exact Or.inr (Or.inr (Or.inr (Or.inr (Or.inr (Or.inl ⟨hk3, by omega⟩)))))
    | k + 3, hk1, hk2 => omega
  · exact Or.inr (Or.inr (Or.inr (Or.inr (Or.inr (Or.inr ⟨hgen, by omega⟩)))))

/-- Everything build_partner_queries can return at default filters. -/
lemma partner_inv (ctx : BusinessContext) {x : PyStr}
    (hx : x ∈ build_partner_queries ctx none) :
    x = p1val (industryOr ctx) (extract_geography ctx {}) ∨
    (∃ p ∈ ctx.products_services.take 2,
      x = build_query ("companies integrating with ".data ++ pyLower p)
        (extract_geography ctx {})) ∨
    x = build_query "technology integration partners".data
      (extract_geography ctx {}) ∨
    (x = partnerFallback (industryOr ctx) (extract_geography ctx {}) 1 ∧
      (partnerStrategies ctx {}).length = 1) ∨
    (x = partnerFallback (industryOr ctx) (extract_geography ctx {}) 2 ∧
      (partnerStrategies ctx {}).length ≤ 2) ∨
    (x = partnerGeneric (extract_geography ctx {}) ∧
      (partnerStrategies ctx {}).length ≤ 2) := by
  have hbp : build_partner_queries ctx none =
      (partnerPad (industryOr ctx) (extract_geography ctx {}) 3
        (partnerStrategies ctx {})).take 5 := rfl
  rw [hbp] at hx
  have hx' := List.mem_of_mem_take hx
  have hpos : 0 < (partnerStrategies ctx {}).length :=
    List.length_pos.mpr (partnerStrategies_ne_nil ctx {})
  rcases partnerPad_cases_sharp _ _ 3 _ x hx' with hs | ⟨k, hk1, hk2, hk3⟩ |
    ⟨hgen, hlen⟩
  · rw [partnerStrategies_def] at hs
    rcases partS5_cases _ _ hs with hs | ⟨s, hfi, _⟩ | ⟨l, i, hfi, _, _⟩
    · rcases partS4_cases _ _ hs with hs | ⟨s, hpt, _⟩
      · rcases partS3_cases _ _ hs with hs | hP3
        · rcases partS2_cases _ _ hs with hs | ⟨p, hp, he⟩
          · rcases partS1_cases _ _ hs with hs | hE
            · exact absurd hs (List.not_mem_nil x)
            · exact Or.inl hE
          · exact Or.inr (Or.inl ⟨p, hp, he⟩)
        · exact Or.inr (Or.inr (Or.inl hP3))
      · rw [show ({} : Filters).partnership_type = none from rfl] at hpt
        exact Option.noConfusion hpt
    · rw [show ({} : Filters).industry = none from rfl] at hfi
      exact Option.noConfusion hfi
    · rw [show ({} : Filters).industry = none from rfl] at hfi
      exact Option.noConfusion hfi
  · match k, hk1, hk2 with
    | 0, hk1, hk2 => omega
    | 1, hk1, hk2 =>
      exact Or.inr (Or.inr (Or.inr (Or.inl ⟨hk3, by omega⟩)))
    | 2, hk1, hk2 =>
      exact Or.inr (Or.inr (Or.inr (Or.inr (Or.inl ⟨hk3, by omega⟩))))
    | k + 3, hk1, hk2 => omega
  · exact Or.inr (Or.inr (Or.inr (Or.inr (Or.inr ⟨hgen, by omega⟩))))

/-! ## Pinned memberships (C8) -/

lemma Aval_mem_cs (ctx : BusinessContext) :
    s3val (pyStrip (dashHead (industryOr ctx))) (extract_geography ctx {}) ∈
      customerStrategies ctx {} := by
  rw [customerStrategies_def]
  apply custS5_pres _ (fun _ _ h => mem_appendIf h)
  apply custS4_mem_pres
  show _ ∈ custS3 (industryOr ctx) (extract_geography ctx {}) none _
  exact self_mem_appendIf (s3val_ne_nil _ _)

lemma Aval_mem (ctx : BusinessContext) :
    s3val (pyStrip (dashHead (industryOr ctx))) (extract_geography ctx {}) ∈
      build_customer_queries ctx none :=
  mem_build_customer_of_strategies (Aval_mem_cs ctx)

lemma Dval_mem (ctx : BusinessContext) (hg : extract_geography ctx {} ≠ []) :
    s4val (industryOr ctx) (extract_geography ctx {}) ∈
      build_customer_queries ctx none :=
  mem_build_customer_of_strategies (customerStrategies_s4 ctx {} hg)

lemma Eval_mem (ctx : BusinessContext) :
    p1val (industryOr ctx) (extract_geography ctx {}) ∈
      build_partner_queries ctx none :=
  mem_build_partner_of_strategies (partnerStrategies_p1 ctx {})

lemma s3val_nil_geo (β : PyStr) :
    s3val β [] = pyStrip (β ++ " companies".data) := by
  unfold s3val
  rcases build_query_cases (β ++ " companies".data) []
    (append_ne_nil_right β (by decide)) with h1 | ⟨hgne, _⟩
  · exact h1
  · exact absurd rfl hgne

/-- Step 2: a set-equal pair of builder outputs forces a non-empty product
list, because the pinned customer query living in the partner inventory can
only be a product-derived query. -/
lemma products_ne_nil_of_setEq (ctx : BusinessContext)
    (hset : setEqStr (build_customer_queries ctx none)
      (build_partner_queries ctx none)) :
    ctx.products_services ≠ [] := by
  intro hprod
  by_cases hg : extract_geography ctx {} = []
  · have hA := (hset _).mp (Aval_mem ctx)
    rcases partner_inv ctx hA with hE | ⟨p, hp, he⟩ | hP3 | ⟨hF1, _⟩ | ⟨hF2, _⟩ |
      ⟨hGen, _⟩
    · exact A_ne_E (industryOr ctx) (extract_geography ctx {}) hE
    · rw [hprod] at hp
      simp at hp
    · rw [hg, s3val_nil_geo,
        show build_query "technology integration partners".data [] =
          "technology integration partners".data from by decide] at hP3
      exact SA_ne_P3nil _ hP3
    · rw [hg, s3val_nil_geo] at hF1
      exact SA_ne_Fp1 _ _ hF1
    · rw [hg, s3val_nil_geo] at hF2
      exact SA_ne_Fp2 _ _ hF2
    · rw [hg, s3val_nil_geo] at hGen
      exact SA_ne_BP _ hGen
  · have hD := (hset _).mp (Dval_mem ctx hg)
    rcases partner_inv ctx hD with hE | ⟨p, hp, he⟩ | hP3 | ⟨hF1, _⟩ | ⟨hF2, _⟩ |
      ⟨hGen, _⟩
    · exact D_ne_E _ _ hE
    · rw [hprod] at hp
      simp at hp
    · exact D_ne_P3 _ _ hg hP3
    · exact D_ne_Fp1 _ _ hF1
    · exact D_ne_Fp2 _ _ hF2
    · exact D_ne_GenP _ _ hg hGen

end SignalForge

namespace SignalForge

/-! ## Step 1 for C8: the pinned partner query inside the customer list -/

lemma p1val_nil_eq (I : PyStr) : p1val I [] = p1base I := by
  unfold p1val
  rcases build_query_cases (p1base I) [] (ne_nil_of_head? (p1base_head I)) with
    h | ⟨hgne, _⟩
  · rw [h, p1base_strip]
  · exact absurd rfl hgne

lemma A_ne_D (I G : PyStr) : s3val (pyStrip (dashHead I)) G ≠ s4val I G := by
  intro h
  have hl := congrArg List.length h
  unfold s3val s4val at hl
  rw [List.length_append, List.length_append] at hl
  have h15 : (" businesses in ".data).length = 15 := by decide
  have h10 : (" companies".data).length = 10 := by decide
  have h0 : ([] : PyStr).length = 0 := rfl
  rcases build_query_len_cases (pyStrip (dashHead I) ++ " companies".data) G
    (append_ne_nil_right _ (by decide)) with h1 | ⟨hgneq, h1⟩ <;>
    rw [h1] at hl <;>
      rcases SA_cases (pyStrip (dashHead I)) (Y_stripped I) with ⟨hne, he⟩ |
        ⟨hnil, he⟩
  · rw [he, List.length_append] at hl
    omega
  · rw [he, hnil] at hl
    have h9 : ("companies".data).length = 9 := by decide
    omega
  · rw [he, List.length_append] at hl
    omega
  · rw [he, hnil] at hl
    have h9 : ("companies".data).length = 9 := by decide
    omega

lemma p1val_ne_fb2 (I J G : PyStr) :
    p1val I G ≠ "potential ".data ++ J ++ " customers".data := by
  intro h
  have h1 := p1val_head I G
  rw [h, List.head?_append_of_ne_nil _ (append_ne_nil_left (by decide) J),
    List.head?_append_of_ne_nil _ (by decide)] at h1
  exact absurd h1 (by decide)

lemma p1val_nil_ne_fb1 (I J : PyStr) :
    p1val I [] ≠ J ++ " looking for growth".data := by
  intro h
  have h1 : (p1val I []).reverse.head? = some 's' := by
    rw [p1val_nil_eq]
    exact p1base_rev_head I
  rw [h, rev_head_append _ _ (by decide)] at h1
  exact absurd h1 (by decide)

lemma p1val_ne_genC (I G : PyStr) : p1val I G ≠ customerGeneric G := by
  intro h
  by_cases hg : G = []
  · rw [hg, p1val_nil_eq,
      show customerGeneric [] = "companies".data from by decide] at h
    have hl := congrArg List.length h
    rw [p1base_len] at hl
    have h9 : ("companies".data).length = 9 := by decide
    omega
  · have h1 := p1val_head I G
    rw [h, show customerGeneric G = "businesses in ".data ++ G from by
      unfold customerGeneric
      rw [if_pos hg],
      List.head?_append_of_ne_nil _ (by decide)] at h1
    exact absurd h1 (by decide)

/-- Step 1: under set equality the always-present partner query p1val must be
the customer target-market query or one of its product-need queries. -/
lemma step1 (ctx : BusinessContext)
    (hset : setEqStr (build_customer_queries ctx none)
      (build_partner_queries ctx none)) :
    (p1val (industryOr ctx) (extract_geography ctx {}) =
        build_query ctx.target_market (extract_geography ctx {}) ∧
      ctx.target_market ≠ []) ∨
    (∃ p ∈ ctx.products_services.take 2,
      p1val (industryOr ctx) (extract_geography ctx {}) =
        build_query ((if ctx.target_market ≠ [] then ctx.target_market
          else "companies".data) ++ " needing ".data ++ pyLower p)
          (extract_geography ctx {})) := by
  have hE := (hset _).mpr (Eval_mem ctx)
  rcases customer_inv ctx hE with ⟨h1, h2⟩ | h2 | hA | ⟨hD, hGne⟩ | ⟨hF1, hL1⟩ |
    ⟨hF2, _⟩ | ⟨hGen, _⟩
  · exact Or.inl ⟨h1, h2⟩
  · exact Or.inr h2
  · exact absurd hA.symm (A_ne_E _ _)
  · exact absurd hD.symm (D_ne_E _ _)
  · by_cases hg : extract_geography ctx {} = []
    · rw [hg] at hF1
      exact absurd hF1 (p1val_nil_ne_fb1 (industryOr ctx) (industryOr ctx))
    · have hAm := Aval_mem_cs ctx
      have hDm := customerStrategies_s4 ctx {} hg
      have h2 := two_mem_length_ge_two hAm hDm (A_ne_D _ _)
      exact absurd hL1 (by omega)
  · exact absurd hF2 (p1val_ne_fb2 _ _ _)
  · exact absurd hGen (p1val_ne_genC _ _)

end SignalForge

namespace SignalForge

/-! ## The "companies p" prefix machinery (C8, step 3) -/

/-- If st is followed by a whitespace-opening block inside a string that
starts "companies p", then st itself spans that prefix. -/
lemma prefix_take11 {st u v : PyStr} (heq : st ++ u = v)
    (hv : v.take 11 = "companies p".data)
    (hul : 2 ≤ u.length)
    (hu0 : ∀ ch, u.get? 0 = some ch → ch.isWhitespace = true)
    (hu1 : ∀ ch, u.get? 1 = some ch → ch ≠ 'p') :
    11 ≤ st.length ∧ st.take 11 = "companies p".data := by
  by_cases hl : 11 ≤ st.length
  · refine ⟨hl, ?_⟩
    rw [← heq, take_append_of_le _ hl] at hv
    exact hv
  · exfalso
    push_neg at hl
    have hsplit : v = "companies p".data ++ v.drop 11 := by
      conv_lhs => rw [← List.take_append_drop 11 v]
      rw [hv]
    have hg0 : v.get? st.length = u.get? 0 := by
      rw [← heq, List.get?_append_right (le_refl _)]
      simp
    have hvst : v.get? st.length = ("companies p".data).get? st.length := by
      conv_lhs => rw [hsplit]
      rw [get?_append_left _ (by
        have h11 : ("companies p".data).length = 11 := by decide
        omega)]
    have h0 := hg0.symm.trans hvst
    obtain ⟨c0, hc0⟩ : ∃ c, u.get? 0 = some c :=
      ⟨_, List.get?_eq_get (by omega)⟩
    have hws := hu0 c0 hc0
    have h9 : st.length = 9 := by
      have hall : ∀ q, q < 11 → ∀ c, ("companies p".data).get? q = some c →
          c.isWhitespace = true → q = 9 := by decide
      exact hall st.length (by omega) c0 (by rw [← h0]; exact hc0) hws
    have hg1 : v.get? 10 = u.get? 1 := by
      rw [← heq, List.get?_append_right (by omega)]
      rw [h9]
    have hv10 : v.get? 10 = some 'p' := by
      conv_lhs => rw [hsplit]
      rw [get?_append_left _ (by decide)]
      decide
    obtain ⟨c1, hc1⟩ : ∃ c, u.get? 1 = some c :=
      ⟨_, List.get?_eq_get (by omega)⟩
    have hne := hu1 c1 hc1
    rw [hg1, hc1] at hv10
    injection hv10 with hv10
    exact hne hv10

lemma ne_nil_of_take11 {v : PyStr} (h : v.take 11 = "companies p".data) :
    v ≠ [] := by
  intro he
  rw [he] at h
  exact absurd h (by decide)

/-- A product-need customer query never coincides with the bare target-market
query: stripping leaves a non-trivial residue after the target market. -/
lemma c2_ne_C1 (tm lp geo : PyStr) (hst : pyStrip tm ≠ []) :
    build_query (tm ++ " needing ".data ++ lp) geo ≠ build_query tm geo := by
  intro h
  obtain ⟨R, hR, hR0, hR1, hRlen⟩ := Sc2_struct tm lp hst
  have hb2 : tm ++ " needing ".data ++ lp ≠ [] :=
    append_ne_nil_left (append_ne_nil_right tm (by decide)) lp
  have htm' : tm ≠ [] := by
    intro he
    rw [he] at hst
    exact hst (by decide)
  have h4 : (" in ".data).length = 4 := by decide
  rcases build_query_cases _ geo hb2 with h2 | ⟨hgne2, h2⟩ <;>
    rcases build_query_cases tm geo htm' with h3 | ⟨hgne3, h3⟩ <;>
      rw [h2, h3, hR] at h
  · have hl := congrArg List.length h
    rw [List.length_append] at hl
    omega
  · rw [List.append_assoc] at h
    have hcan := List.append_cancel_left h
    obtain ⟨c1, hc1⟩ : ∃ c, R.get? 1 = some c :=
      ⟨_, List.get?_eq_get (by omega)⟩
    have hu := hR1 c1 hc1
    rw [hcan, get?_append_left _ (by decide)] at hc1
    rw [show (" in ".data).get? 1 = some 'i' from by decide] at hc1
    injection hc1 with he
    rw [← he] at hu
    rcases hu with h5 | h5 <;> exact absurd h5 (by decide)
  · have hl := congrArg List.length h
    rw [List.length_append, List.length_append, List.length_append] at hl
    omega
  · have h5 := List.append_cancel_right h
    have h6 := List.append_cancel_right h5
    have hl := congrArg List.length h6
    rw [List.length_append] at hl
    omega

lemma C1_take11 (tm geo : PyStr) (htm : tm ≠ [])
    (hlen : 11 ≤ (pyStrip tm).length)
    (htake : (pyStrip tm).take 11 = "companies p".data) :
    (build_query tm geo).take 11 = "companies p".data := by
  rw [build_query_take tm geo htm hlen, htake]

lemma c2_take11 (tm lp geo : PyStr) (hst : pyStrip tm ≠ [])
    (hlen : 11 ≤ (pyStrip tm).length)
    (htake : (pyStrip tm).take 11 = "companies p".data) :
    (build_query (tm ++ " needing ".data ++ lp) geo).take 11 =
      "companies p".data := by
  obtain ⟨R, hR, _, _, hRlen⟩ := Sc2_struct tm lp hst
  have hb2 : tm ++ " needing ".data ++ lp ≠ [] :=
    append_ne_nil_left (append_ne_nil_right tm (by decide)) lp
  rw [build_query_take _ geo hb2 (by
    rw [hR, List.length_append]
    omega), hR, take_append_of_le _ hlen, htake]

lemma take10_of_take11 {v : PyStr} (h : v.take 11 = "companies p".data) :
    v.take 10 = "companies ".data := by
  have h2 := congrArg (List.take 10) h
  rw [List.take_take] at h2
  rw [show min 10 11 = 10 from by decide] at h2
  rw [show ("companies p".data).take 10 = "companies ".data from by decide] at h2
  exact h2

lemma P3val_take11 (geo : PyStr) :
    (build_query "technology integration partners".data geo).take 11 =
      "technology ".data := by
  rw [build_query_take _ _ (by decide) (by decide)]
  decide

lemma Fp1_take10 (I G : PyStr) :
    (partnerFallback I G 1).take 10 = "strategic ".data := by
  show ("strategic ".data ++ I ++ " partnerships".data).take 10 = _
  rw [List.append_assoc, take_append_of_le _ (by decide)]
  decide

lemma Fp2_take10 (I G : PyStr) :
    (partnerFallback I G 2).take 10 = "complement".data := by
  show ("complementary ".data ++ I ++ " partners".data).take 10 = _
  rw [List.append_assoc, take_append_of_le _ (by decide)]
  decide

lemma genP_ne_of_take10 {v : PyStr} (G : PyStr)
    (hv10 : v.take 10 = "companies ".data) : v ≠ partnerGeneric G := by
  intro h
  unfold partnerGeneric at h
  by_cases hg : G = []
  · rw [if_neg (not_not_intro hg)] at h
    have h2 := congrArg (List.take 10) h
    rw [hv10] at h2
    exact absurd h2 (by decide)
  · rw [if_pos hg] at h
    have h2 := congrArg (List.take 10) h
    rw [hv10, take_append_of_le _ (by decide)] at h2
    exact absurd h2 (by decide)

/-- A query starting "companies p" in the partner output can only be the
pinned partner strategy-1 query. -/
lemma companiesP_partner_kill (ctx : BusinessContext) {v : PyStr}
    (hv11 : v.take 11 = "companies p".data)
    (hvE : v ≠ p1val (industryOr ctx) (extract_geography ctx {}))
    (hmem : v ∈ build_partner_queries ctx none) : False := by
  have hv10 : v.take 10 = "companies ".data := take10_of_take11 hv11
  rcases partner_inv ctx hmem with hE | ⟨p, hp, he⟩ | hP3 | ⟨hF1, _⟩ | ⟨hF2, _⟩ |
    ⟨hGen, _⟩
  · exact hvE hE
  · have h2 := congrArg (List.take 11) he
    rw [hv11, ppval_take11] at h2
    exact absurd h2 (by decide)
  · have h2 := congrArg (List.take 11) hP3
    rw [hv11, P3val_take11] at h2
    exact absurd h2 (by decide)
  · have h2 := congrArg (List.take 10) hF1
    rw [hv10, Fp1_take10] at h2
    exact absurd h2 (by decide)
  · have h2 := congrArg (List.take 10) hF2
    rw [hv10, Fp2_take10] at h2
    exact absurd h2 (by decide)
  · exact genP_ne_of_take10 _ hv10 hGen

end SignalForge

namespace SignalForge

/-! ## Step 3 for C8 and the main set-inequality theorem -/

lemma wsonly_of_strip_nil {t : PyStr} (h : pyStrip t = []) : WsOnly t := by
  obtain ⟨a, b, hd, ha, hb⟩ := pyStrip_decomp t
  rw [h] at hd
  intro c hc
  rw [hd] at hc
  rcases List.mem_append.mp hc with h1 | h1
  · rcases List.mem_append.mp h1 with h2 | h2
    · exact ha c h2
    · exact absurd h2 (List.not_mem_nil c)
  · exact hb c h1

lemma C1_mem (ctx : BusinessContext) (htm : ctx.target_market ≠ [])
    (hne : build_query ctx.target_market (extract_geography ctx {}) ≠ []) :
    build_query ctx.target_market (extract_geography ctx {}) ∈
      build_customer_queries ctx none := by
  apply mem_build_customer_of_strategies
  rw [customerStrategies_def]
  apply custS5_pres _ (fun _ _ h => mem_appendIf h)
  apply custS4_mem_pres
  apply custS3_pres _ (fun _ _ h => mem_appendIf h)
  apply custS2_pres _ (fun _ _ h => mem_appendIf h)
  unfold custS1
  rw [if_pos htm]
  exact self_mem_appendIf hne

lemma c2_mem (ctx : BusinessContext) (p1 : PyStr) (rest : List PyStr)
    (hprod : ctx.products_services = p1 :: rest)
    (hne : build_query ((if ctx.target_market ≠ [] then ctx.target_market
      else "companies".data) ++ " needing ".data ++ pyLower p1)
      (extract_geography ctx {}) ≠ []) :
    build_query ((if ctx.target_market ≠ [] then ctx.target_market
      else "companies".data) ++ " needing ".data ++ pyLower p1)
      (extract_geography ctx {}) ∈ build_customer_queries ctx none := by
  apply mem_build_customer_of_strategies
  rw [customerStrategies_def]
  apply custS5_pres _ (fun _ _ h => mem_appendIf h)
  apply custS4_mem_pres
  apply custS3_pres _ (fun _ _ h => mem_appendIf h)
  unfold custS2
  rw [hprod, if_pos (List.cons_ne_nil p1 rest),
    show (p1 :: rest).take 2 = p1 :: rest.take 1 from rfl, List.foldl_cons]
  apply foldl_appendIf_pres _ (fun _ _ h => mem_appendIf h)
  exact self_mem_appendIf hne

/-- Step 3, branch 1: p1val cannot be the target-market query. -/
lemma branch_C1 (ctx : BusinessContext)
    (hset : setEqStr (build_customer_queries ctx none)
      (build_partner_queries ctx none))
    (p1 : PyStr) (rest : List PyStr)
    (hprod : ctx.products_services = p1 :: rest)
    (htm : ctx.target_market ≠ [])
    (hE : p1val (industryOr ctx) (extract_geography ctx {}) =
      build_query ctx.target_market (extract_geography ctx {})) : False := by
  by_cases hstnil : pyStrip ctx.target_market = []
  · rcases build_query_cases ctx.target_market (extract_geography ctx {}) htm
      with hB | ⟨hGne, hB⟩
    · rw [hstnil] at hB
      exact p1val_ne_nil _ _ (hE.trans hB)
    · rw [hstnil] at hB
      have h1 := p1val_head (industryOr ctx) (extract_geography ctx {})
      rw [hE, hB, List.nil_append,
        List.head?_append_of_ne_nil _ (by decide)] at h1
      exact absurd h1 (by decide)
  · obtain ⟨hlen, htake⟩ : 11 ≤ (pyStrip ctx.target_market).length ∧
        (pyStrip ctx.target_market).take 11 = "companies p".data := by
      have hbE : p1base (industryOr ctx) ≠ [] :=
        ne_nil_of_head? (p1base_head _)
      have hEu : build_query (p1base (industryOr ctx))
          (extract_geography ctx {}) =
          build_query ctx.target_market (extract_geography ctx {}) := hE
      rcases build_query_cases (p1base (industryOr ctx))
          (extract_geography ctx {}) hbE with hA | ⟨hGne, hA⟩ <;>
        rcases build_query_cases ctx.target_market (extract_geography ctx {})
          htm with hB | ⟨hGne2, hB⟩ <;>
          rw [hA, hB, p1base_strip] at hEu
      · constructor
        · rw [← hEu, p1base_len]
          omega
        · rw [← hEu, p1base_take11]
      · have heq : pyStrip ctx.target_market ++
            (" in ".data ++ extract_geography ctx {}) =
            p1base (industryOr ctx) := by
          rw [← List.append_assoc, hEu]
        refine prefix_take11 heq (p1base_take11 _) ?_ ?_ ?_
        · rw [List.length_append]
          have h4 : (" in ".data).length = 4 := by decide
          omega
        · intro ch h
          rw [get?_append_left _ (by decide),
            show (" in ".data).get? 0 = some ' ' from by decide] at h
          injection h with h
          rw [← h]
          decide
        · intro ch h
          rw [get?_append_left _ (by decide),
            show (" in ".data).get? 1 = some 'i' from by decide] at h
          injection h with h
          rw [← h]
          decide
      · constructor
        · have hl := congrArg List.length hEu
          rw [List.length_append, List.length_append, p1base_len] at hl
          omega
        · rw [← hEu, take_append_of_le _ (by
            rw [List.length_append, p1base_len]
            omega), take_append_of_le _ (by rw [p1base_len]; omega),
            p1base_take11]
      · have h5 := List.append_cancel_right hEu
        have h6 := List.append_cancel_right h5
        constructor
        · rw [← h6, p1base_len]
          omega
        · rw [← h6, p1base_take11]
    have hc2t : (build_query (ctx.target_market ++ " needing ".data ++
        pyLower p1) (extract_geography ctx {})).take 11 =
        "companies p".data := c2_take11 _ _ _ hstnil hlen htake
    have hc2mem := c2_mem ctx p1 rest hprod (by
      rw [if_pos htm]
      exact ne_nil_of_take11 hc2t)
    rw [if_pos htm] at hc2mem
    have hc2p := (hset _).mp hc2mem
    refine companiesP_partner_kill ctx hc2t ?_ hc2p
    intro hEq2
    exact c2_ne_C1 ctx.target_market (pyLower p1) (extract_geography ctx {})
      hstnil (hEq2.trans hE)

/-- Step 3, branch 2: p1val cannot be a product-need query either. -/
lemma branch_c2 (ctx : BusinessContext)
    (hset : setEqStr (build_customer_queries ctx none)
      (build_partner_queries ctx none))
    (pj : PyStr) (hpj : pj ∈ ctx.products_services.take 2)
    (hE2 : p1val (industryOr ctx) (extract_geography ctx {}) =
      build_query ((if ctx.target_market ≠ [] then ctx.target_market
        else "companies".data) ++ " needing ".data ++ pyLower pj)
        (extract_geography ctx {})) : False := by
  by_cases htm : ctx.target_market = []
  · rw [if_neg (not_not_intro htm)] at hE2
    obtain ⟨Z, hZ⟩ := Sc2_companies (pyLower pj)
    have hb2 : ("companies".data : PyStr) ++ " needing ".data ++ pyLower pj ≠ [] :=
      append_ne_nil_left (append_ne_nil_left (by decide) _) _
    have ht11 : (build_query ("companies".data ++ " needing ".data ++
        pyLower pj) (extract_geography ctx {})).take 11 =
        "companies n".data := by
      rw [build_query_take _ _ hb2 (by
        rw [hZ, List.length_append]
        have h17 : ("companies needing".data).length = 17 := by decide
        omega), hZ, take_append_of_le _ (by decide)]
      decide
    have h2 := congrArg (List.take 11) hE2
    rw [p1val_take11, ht11] at h2
    exact absurd h2 (by decide)
  · rw [if_pos htm] at hE2
    by_cases hstnil : pyStrip ctx.target_market = []
    · have hws := wsonly_of_strip_nil hstnil
      obtain ⟨Z, hZ⟩ := Sc2_ws ctx.target_market (pyLower pj) hws
      have hb2 : ctx.target_market ++ " needing ".data ++ pyLower pj ≠ [] :=
        append_ne_nil_left (append_ne_nil_right _ (by decide)) _
      have hh : (build_query (ctx.target_market ++ " needing ".data ++
          pyLower pj) (extract_geography ctx {})).head? = some 'n' := by
        rcases build_query_cases _ (extract_geography ctx {}) hb2 with
          h | ⟨_, h⟩
        · rw [h, hZ, List.head?_append_of_ne_nil _ (by decide)]
          rfl
        · rw [h, hZ, List.head?_append_of_ne_nil _
            (append_ne_nil_left (append_ne_nil_left (by decide) _) _),
            List.head?_append_of_ne_nil _ (append_ne_nil_left (by decide) _),
            List.head?_append_of_ne_nil _ (by decide)]
          rfl
      rw [← hE2] at hh
      rw [p1val_head] at hh
      exact absurd hh (by decide)
    · obtain ⟨R, hR, hR0, hR1, hRlen⟩ := Sc2_struct ctx.target_market
        (pyLower pj) hstnil
      have hb2 : ctx.target_market ++ " needing ".data ++ pyLower pj ≠ [] :=
        append_ne_nil_left (append_ne_nil_right _ (by decide)) _
      have hbE : p1base (industryOr ctx) ≠ [] := ne_nil_of_head? (p1base_head _)
      have hu1' : ∀ ch, R.get? 1 = some ch → ch ≠ 'p' := by
        intro ch h
        rcases hR1 ch h with h5 | h5
        · intro he
          rw [he] at h5
          exact absurd h5 (by decide)
        · intro he
          rw [he] at h5
          exact absurd h5 (by decide)
      obtain ⟨hlen, htake⟩ : 11 ≤ (pyStrip ctx.target_market).length ∧
          (pyStrip ctx.target_market).take 11 = "companies p".data := by
        have hEu : build_query (p1base (industryOr ctx))
            (extract_geography ctx {}) =
            build_query (ctx.target_market ++ " needing ".data ++ pyLower pj)
              (extract_geography ctx {}) := hE2
        rcases build_query_cases (p1base (industryOr ctx))
            (extract_geography ctx {}) hbE with hA | ⟨hGne, hA⟩ <;>
          rcases build_query_cases (ctx.target_market ++ " needing ".data ++
              pyLower pj) (extract_geography ctx {}) hb2 with
            hB | ⟨hGne2, hB⟩ <;>
            rw [hA, hB, p1base_strip, hR] at hEu
        · exact prefix_take11 hEu.symm (p1base_take11 _) (by omega) hR0 hu1'
        · have heq : pyStrip ctx.target_market ++
              (R ++ (" in ".data ++ extract_geography ctx {})) =
              p1base (industryOr ctx) := by
            rw [← List.append_assoc, ← List.append_assoc, hEu]
          refine prefix_take11 heq (p1base_take11 _) ?_ ?_ ?_
          · rw [List.length_append]
            omega
          · intro ch h
            rw [get?_append_left _ (by omega)] at h
            exact hR0 ch h
          · intro ch h
            rw [get?_append_left _ (by omega)] at h
            exact hu1' ch h
        · have hv : ((p1base (industryOr ctx) ++ " in ".data) ++
              extract_geography ctx {}).take 11 = "companies p".data := by
            rw [take_append_of_le _ (by
              rw [List.length_append, p1base_len]
              omega), take_append_of_le _ (by rw [p1base_len]; omega),
              p1base_take11]
          exact prefix_take11 hEu.symm hv (by omega) hR0 hu1'
        · have h5 := List.append_cancel_right hEu
          have h6 := List.append_cancel_right h5
          exact prefix_take11 h6.symm (p1base_take11 _) (by omega) hR0 hu1'
      have hC1t : (build_query ctx.target_market
          (extract_geography ctx {})).take 11 = "companies p".data :=
        C1_take11 _ _ htm hlen htake
      have hC1mem := C1_mem ctx htm (ne_nil_of_take11 hC1t)
      have hC1p := (hset _).mp hC1mem
      refine companiesP_partner_kill ctx hC1t ?_ hC1p
      intro hEq2
      exact c2_ne_C1 ctx.target_market (pyLower pj) (extract_geography ctx {})
        hstnil (hEq2.trans hE2).symm

lemma builders_not_setEq (ctx : BusinessContext) :
    ¬ setEqStr (build_customer_queries ctx none)
      (build_partner_queries ctx none) := by
  intro hset
  have hprodne := products_ne_nil_of_setEq ctx hset
  obtain ⟨p1, rest, hprod⟩ : ∃ p1 rest, ctx.products_services = p1 :: rest := by
    cases hp : ctx.products_services with
    | nil => exact absurd hp hprodne
    | cons a l => exact ⟨a, l, rfl⟩
  rcases step1 ctx hset with ⟨hE, htm⟩ | ⟨pj, hpj, hE2⟩
  · exact branch_C1 ctx hset p1 rest hprod htm hE
  · exact branch_c2 ctx hset pj hpj hE2

/-- C8: for every business context the customer and partner query lists of the
default (absent-filter) builders are never equal as sets of strings: some
query belongs to exactly one of the two lists. -/
theorem customer_partner_query_sets_differ (ctx : BusinessContext) :
    ∃ q, (q ∈ build_customer_queries ctx none) ≠
      (q ∈ build_partner_queries ctx none) := by
  by_contra hc
  push_neg at hc
  exact builders_not_setEq ctx (fun x => iff_of_eq (hc x))

end SignalForge

end RatKernelEval
